import Mathlib

/-!
# AztecOO: solver session and adaptive strategy controller

A shallow embedding of `packages/aztecoo/src/AztecOO.cpp`, followed by the map accessors of
`packages/petra/src/Petra_RDP_CRS_Matrix.h`, the entry validator of
`packages/panzer/src/responses/Panzer_ResponseUtilities.cpp` and the construction of the local
matrix in `packages/aztecoo/example/aztec_hb/distrib_msr_matrix.c`.

* C++ `int` values are integers (`Int`). The one operation on them that the program repeats
  without a bound, the doubling `kspace *= 2` of the subspace size, is taken in 32-bit two's
  complement arithmetic (`int32`); the other `int` operations are taken exactly.
* C++ `double` values are exact rationals (`Rat`): the code only compares them, doubles them,
  takes maxima and minima and truncates them, so no rounding is involved; NaN and the
  infinities are not represented.
* The Krylov kernel `AZ_iterate`, the preconditioner function and the collective reduction are
  external collaborators; they are parameters of the model (`AztecEnv`).
* The solver session is the structure `AztecOO`; a member function becomes a function from the
  session state to a result and a new session state.
* The nested loops of `AdaptiveIterate` are a step function on the loop heads, so that loops
  that do not terminate are represented as well.
-/

/-! ## Constants of the Aztec header -/

/-- Modelled from the spec: the header `az_aztec_defs.h` is not among the sources. The
termination reasons written to `status[AZ_why]` form a closed set of pairwise distinct codes;
the numbers are those of the Aztec library. This one is normal convergence. -/
def AZ_normal : Int := 0

/-- Modelled from the spec: termination reason "parameter error" (`az_aztec_defs.h`). -/
def AZ_param : Int := 1

/-- Modelled from the spec: termination reason "numerical breakdown" (`az_aztec_defs.h`). -/
def AZ_breakdown : Int := 2

/-- Modelled from the spec: termination reason "maximum iterations reached"
(`az_aztec_defs.h`). -/
def AZ_maxits : Int := 3

/-- Modelled from the spec: termination reason "loss of precision" (`az_aztec_defs.h`). -/
def AZ_loss : Int := 4

/-- Modelled from the spec: termination reason "ill-conditioned" (`az_aztec_defs.h`). -/
def AZ_ill_cond : Int := 5

/-- Modelled from the spec: solver kind GMRES, a value of `options[AZ_solver]`
(`az_aztec_defs.h`). -/
def AZ_gmres : Int := 1

/-- Modelled from the spec: subdomain solve "block ILU", a value of
`options[AZ_subdomain_solve]` (`az_aztec_defs.h`). -/
def AZ_bilu : Int := 7

/-- Modelled from the spec: subdomain solve "direct LU factorization" (`az_aztec_defs.h`). -/
def AZ_lu : Int := 8

/-- Modelled from the spec: subdomain solve "ILUT", the one with a drop tolerance
(`az_aztec_defs.h`). -/
def AZ_ilut : Int := 10

/-- Modelled from the spec: preconditioner kind "domain decomposition", a value of
`options[AZ_precond]` (`az_aztec_defs.h`). -/
def AZ_dom_decomp : Int := 14

/-- Modelled from the spec: preconditioner kind "supplied by the caller"
(`az_aztec_defs.h`). -/
def AZ_user_precond : Int := 16

/-- Modelled from the spec: subdomain solve "block ILU of IFPACK" (`az_aztec_defs.h`). -/
def AZ_bilu_ifp : Int := 17

/-- Modelled from the spec: value of `options[AZ_pre_calc]` asking for the preconditioner to
be computed (`az_aztec_defs.h`). -/
def AZ_calc : Int := 1

/-- Modelled from the spec: value of `options[AZ_pre_calc]` asking for the preconditioner to
be reused (`az_aztec_defs.h`). -/
def AZ_reuse : Int := 3

/-- Modelled from the spec: the macro `EPETRA_MAX(x,y)` of the Epetra headers (not among the
sources), `(x > y) ? x : y`. -/
def EPETRA_MAX {α : Type} [LT α] [DecidableRel (fun a b : α => a < b)] (x y : α) : α :=
  if y < x then x else y

/-- Modelled from the spec: the macro `EPETRA_MIN(x,y)` of the Epetra headers (not among the
sources), `(x < y) ? x : y`. -/
def EPETRA_MIN {α : Type} [LT α] [DecidableRel (fun a b : α => a < b)] (x y : α) : α :=
  if x < y then x else y

/-- The C library function `fabs` on the rational model of `double`. -/
def fabs (v : Rat) : Rat := if v < 0 then -v else v

/-- The conversion `(int) d` of C++: truncation toward zero. -/
def double_to_int (d : Rat) : Int := if 0 ≤ d then ⌊d⌋ else ⌈d⌉

/-! ## Data model -/

/-- The entries of the integer array `options_` that the modelled functions read or write,
named by their index constant. -/
structure AzOptions where
  AZ_solver : Int
  AZ_precond : Int
  AZ_subdomain_solve : Int
  AZ_pre_calc : Int
  AZ_max_iter : Int
  AZ_kspace : Int
  AZ_recursion_level : Int
  AZ_graph_fill : Int
deriving DecidableEq

/-- The entries of the floating-point array `params_` that the modelled functions read or
write, named by their index constant. -/
structure AzParams where
  AZ_tol : Rat
  AZ_drop : Rat
  AZ_ilut_fill : Rat
  AZ_athresh : Rat
  AZ_rthresh : Rat
deriving DecidableEq

/-- The entries of the array `status_` filled by the Krylov kernel: termination reason,
achieved residual norm and iteration count. -/
structure AzStatus where
  AZ_why : Rat
  AZ_r : Rat
  AZ_its : Rat
deriving DecidableEq

/-- A preconditioner object as returned by `AZ_precond_create`: `id` tells one creation from
another, `user` tells whether it wraps a function supplied by the caller. -/
structure AZ_PRECOND where
  id : Nat
  user : Bool
deriving DecidableEq

/-- Record of one call of the Krylov kernel: the options, parameters, condition estimate and
preconditioner in effect when it was called. The list of these records is bookkeeping of the
model, not data of the program. -/
structure SolveAttempt where
  options : AzOptions
  params : AzParams
  condest : Rat
  Prec : Option AZ_PRECOND
deriving DecidableEq

/-- The solver session: the data members of class `AztecOO` used by the modelled functions.
`A_`, `X_`, `B_` tell whether the pointer is non-null; `x_` holds the values of the
solution vector; `azVarsAllocated_` tells whether `SetAztecVariables` has set up the kernel's
view of the problem. `attempts`, `precApplied` and `precCreated` are bookkeeping of the model: the
kernel calls made so far (oldest first), the number of applications of the preconditioner
function and the number of preconditioner objects created. -/
structure AztecOO where
  A_ : Bool
  X_ : Bool
  B_ : Bool
  x_ : List Rat
  N_local_ : Nat
  Prec_ : Option AZ_PRECOND
  options_ : AzOptions
  params_ : AzParams
  status_ : AzStatus
  condest_ : Rat
  useAdaptiveDefaults_ : Bool
  NumTrials_ : Int
  maxFill_ : Rat
  maxKspace_ : Int
  athresholds_ : List Rat
  rthresholds_ : List Rat
  condestThreshold_ : Rat
  azVarsAllocated_ : Bool
  attempts : List SolveAttempt
  precApplied : Nat
  precCreated : Nat
deriving DecidableEq

/-- What one call of the Krylov kernel leaves behind: the new values of the solution vector
and the status array (the kernel mutates x in place and populates the status). -/
structure KernelResult where
  x : List Rat
  status : AzStatus

/-- The external collaborators of a session.
* `AZ_iterate k s`: result of the kernel call number `k` (counted from 0), made in session
  state `s`.
* `prec_function k s`: the local entries of the work vector after application number `k` of
  the preconditioner function to the all-ones vector, in session state `s`.
* `peers k s`: for each other rank, the local entries of its work vector after the same
  application (empty on one rank).
* `AZ_oldsolve k s`: result of the kernel entry used by `recursiveIterate`, for the kernel
  call number `k`, made in session state `s`. -/
structure AztecEnv where
  AZ_iterate : Nat → AztecOO → KernelResult
  prec_function : Nat → AztecOO → List Rat
  peers : Nat → AztecOO → List (List Rat)
  AZ_oldsolve : Nat → AztecOO → KernelResult

/-- How a member function ends: it returns an integer or throws one. -/
inductive Outcome where
  | ret (v : Int)
  | raise (v : Int)
deriving DecidableEq

/-! ## Preconditioner manager -/

/-- The call `AZ_precond_create(Amat_, f, data)` of the Aztec library, assigned to `Prec_`: a
new preconditioner object, distinct from every one created before. -/
def AztecOO.AZ_precond_create (s : AztecOO) (user : Bool) : AztecOO :=
  { s with Prec_ := some { id := s.precCreated, user := user },
           precCreated := s.precCreated + 1 }

/-- Setter `SetAztecParam(AZ_athresh, v)` followed by `SetAztecParam(AZ_rthresh, w)`. -/
def AztecOO.SetThresholds (s : AztecOO) (v w : Rat) : AztecOO :=
  { s with params_ := { s.params_ with AZ_athresh := v, AZ_rthresh := w } }

/-- Setter `SetAztecOption(AZ_max_iter, MaxIters)` followed by
`SetAztecParam(AZ_tol, Tolerance)`. -/
def AztecOO.SetIterTol (s : AztecOO) (MaxIters : Int) (Tolerance : Rat) : AztecOO :=
  { s with options_ := { s.options_ with AZ_max_iter := MaxIters },
           params_ := { s.params_ with AZ_tol := Tolerance } }

/-- The loop of `ConstructPreconditioner` over the local entries of the work vector: the
largest absolute value, starting from 0. -/
def localCondest (condvec : List Rat) : Rat :=
  condvec.foldl (fun c v => if fabs v > c then fabs v else c) 0

/-- The collective `Comm().MaxAll` on one scalar: the largest of this rank's value and the
values contributed by the other ranks. -/
def Comm_MaxAll (mine : Rat) (others : List Rat) : Rat :=
  others.foldl (fun m v => if v > m then v else m) mine

/-- `AztecOO::ConstructPreconditioner(double & condest)`. The second argument is the value of
the variable bound to the reference on entry; the result is the returned integer, the value
of that variable on exit and the new session state. -/
def AztecOO.ConstructPreconditioner (env : AztecEnv) (s : AztecOO) (condest : Rat) :
    Int × Rat × AztecOO :=
  if s.A_ = false then (-1, condest, s)
  else
    let precond_flag := s.options_.AZ_precond
    if precond_flag ≠ 0 then
      let s1 := if s.Prec_ = none then s.AZ_precond_create false else s
      let condvec := (env.prec_function s1.precApplied s1).take s1.N_local_
      let others := (env.peers s1.precApplied s1).map localCondest
      let s2 := { s1 with precApplied := s1.precApplied + 1 }
      let s3 := { s2 with condest_ := localCondest condvec,
                          options_ := { s2.options_ with AZ_pre_calc := AZ_reuse } }
      let tmp_condest := s3.condest_
      let s4 := { s3 with condest_ := Comm_MaxAll tmp_condest others }
      (0, s4.condest_, s4)
    else (0, condest, s)

/-- `AztecOO::DestroyPreconditioner()`. -/
def AztecOO.DestroyPreconditioner (s : AztecOO) : Int × AztecOO :=
  if s.Prec_ ≠ none then
    (0, { s with Prec_ := none, options_ := { s.options_ with AZ_pre_calc := AZ_calc } })
  else (0, s)

/-! ## Solver session -/

/-- The call `AZ_iterate(x_, b_, options_, params_, status_, ...)`: the kernel replaces the
solution vector and the status array; the call is recorded in `attempts`. -/
def AztecOO.AZ_iterate (env : AztecEnv) (s : AztecOO) : AztecOO :=
  let k := env.AZ_iterate s.attempts.length s
  { s with x_ := k.x, status_ := k.status,
           attempts := s.attempts ++
             [{ options := s.options_, params := s.params_, condest := s.condest_,
                Prec := s.Prec_ }] }

/-- The chain "Determine end status" that ends `Iterate` and `AdaptiveIterate`: the kernel's
termination reason becomes the returned code (`ierr`, passed through `EPETRA_CHK_ERR` and
`return(0)`), 1 for max-iterations, or the thrown `ReportError` code -5. -/
def AztecOO.endStatus (s : AztecOO) : Outcome :=
  if s.status_.AZ_why = AZ_normal then .ret 0
  else if s.status_.AZ_why = AZ_param then .ret (-1)
  else if s.status_.AZ_why = AZ_breakdown then .ret (-2)
  else if s.status_.AZ_why = AZ_loss then .ret (-3)
  else if s.status_.AZ_why = AZ_ill_cond then .ret (-4)
  else if s.status_.AZ_why = AZ_maxits then .ret 1
  else .raise (-5)

/-- `AztecOO::Iterate(int MaxIters, double Tolerance)`. -/
def AztecOO.Iterate (env : AztecEnv) (s : AztecOO) (MaxIters : Int) (Tolerance : Rat) :
    Outcome × AztecOO :=
  if s.X_ = false ∨ s.B_ = false ∨ s.A_ = false then (.ret (-1), s)
  else
    let s1 := s.SetIterTol MaxIters Tolerance
    if s1.Prec_ = none then
      if s1.options_.AZ_precond = AZ_user_precond then (.ret (-2), s1)
      else
        let s2 := s1.AZ_precond_create false
        let s3 := s2.AZ_iterate env
        let s4 := { s3 with Prec_ := none }
        (s4.endStatus, s4)
    else
      let s3 := s1.AZ_iterate env
      (s3.endStatus, s3)

/-- `AztecOO::SetAdaptiveParams`: the first `NumTrials` entries of the two threshold arrays
are copied. The model covers calls with `NumTrials` non-negative and arrays of at least
`NumTrials` entries; a negative `NumTrials` makes the allocation `new double[NumTrials]`
fail, which is not represented. -/
def AztecOO.SetAdaptiveParams (s : AztecOO) (NumTrials : Int) (athresholds rthresholds : List Rat)
    (condestThreshold maxFill : Rat) (maxKspace : Int) : AztecOO :=
  let s1 := { s with NumTrials_ := NumTrials, maxFill_ := maxFill, maxKspace_ := maxKspace,
                     athresholds_ := athresholds.take NumTrials.toNat,
                     rthresholds_ := rthresholds.take NumTrials.toNat }
  let s2 := if condestThreshold > 0 then { s1 with condestThreshold_ := condestThreshold } else s1
  { s2 with useAdaptiveDefaults_ := false }

/-! ## Adaptive strategy controller -/

/-- The local variables of `AdaptiveIterate` that live across its loops. -/
structure AdaptiveLocals where
  FirstCallToSolver : Bool
  fill : Rat
  curMaxFill : Rat
  curMaxKspace : Int
  kspace : Int
  curTrial : Int
  curCondestThreshold : Rat
deriving DecidableEq

/-- The control points of the loops of `AdaptiveIterate`: the test of the subspace-size loop
(line 515), the test of the trial loop (line 531), the test of the condition-search loop
(line 538), the solve-and-accept step (lines 554-578), the statement after the loops
(line 582), and a read of a threshold array outside its bounds (undefined behaviour). -/
inductive AdaptivePC where
  | kspaceLoop
  | trialLoop
  | condLoop
  | solve
  | done
  | fault
deriving DecidableEq

/-- A point of the execution of the loops of `AdaptiveIterate`: control point, session state
and local variables. -/
structure AdaptiveConfig where
  pc : AdaptivePC
  s : AztecOO
  l : AdaptiveLocals
deriving DecidableEq

/-- The fill level written into the solver data at the head of the subspace-size loop:
`params_[AZ_ilut_fill] = fill` for ILUT, `options_[AZ_graph_fill] = (int) fill` otherwise. -/
def AztecOO.setFill (s : AztecOO) (fill : Rat) : AztecOO :=
  if s.options_.AZ_subdomain_solve = AZ_ilut then
    { s with params_ := { s.params_ with AZ_ilut_fill := fill } }
  else { s with options_ := { s.options_ with AZ_graph_fill := double_to_int fill } }

/-- The fill level in effect in the solver data: `params_[AZ_ilut_fill]` for ILUT,
`options_[AZ_graph_fill]` otherwise (the two places read at lines 507-508 and written at
lines 518-519). -/
def AztecOO.fillInEffect (s : AztecOO) : Rat :=
  if s.options_.AZ_subdomain_solve = AZ_ilut then s.params_.AZ_ilut_fill
  else (s.options_.AZ_graph_fill : Rat)

/-- The fill level in effect at a recorded kernel call. -/
def SolveAttempt.fill (a : SolveAttempt) : Rat :=
  if a.options.AZ_subdomain_solve = AZ_ilut then a.params.AZ_ilut_fill
  else (a.options.AZ_graph_fill : Rat)

/-- The value a 32-bit two's complement `int` holds after an arithmetic operation whose
mathematical result is `v`: `v` itself when it lies between -2^31 and 2^31 - 1, and `v` reduced
modulo 2^32 into that range otherwise. -/
def int32 (v : Int) : Int := (v + 2 ^ 31) % 2 ^ 32 - 2 ^ 31

/-- The escalation after a max-iterations outcome (lines 565-578). The statement `kspace *= 2`
is on an `int`, and nothing bounds the number of times it is executed, so the doubled value
is taken in 32-bit arithmetic. -/
def escalate (s : AztecOO) (l : AdaptiveLocals) : AztecOO × AdaptiveLocals :=
  if l.fill < l.curMaxFill then
    (s, { l with fill := EPETRA_MIN (2 * l.fill) l.curMaxFill, curTrial := s.NumTrials_ })
  else if s.options_.AZ_subdomain_solve = AZ_ilut ∧ s.params_.AZ_drop > 0 then
    ({ s with params_ := { s.params_ with AZ_drop := 0 } }, { l with curTrial := s.NumTrials_ })
  else
    (s, { l with kspace := int32 (l.kspace * 2), curTrial := 0 })

/-- The solve-and-accept step (lines 554-578): snapshot, kernel call, rollback when the
residual did not improve (never on the first call), escalation on max-iterations. -/
def solveStep (env : AztecEnv) (s : AztecOO) (l : AdaptiveLocals) : AztecOO × AdaptiveLocals :=
  let Xold := s.x_
  let oldResid := s.status_.AZ_r
  let s1 := s.AZ_iterate env
  let s2 := if l.FirstCallToSolver = false then
              (if ¬ (oldResid > s1.status_.AZ_r) then { s1 with x_ := Xold } else s1)
            else s1
  let l2 := { l with FirstCallToSolver := false }
  if s2.status_.AZ_why = AZ_maxits then escalate s2 l2 else (s2, l2)

/-- One pass of the body of the condition-search loop (lines 539-546); `none` when
`curTrial` is not an index of the threshold arrays. -/
def condStep (env : AztecEnv) (s : AztecOO) (l : AdaptiveLocals) :
    Option (AztecOO × AdaptiveLocals) :=
  let s1 := if s.Prec_ ≠ none then s.DestroyPreconditioner.2 else s
  if 0 ≤ l.curTrial then
    match s1.athresholds_[l.curTrial.toNat]?, s1.rthresholds_[l.curTrial.toNat]? with
    | some a, some r =>
      let s2 := s1.SetThresholds a r
      let (_, condest, s3) := s2.ConstructPreconditioner env s2.condest_
      some ({ s3 with condest_ := condest }, { l with curTrial := l.curTrial + 1 })
    | _, _ => none
  else none

/-- The head of the body of the subspace-size loop (lines 516-528): the subspace size and the
fill level are written into the solver data and the condition estimate is reset to the
acceptance ceiling. -/
def kspaceEnter (s : AztecOO) (l : AdaptiveLocals) : AztecOO :=
  let s1 := { s with options_ := { s.options_ with AZ_kspace := l.kspace } }
  let s2 := s1.setFill l.fill
  { s2 with condest_ := s2.condestThreshold_ }

/-- One step of the loops of `AdaptiveIterate`, from one control point to the next. -/
def AdaptiveConfig.step (env : AztecEnv) (c : AdaptiveConfig) : AdaptiveConfig :=
  match c.pc with
  | .kspaceLoop =>
    if (c.s.status_.AZ_why ≠ AZ_normal ∨ c.l.FirstCallToSolver = true)
        ∧ c.l.kspace ≤ c.l.curMaxKspace then
      { pc := .trialLoop, s := kspaceEnter c.s c.l, l := { c.l with curTrial := 0 } }
    else { c with pc := .done }
  | .trialLoop =>
    if (c.s.status_.AZ_why ≠ AZ_normal ∨ c.l.FirstCallToSolver = true)
        ∧ c.l.curTrial < c.s.NumTrials_ then
      { c with pc := .condLoop, l := { c.l with curCondestThreshold := c.s.condest_ } }
    else { c with pc := .kspaceLoop }
  | .condLoop =>
    if c.s.condest_ ≥ c.l.curCondestThreshold then
      match condStep env c.s c.l with
      | some (s, l) => { pc := .condLoop, s := s, l := l }
      | none => { c with pc := .fault }
    else { c with pc := .solve }
  | .solve =>
    let (s, l) := solveStep env c.s c.l
    { pc := .trialLoop, s := s, l := l }
  | .done => c
  | .fault => c

/-- The configuration reached after `n` steps. -/
def AdaptiveConfig.run (env : AztecEnv) : Nat → AdaptiveConfig → AdaptiveConfig
  | 0, c => c
  | n + 1, c => AdaptiveConfig.run env n (c.step env)

/-- Where the statements of `AdaptiveIterate` before its loops lead: a return (or throw) out
of `AdaptiveIterate`, or the entry of the loops. -/
inductive AdaptiveEntry where
  | returned (o : Outcome) (s : AztecOO)
  | loop (c : AdaptiveConfig)
deriving DecidableEq

/-- The configuration in which the loops are entered (for a call that returns before its
loops: the returned state, past the loops). -/
def AdaptiveEntry.config : AdaptiveEntry → AdaptiveConfig
  | .loop c => c
  | .returned _ s =>
    { pc := .done, s := s,
      l := { FirstCallToSolver := true, fill := 0, curMaxFill := 0, curMaxKspace := 0,
             kspace := 0, curTrial := 0, curCondestThreshold := 0 } }

/-- Modelled from the spec: the macro `EPETRA_CHK_ERR(a)` of the Epetra headers (not among
the sources): it returns from the enclosing function only when its argument is non-zero;
otherwise execution goes on with the next statement (`k`). A throw inside the argument
leaves the enclosing function as well. -/
def EPETRA_CHK_ERR (a : Outcome × AztecOO) (k : AztecOO → AdaptiveEntry) : AdaptiveEntry :=
  match a.1 with
  | .raise v => .returned (.raise v) a.2
  | .ret v => if v ≠ 0 then .returned (.ret v) a.2 else k a.2

/-- Lines 506-513 of `AdaptiveIterate`: the initial fill, the two ceilings and the initial
subspace size; then the loops are entered. -/
def AztecOO.AdaptiveIterate_locals (s : AztecOO) : AdaptiveEntry :=
  let fill : Rat := if s.options_.AZ_subdomain_solve = AZ_ilut then s.params_.AZ_ilut_fill
                    else (s.options_.AZ_graph_fill : Rat)
  let curMaxFill := EPETRA_MAX fill s.maxFill_
  let curMaxKspace := EPETRA_MAX s.options_.AZ_kspace s.maxKspace_
  let curMaxKspace := if s.options_.AZ_solver ≠ AZ_gmres then s.options_.AZ_kspace
                      else curMaxKspace
  .loop { pc := .kspaceLoop, s := s,
          l := { FirstCallToSolver := true, fill := fill, curMaxFill := curMaxFill,
                 curMaxKspace := curMaxKspace, kspace := s.options_.AZ_kspace,
                 curTrial := 0, curCondestThreshold := s.condest_ } }

/-- Lines 472-492 of `AdaptiveIterate`: the built-in trial tables. -/
def AztecOO.AdaptiveIterate_defaults (s : AztecOO) : AztecOO :=
  if s.useAdaptiveDefaults_ = true then
    if s.options_.AZ_subdomain_solve = AZ_bilu_ifp then
      s.SetAdaptiveParams 3 [0, 1 / 10 ^ 14, 1 / 10 ^ 3] [0, 1 / 10 ^ 14, 1 / 10 ^ 3]
        (10 ^ 16) 4 (4 * s.options_.AZ_kspace)
    else
      s.SetAdaptiveParams 7
        [0, 1 / 10 ^ 12, 1 / 10 ^ 12, 1 / 10 ^ 5, 1 / 10 ^ 5, 1 / 10 ^ 2, 1 / 10 ^ 2]
        [1, 1, 101 / 100, 1, 101 / 100, 101 / 100, 11 / 10]
        (10 ^ 16) 4 (4 * s.options_.AZ_kspace)
  else s

/-- Lines 465-492 of `AdaptiveIterate`: iteration cap and tolerance, the switch from block
ILU to the block ILU of IFPACK, and the built-in trial tables. -/
def AztecOO.AdaptiveIterate_strategy (s : AztecOO) (MaxIters : Int) (Tolerance : Rat) :
    AztecOO :=
  let s3 := s.SetIterTol MaxIters Tolerance
  let s4 := if s3.options_.AZ_subdomain_solve = AZ_bilu then
              { s3 with options_ := { s3.options_ with AZ_subdomain_solve := AZ_bilu_ifp } }
            else s3
  s4.AdaptiveIterate_defaults

/-- The statements of `AdaptiveIterate` before its loops (lines 461-513). A statement
`if (c) EPETRA_CHK_ERR(Iterate(...))` whose condition is false does nothing, which is written
here as checking a zero. -/
def AztecOO.AdaptiveIterate_begin (env : AztecEnv) (s : AztecOO) (MaxIters : Int)
    (Tolerance : Rat) : AdaptiveEntry :=
  EPETRA_CHK_ERR (if s.options_.AZ_precond ≠ AZ_dom_decomp then s.Iterate env MaxIters Tolerance
                  else (.ret 0, s)) fun s1 =>
  EPETRA_CHK_ERR (if s1.options_.AZ_subdomain_solve = AZ_lu then s1.Iterate env MaxIters Tolerance
                  else (.ret 0, s1)) fun s2 =>
  EPETRA_CHK_ERR (if (s2.AdaptiveIterate_strategy MaxIters Tolerance).NumTrials_ < 1 then
                    (s2.AdaptiveIterate_strategy MaxIters Tolerance).Iterate env MaxIters Tolerance
                  else (.ret 0, s2.AdaptiveIterate_strategy MaxIters Tolerance)) fun s6 =>
  s6.AdaptiveIterate_locals

/-- Lines 582-595 of `AdaptiveIterate`: the preconditioner is destroyed and the end status
determined. -/
def AdaptiveConfig.finish (c : AdaptiveConfig) : Outcome × AztecOO :=
  let s := c.s.DestroyPreconditioner.2
  (s.endStatus, s)

/-- `AztecOO::AdaptiveIterate(int MaxIters, double Tolerance)`, with a bound `fuel` on the
number of loop steps: `none` when the loops have not been left after `fuel` steps. -/
def AztecOO.AdaptiveIterate (env : AztecEnv) (fuel : Nat) (s : AztecOO) (MaxIters : Int)
    (Tolerance : Rat) : Option (Outcome × AztecOO) :=
  match s.AdaptiveIterate_begin env MaxIters Tolerance with
  | .returned o s1 => some (o, s1)
  | .loop c =>
    let c1 := c.run env fuel
    if c1.pc = .done then some c1.finish else none

/-- The session state `n` loop steps into a call of `AdaptiveIterate` (the state at the
return when the call returns before its loops). -/
def AztecOO.AdaptiveIterate_state (env : AztecEnv) (n : Nat) (s : AztecOO) (MaxIters : Int)
    (Tolerance : Rat) : AztecOO :=
  match s.AdaptiveIterate_begin env MaxIters Tolerance with
  | .returned _ s1 => s1
  | .loop c => (c.run env n).s

/-- The session state in which `Iterate` calls the kernel: iteration cap and tolerance set,
and the throwaway default preconditioner created when none was present. -/
def AztecOO.Iterate_kernelInput (s : AztecOO) (MaxIters : Int) (Tolerance : Rat) : AztecOO :=
  if (s.SetIterTol MaxIters Tolerance).Prec_ = none then
    (s.SetIterTol MaxIters Tolerance).AZ_precond_create false
  else s.SetIterTol MaxIters Tolerance

/-! ## Concrete sessions and collaborators used in the examples -/

/-- Modelled from the spec: preconditioner kind "Jacobi" (`az_aztec_defs.h`), used by
`SetProblemOptions`. -/
def AZ_Jacobi : Int := 1

/-- A bound single-rank session with one local row: GMRES, domain decomposition with ILUT
subdomain solves, subspace size 30, ILUT fill 1, drop tolerance 1/100, no preconditioner, the
adaptive strategy left at its defaults. -/
def demoSession : AztecOO :=
  { A_ := true, X_ := true, B_ := true, x_ := [0], N_local_ := 1, Prec_ := none,
    options_ := { AZ_solver := AZ_gmres, AZ_precond := AZ_dom_decomp,
                  AZ_subdomain_solve := AZ_ilut, AZ_pre_calc := AZ_calc, AZ_max_iter := 0,
                  AZ_kspace := 30, AZ_recursion_level := 0, AZ_graph_fill := 0 },
    params_ := { AZ_tol := 0, AZ_drop := 1 / 100, AZ_ilut_fill := 1, AZ_athresh := 0,
                 AZ_rthresh := 0 },
    status_ := { AZ_why := AZ_normal, AZ_r := 0, AZ_its := 0 },
    condest_ := -1, useAdaptiveDefaults_ := true, NumTrials_ := 0, maxFill_ := 0,
    maxKspace_ := 0, athresholds_ := [], rthresholds_ := [], condestThreshold_ := 0,
    azVarsAllocated_ := true, attempts := [], precApplied := 0, precCreated := 0 }

/-- Collaborators on one rank: the kernel call number `k` ends with the reason, residual and
solution listed at position `k` of `outcomes` (with the last entry repeated afterwards), and
every application of the preconditioner function yields half the stored condition estimate. -/
def scriptedEnv (outcomes : List (Int × Rat × List Rat)) : AztecEnv :=
  { AZ_iterate := fun k _ =>
      let o := outcomes.getD k (outcomes.getLastD (AZ_normal, 0, []))
      { x := o.2.2, status := { AZ_why := o.1, AZ_r := o.2.1, AZ_its := 1 } },
    prec_function := fun _ s => [s.condest_ / 2],
    peers := fun _ _ => [],
    AZ_oldsolve := fun k _ =>
      let o := outcomes.getD k (outcomes.getLastD (AZ_normal, 0, []))
      { x := o.2.2, status := { AZ_why := o.1, AZ_r := o.2.1, AZ_its := 1 } } }


/-! ## Properties of runs used in the proofs -/

/-- The order on recorded kernel calls: neither the fill level in effect nor the subspace size
in effect goes down. -/
def SolveAttempt.le (a b : SolveAttempt) : Prop :=
  a.fill ≤ b.fill ∧ a.options.AZ_kspace ≤ b.options.AZ_kspace

instance (a b : SolveAttempt) : Decidable (SolveAttempt.le a b) := by
  unfold SolveAttempt.le; infer_instance

/-- Relation between the session state `s` at the entry of `AdaptiveIterate` and a state `t`
before its loops: fill level and subspace size in effect are those of the entry, and so they
were at every kernel call recorded since the entry. -/
def PreludeKeeps (s t : AztecOO) : Prop :=
  t.fillInEffect = s.fillInEffect ∧ t.options_.AZ_kspace = s.options_.AZ_kspace ∧
  s.attempts.length ≤ t.attempts.length ∧
  ∀ a ∈ t.attempts.drop s.attempts.length,
    a.fill = s.fillInEffect ∧ a.options.AZ_kspace = s.options_.AZ_kspace

/-- Invariant of the loops of `AdaptiveIterate` for the fill level of the kernel calls recorded
after the first `b`: they are in non-decreasing order of fill level in effect, none exceeds
the fill level now in effect, the fill level now in effect does not exceed the one the local
`fill` stands for, and that local is non-negative. -/
def FillMonotoneSoFar (b : Nat) (c : AdaptiveConfig) : Prop :=
  b ≤ c.s.attempts.length ∧
  (c.s.attempts.drop b).Pairwise (fun x y => x.fill ≤ y.fill) ∧
  (∀ a ∈ c.s.attempts.drop b, a.fill ≤ c.s.fillInEffect) ∧
  c.s.fillInEffect ≤ (kspaceEnter c.s c.l).fillInEffect ∧
  0 ≤ c.l.fill

/-- Invariant of the loops of `AdaptiveIterate` for the two ceilings `F` and `K` computed at
the entry of the loops: the locals holding them do not change, the local `fill`, the fill
level in effect and the subspace size in effect stay within them, and outside ILUT a negative
`fill` is a whole number. -/
def WithinCeilings (F : Rat) (K : Int) (c : AdaptiveConfig) : Prop :=
  c.l.curMaxFill = F ∧ c.l.curMaxKspace = K ∧ c.l.fill ≤ F ∧ c.s.fillInEffect ≤ F ∧
  c.s.options_.AZ_kspace ≤ K ∧
  (c.s.options_.AZ_subdomain_solve ≠ AZ_ilut → c.l.fill < 0 → ∃ z : Int, c.l.fill = z)

/-- Invariant of the loops of `AdaptiveIterate` once only the subspace-size escalation is
left, for a kernel that always ends in max-iterations and condition estimates that keep
getting smaller: the last status is max-iterations, a solve attempt has been made, fill is at
its ceiling, the drop tolerance is 0, the session is bound with a domain-decomposition
preconditioner kind and a trial table of seven trials, the condition estimate is positive,
and control is at the trial-loop head with index 0, in the condition search before or after
its single rebuild, or at the solve step. The number `m` counts the steps: four times the
number of kernel calls made plus the position in this round of four. -/
def KspaceSpin (c : AdaptiveConfig) (m : Nat) : Prop :=
  c.s.status_.AZ_why = AZ_maxits ∧ c.l.FirstCallToSolver = false ∧ c.s.NumTrials_ = 7 ∧
  c.s.athresholds_.length = 7 ∧ c.s.rthresholds_.length = 7 ∧ c.s.A_ = true ∧
  c.s.options_.AZ_precond = AZ_dom_decomp ∧ c.s.N_local_ = 1 ∧
  ¬ c.l.fill < c.l.curMaxFill ∧ c.s.params_.AZ_drop = 0 ∧ 0 < c.s.condest_ ∧
  ((c.pc = .trialLoop ∧ c.l.curTrial = 0 ∧ 4 * c.s.attempts.length = m) ∨
   (c.pc = .condLoop ∧ c.l.curTrial = 0 ∧ c.l.curCondestThreshold = c.s.condest_ ∧
      4 * c.s.attempts.length + 1 = m) ∨
   (c.pc = .condLoop ∧ c.l.curTrial = 1 ∧ c.s.condest_ < c.l.curCondestThreshold ∧
      4 * c.s.attempts.length + 2 = m) ∨
   (c.pc = .solve ∧ c.l.curTrial = 1 ∧ 4 * c.s.attempts.length + 3 = m))

/-! ## Concrete sessions and collaborators used in the examples (continued) -/

/-- The demo session with the Jacobi preconditioner kind instead of domain decomposition. -/
def jacobiSession : AztecOO :=
  { demoSession with options_ := { demoSession.options_ with AZ_precond := AZ_Jacobi } }

/-- The demo session after `SetAdaptiveParams(0, ...)`: an explicitly supplied trial table
with no trials (maximum fill 4, maximum subspace size 120). -/
def noTrialsSession : AztecOO := demoSession.SetAdaptiveParams 0 [] [] 0 4 120

/-- The configuration in which a call `AdaptiveIterate(100, 1/1000)` on the demo session
enters its loops. -/
def demoEntry (env : AztecEnv) : AdaptiveConfig :=
  (demoSession.AdaptiveIterate_begin env 100 (1 / 1000)).config

/-- Three kernel calls: max-iterations with residual 5 and solution `[1]`, max-iterations
with residual 7 and solution `[2]`, normal convergence with residual 6 and solution `[3]`. -/
def rollbackEnv : AztecEnv :=
  scriptedEnv [(AZ_maxits, 5, [1]), (AZ_maxits, 7, [2]), (AZ_normal, 6, [3])]

/-- Two kernel calls: breakdown with residual 5 and solution `[1]`, then normal convergence
with residual 1 and solution `[2]`. -/
def breakdownEnv : AztecEnv := scriptedEnv [(AZ_breakdown, 5, [1]), (AZ_normal, 1, [2])]

/-- One kernel outcome, repeated for ever: max-iterations with residual 5 and solution
`[1]`. -/
def stallEnv : AztecEnv := scriptedEnv [(AZ_maxits, 5, [1])]

/-- The Jacobi session after a call of `ConstructPreconditioner`: a preconditioner is
present. -/
def jacobiBuiltSession : AztecOO := (jacobiSession.ConstructPreconditioner stallEnv 0).2.2

/-- The demo session with ILUT fill 10 and an explicitly supplied trial table of one trial
with maximum fill 4 and maximum subspace size 20, both below the values in effect. -/
def aboveCeilingsSession : AztecOO :=
  ({ demoSession with params_ := { demoSession.params_ with AZ_ilut_fill := 10 } }
    : AztecOO).SetAdaptiveParams 1 [0] [1] (10 ^ 16) 4 20


/-! ## Solver session and preconditioner manager: further operations -/

/-- `AztecOO::SetPreconditioner(prec_function, p_data)`: a preconditioner wrapping the
function of the caller is created and assigned to `Prec_`, and the preconditioner kind becomes
the user-supplied one. -/
def AztecOO.SetPreconditioner (s : AztecOO) : Int × AztecOO :=
  let s1 := s.AZ_precond_create true
  (0, { s1 with options_ := { s1.options_ with AZ_precond := AZ_user_precond } })

/-- The call `AZ_oldsolve(x_, b_, options_, params_, status_, ...)` of `recursiveIterate`: as
for `AZ_iterate`, the kernel replaces the solution vector and the status array, and the call
is recorded in `attempts`. -/
def AztecOO.AZ_oldsolve (env : AztecEnv) (s : AztecOO) : AztecOO :=
  let k := env.AZ_oldsolve s.attempts.length s
  { s with x_ := k.x, status_ := k.status,
           attempts := s.attempts ++
             [{ options := s.options_, params := s.params_, condest := s.condest_,
                Prec := s.Prec_ }] }

/-- How `recursiveIterate` ends: like any member function with a new session state, or by
`exit(code)`, which ends the process. -/
inductive RecursiveOutcome where
  | ended (o : Outcome) (s : AztecOO)
  | exit (code : Int)
deriving DecidableEq

/-- The session state in which `recursiveIterate` calls the kernel: iteration cap and
tolerance set, the throwaway default preconditioner created when none was present, and the
recursion level raised by one. -/
def AztecOO.recursiveIterate_kernelInput (s : AztecOO) (MaxIters : Int) (Tolerance : Rat) :
    AztecOO :=
  let s1 := s.SetIterTol MaxIters Tolerance
  let s2 := if s1.Prec_ = none then s1.AZ_precond_create false else s1
  { s2 with options_ := { s2.options_ with
      AZ_recursion_level := s2.options_.AZ_recursion_level + 1 } }

/-- `AztecOO::recursiveIterate(int MaxIters, double Tolerance)`. -/
def AztecOO.recursiveIterate (env : AztecEnv) (s : AztecOO) (MaxIters : Int) (Tolerance : Rat) :
    RecursiveOutcome :=
  let s1 := s.SetIterTol MaxIters Tolerance
  if s1.Prec_ = none then
    if s1.options_.AZ_precond = AZ_user_precond then .exit 1
    else
      let s2 := s1.AZ_precond_create false
      let s3 := { s2 with options_ := { s2.options_ with
                    AZ_recursion_level := s2.options_.AZ_recursion_level + 1 } }
      let s4 := s3.AZ_oldsolve env
      let s5 := { s4 with options_ := { s4.options_ with
                    AZ_recursion_level := s4.options_.AZ_recursion_level - 1 } }
      let s6 := { s5 with Prec_ := none }
      .ended s6.endStatus s6
  else
    let s3 := { s1 with options_ := { s1.options_ with
                  AZ_recursion_level := s1.options_.AZ_recursion_level + 1 } }
    let s4 := s3.AZ_oldsolve env
    let s5 := { s4 with options_ := { s4.options_ with
                  AZ_recursion_level := s4.options_.AZ_recursion_level - 1 } }
    .ended s5.endStatus s5

/-- The termination reasons that the end-status chain knows. -/
def knownReason (why : Rat) : Prop :=
  why = AZ_normal ∨ why = AZ_param ∨ why = AZ_breakdown ∨ why = AZ_loss ∨
  why = AZ_ill_cond ∨ why = AZ_maxits

/-- The demo session with the user-supplied preconditioner kind and no preconditioner. -/
def userKindSession : AztecOO :=
  { demoSession with options_ := { demoSession.options_ with AZ_precond := AZ_user_precond } }

/-- The demo session with the no-preconditioner kind 0. -/
def noneKindSession : AztecOO :=
  { demoSession with options_ := { demoSession.options_ with AZ_precond := 0 } }

/-- Collaborators on two ranks: the preconditioner function leaves `[1/2, -3, 2]` on this rank
and `[-7/2, 1]` on the other; the kernels converge at once. -/
def twoRankEnv : AztecEnv :=
  { AZ_iterate := fun _ s => { x := s.x_, status := { AZ_why := AZ_normal, AZ_r := 0, AZ_its := 1 } },
    prec_function := fun _ _ => [1 / 2, -3, 2],
    peers := fun _ _ => [[-7 / 2, 1]],
    AZ_oldsolve := fun _ s =>
      { x := s.x_, status := { AZ_why := AZ_normal, AZ_r := 0, AZ_its := 1 } } }

/-- The largest absolute value among the entries of a vector, 0 for a vector without entries,
as the claim on the condition estimate words the estimate of one rank. -/
def spec_rankEstimate (v : List Rat) : Rat := (v.map fun e => |e|).foldr max 0

/-- The maximum over all ranks of the estimates of the ranks, as the claim on the condition
estimate words the reported value; `ranks` holds the local entries of each rank. -/
def spec_condest (ranks : List (List Rat)) : Rat := (ranks.map spec_rankEstimate).foldr max 0

/-- The session state in which `ConstructPreconditioner` applies the preconditioner function:
the default preconditioner has been created when none was present. -/
def AztecOO.ConstructPreconditioner_input (s : AztecOO) : AztecOO :=
  if s.Prec_ = none then s.AZ_precond_create false else s

/-- The local entries, rank by rank, of the work vector after `ConstructPreconditioner` has
applied the preconditioner function to the all-ones vector: the first `N_local_` entries on
this rank, then the local entries of each other rank. -/
def AztecOO.condvecs (env : AztecEnv) (s : AztecOO) : List (List Rat) :=
  (env.prec_function s.ConstructPreconditioner_input.precApplied
      s.ConstructPreconditioner_input).take s.N_local_ ::
    env.peers s.ConstructPreconditioner_input.precApplied s.ConstructPreconditioner_input

/-- The demo session with three local rows. -/
def threeRowSession : AztecOO := { demoSession with N_local_ := 3 }

/-! ## Operator adapter: row extraction -/

/-- The operator behind the adapter (the result of `AZ_get_matvec_data(Amat)`), as far as
`Epetra_Aztec_getrow` uses it. The body of `ExtractMyRowCopy(MyRow, Length, NumEntries, Values,
Indices)` is not part of the sources (its declaration says "Integer error code, set to 0 if
successful"), so it is a parameter: `ExtractMyRowCopy MyRow Length` is the error code together
with the (column index, value) entries the call copies out; `NumEntries` is their number. -/
structure Epetra_RowMatrix where
  ExtractMyRowCopy : Int → Int → Int × List (Int × Rat)

/-- The three caller buffers `Epetra_Aztec_getrow` writes into. -/
structure GetrowBuffers where
  columns : List Int
  values : List Rat
  row_lengths : List Int
deriving DecidableEq

/-- Writing the block `xs` into the array `buf` from position `off` on, as a callee does that is
handed the pointer `buf + off`. -/
def writeAt {α : Type} (buf : List α) (off : Nat) (xs : List α) : List α :=
  buf.take off ++ xs ++ buf.drop (off + xs.length)

/-- The loop of `Epetra_Aztec_getrow` (lines 653-662) over the requested rows still to do.
`i` is the loop index, `off` the distance of the pointers `Values` and `Indices` from the start
of `values` and `columns`, `Length` the remaining length. A failing copy ends the function with
0; what it may have left in the buffers is not represented. -/
def getrow_loop (A : Epetra_RowMatrix) :
    List Int → Nat → Nat → Int → GetrowBuffers → Int × GetrowBuffers
  | [], _, _, _, b => (1, b)
  | LocalRow :: rest, i, off, Length, b =>
    if (A.ExtractMyRowCopy LocalRow Length).1 ≠ 0 then (0, b)
    else
      getrow_loop A rest (i + 1) (off + (A.ExtractMyRowCopy LocalRow Length).2.length)
        (Length - ((A.ExtractMyRowCopy LocalRow Length).2.length : Int))
        { columns := writeAt b.columns off ((A.ExtractMyRowCopy LocalRow Length).2.map Prod.fst),
          values := writeAt b.values off ((A.ExtractMyRowCopy LocalRow Length).2.map Prod.snd),
          row_lengths :=
            b.row_lengths.set i ((A.ExtractMyRowCopy LocalRow Length).2.length : Int) }

/-- `Epetra_Aztec_getrow(columns, values, row_lengths, Amat, N_requested_rows, requested_rows,
allocated_space)`: the return value and the buffers afterwards. The model covers calls with
`requested_rows` of at least `N_requested_rows` entries. -/
def Epetra_Aztec_getrow (columns : List Int) (values : List Rat) (row_lengths : List Int)
    (A : Epetra_RowMatrix) (N_requested_rows : Int) (requested_rows : List Int)
    (allocated_space : Int) : Int × GetrowBuffers :=
  getrow_loop A (requested_rows.take N_requested_rows.toNat) 0 0 allocated_space
    { columns := columns, values := values, row_lengths := row_lengths }

/-- The assumption on the operator's row copy for the rows `rows`, whose entries are given by
`entries`: the copy fails exactly when the row's entry count exceeds the length passed to it,
and a successful copy hands out the entries of the row. -/
def Epetra_RowMatrix.copiesRows (A : Epetra_RowMatrix) (entries : Int → List (Int × Rat))
    (rows : List Int) : Prop :=
  ∀ r ∈ rows, ∀ Length : Int,
    ((A.ExtractMyRowCopy r Length).1 ≠ 0 ↔ Length < ((entries r).length : Int)) ∧
    ((A.ExtractMyRowCopy r Length).1 = 0 → (A.ExtractMyRowCopy r Length).2 = entries r)

/-- Total number of nonzeros of the rows `rows`. -/
def spec_totalNonzeros (entries : Int → List (Int × Rat)) (rows : List Int) : Nat :=
  (rows.map fun r => (entries r).length).sum

/-- An operator that stores its local rows as lists of entries. Its row copy answers -1 for an
index that is no local row, -2 for a row with more entries than `Length`, and 0 with the
entries of the row otherwise. -/
def listOperator (rows : List (List (Int × Rat))) : Epetra_RowMatrix where
  ExtractMyRowCopy := fun MyRow Length =>
    if MyRow < 0 ∨ (rows.length : Int) ≤ MyRow then (-1, [])
    else if Length < ((rows.getD MyRow.toNat []).length : Int) then (-2, [])
    else (0, rows.getD MyRow.toNat [])

/-- The rows of the 3 by 3 matrix tridiag(-1, 2, -1). -/
def tridiagonalRows : List (List (Int × Rat)) :=
  [[(0, 2), (1, -1)], [(0, -1), (1, 2), (2, -1)], [(1, -1), (2, 2)]]

/-- The entries of the rows of `tridiagonalRows`, by local row index. -/
def tridiagonalEntries (r : Int) : List (Int × Rat) := tridiagonalRows.getD r.toNat []

/-! ## Petra_RDP_CRS_Matrix: the maps of a matrix -/

/-- Modelled from the spec: the class `Petra_Map` is not among the sources. A map is the list
of global indices it assigns to this process. -/
structure Petra_Map where
  MyGlobalElements : List Int
deriving DecidableEq

/-- Modelled from the spec: the class `Petra_CRS_Graph` is not among the sources. As far as the
accessors of the matrix use it, a graph holds the row map and the column map it was built
from. -/
structure Petra_CRS_Graph where
  RowMap : Petra_Map
  ColMap : Petra_Map
deriving DecidableEq

/-- The data members of `Petra_RDP_CRS_Matrix` used by the map accessors (lines 747-749). -/
structure Petra_RDP_CRS_Matrix where
  Graph_ : Petra_CRS_Graph
  StaticGraph_ : Bool
deriving DecidableEq

/-- Modelled from the spec: the constructors `Petra_RDP_CRS_Matrix(CV, RowMap, ColMap,
NumEntriesPerRow)` are declared at lines 95 and 111, their bodies are not among the sources.
The matrix owns a graph built from the row map and the column map. -/
def Petra_RDP_CRS_Matrix.withColMap (RowMap ColMap : Petra_Map) : Petra_RDP_CRS_Matrix :=
  { Graph_ := { RowMap := RowMap, ColMap := ColMap }, StaticGraph_ := false }

/-- `Petra_RDP_CRS_Matrix::RowMap()` (line 622): `return((Petra_Map &)Graph_->RowMap());`. -/
def Petra_RDP_CRS_Matrix.RowMap (M : Petra_RDP_CRS_Matrix) : Petra_Map := M.Graph_.RowMap

/-- `Petra_RDP_CRS_Matrix::ColMap()` (line 625): `return((Petra_Map &)Graph_->RowMap());`. -/
def Petra_RDP_CRS_Matrix.ColMap (M : Petra_RDP_CRS_Matrix) : Petra_Map := M.Graph_.RowMap

/-- A 2 by 3 matrix: rows 0 and 1, columns 0, 1 and 2. -/
def rectangularMatrix : Petra_RDP_CRS_Matrix :=
  Petra_RDP_CRS_Matrix.withColMap { MyGlobalElements := [0, 1] }
    { MyGlobalElements := [0, 1, 2] }

/-! ## Concrete collaborators used in the examples on the condition search -/

/-- Collaborators on one rank: every application of the preconditioner function yields the
condition estimate `e`, and every kernel call ends with the reason `why`, residual 1 and the
solution vector as it was. -/
def constantEnv (e : Rat) (why : Int) : AztecEnv :=
  { AZ_iterate := fun _ s => { x := s.x_, status := { AZ_why := why, AZ_r := 1, AZ_its := 1 } },
    prec_function := fun _ _ => [e],
    peers := fun _ _ => [],
    AZ_oldsolve := fun _ s =>
      { x := s.x_, status := { AZ_why := why, AZ_r := 1, AZ_its := 1 } } }

/-! ## Properties of runs used in the proofs on the condition search -/

/-- Invariant of the loops of `AdaptiveIterate` for the acceptance ceiling `T`, on a session
with an operator bound and a preconditioner kind other than none: the ceiling does not change,
every kernel call recorded after the first `b` ran with a preconditioner whose estimate was
below `T`, the estimate at the head of the trial loop and the value a condition search
compares with do not exceed `T`, and a condition search that has found an estimate below that
value holds a preconditioner. -/
def BelowCeiling (T : Rat) (b : Nat) (c : AdaptiveConfig) : Prop :=
  c.s.A_ = true ∧ c.s.options_.AZ_precond ≠ 0 ∧ c.s.condestThreshold_ = T ∧
  b ≤ c.s.attempts.length ∧
  (∀ a ∈ c.s.attempts.drop b, a.condest < T ∧ a.Prec ≠ none) ∧
  (c.pc = .trialLoop → c.s.condest_ ≤ T) ∧
  (c.pc = .condLoop → c.l.curCondestThreshold ≤ T ∧
    (c.s.condest_ < c.l.curCondestThreshold → c.s.Prec_ ≠ none)) ∧
  (c.pc = .solve → c.s.condest_ < T ∧ c.s.Prec_ ≠ none)

/-! ## Panzer response utilities: `CommaSeperatedEntryValidator` -/

/-- Modelled from the spec: `std::isspace` in the classic locale, the test `boost::trim` uses:
the space and the control characters tab, line feed, vertical tab, form feed and carriage
return (codes 9 to 13). -/
def isspace (c : Char) : Bool := c.toNat = 32 || (9 ≤ c.toNat && c.toNat ≤ 13)

/-- Modelled from the spec: `boost::trim(s)` of the Boost string algorithms (not among the
sources): the white space at both ends of `s` is removed. -/
def boost_trim (s : List Char) : List Char :=
  ((s.dropWhile isspace).reverse.dropWhile isspace).reverse

/-- Modelled from the spec: the tokens of `boost::tokenizer<boost::char_separator<char>>` for
the separator `boost::char_separator<char>(delim)` (Boost, not among the sources): every
character of `delim` is a delimiter that is dropped, and empty tokens are dropped, so the
tokens are the maximal runs of characters outside `delim`. `cur` is the token being read. -/
def boost_tokenizer (delim : List Char) : List Char → List Char → List (List Char)
  | [], cur => if cur = [] then [] else [cur]
  | c :: cs, cur =>
    if c ∈ delim then
      if cur = [] then boost_tokenizer delim cs [] else cur :: boost_tokenizer delim cs []
    else boost_tokenizer delim cs (cur ++ [c])

/-- `CommaSeperatedEntryValidator::split(str, delim, output)` (lines 7-25): the contents of
`output` afterwards. Each token is trimmed and pushed when it is not empty. -/
def CommaSeperatedEntryValidator.split (str delim : List Char) : List (List Char) :=
  (boost_tokenizer delim str []).foldl
    (fun output tok => if (boost_trim tok).length ≠ 0 then output ++ [boost_trim tok] else output)
    []

/-- Modelled from the spec: the value held by a `Teuchos::ParameterEntry` (a `Teuchos::any`,
not among the sources), by the type of the value. -/
inductive AnyValue where
  | string (value : List Char)
  | int (value : Int)
  | double (value : Rat)
  | bool (value : Bool)
deriving DecidableEq

/-- How `validate` ends: it returns, or `TEST_FOR_EXCEPTION` throws one of the two exceptions
of `Teuchos::Exceptions`. The text of the message is not represented. -/
inductive ValidateOutcome where
  | accepted
  | InvalidParameterType
  | InvalidParameterValue
deriving DecidableEq

/-- `CommaSeperatedEntryValidator::validate(entry, paramName, sublistName)` (lines 27-59);
`paramName` and `sublistName` only appear in the messages. -/
def CommaSeperatedEntryValidator.validate (entry : AnyValue) : ValidateOutcome :=
  match entry with
  | .string value =>
    let tokens := CommaSeperatedEntryValidator.split value [Char.ofNat 44]
    if tokens.length = 0 then .InvalidParameterValue else .accepted
  | _ => .InvalidParameterType

/-- The wording of the claim on the validator: the string contains a character that is
neither a comma nor white space. -/
def spec_hasEntry (value : List Char) : Prop :=
  ∃ c ∈ value, c ≠ Char.ofNat 44 ∧ isspace c = false

/-! ## Example driver: `distrib_msr_matrix` -/

/-- Reading `a[i]` for a C `int` index; `none` outside the array (undefined behaviour). -/
def readAt {α : Type} (a : List α) (i : Int) : Option α :=
  if 0 ≤ i then a[i.toNat]? else none

/-- The assignment `a[i] = v` for a C `int` index; `none` outside the array (undefined
behaviour). -/
def writeTo {α : Type} (a : List α) (i : Int) (v : α) : Option (List α) :=
  if 0 ≤ i ∧ i.toNat < a.length then some (a.set i.toNat v) else none

/-- The loop of lines 139-140 over the local rows still to do:
`*n_nonzeros += (*bindx)[(*update)[i]+1] - (*bindx)[(*update)[i]]`. -/
def distrib_countLoop (bindx update : List Int) : List Nat → Int → Option Int
  | [], n_nonzeros => some n_nonzeros
  | i :: rest, n_nonzeros =>
    match update[i]? with
    | none => none
    | some row =>
      match readAt bindx (row + 1), readAt bindx row with
      | some hi, some lo => distrib_countLoop bindx update rest (n_nonzeros + (hi - lo))
      | _, _ => none

/-- The loop of lines 182-187 over the values of `j` still to do, for the local row `i`:
`val1[bindx1[i+1]] = (*val)[j]; bindx1[bindx1[i+1]] = (*bindx)[j]; bindx1[i+1]++`. -/
def distrib_copyLoop (val : List Rat) (bindx : List Int) (i : Nat) :
    List Int → List Int × List Rat → Option (List Int × List Rat)
  | [], st => some st
  | j :: rest, (bindx1, val1) =>
    match bindx1[i + 1]?, readAt val j, readAt bindx j with
    | some p, some v, some col =>
      match writeTo val1 p v, writeTo bindx1 p col with
      | some val1a, some bindx1a =>
        match bindx1a[i + 1]? with
        | some q =>
          match writeTo bindx1a ((i : Int) + 1) (q + 1) with
          | some bindx1b => distrib_copyLoop val bindx i rest (bindx1b, val1a)
          | none => none
        | none => none
      | _, _ => none
    | _, _, _ => none

/-- The local problem `distrib_msr_matrix` hands back through its pointer arguments. -/
structure MsrLocal where
  n_nonzeros : Int
  val : List Rat
  bindx : List Int
  b : List Rat
  x : List Rat
  xexact : Option (List Rat)
deriving DecidableEq

/-- The first `n` values of `j` of a loop `for (j = lo; ...; j++)`. -/
def forCount (lo : Int) : Nat → List Int
  | 0 => []
  | n + 1 => lo :: forCount (lo + 1) n

/-- The values of `j` of the loop `for (j = lo; j < hi; j++)`. -/
def forRange (lo hi : Int) : List Int := forCount lo (hi - lo).toNat

/-- Line 171, `if (have_xexact) xexact1[i] = (*xexact)[row];`: the new value of `xexact1`.
There is an exact solution exactly when `xexact` is not `NULL`. -/
def distrib_xexactStep (xexact xexact1 : Option (List Rat)) (i : Nat) (row : Int) :
    Option (Option (List Rat)) :=
  match xexact, xexact1 with
  | some xe, some xe1 =>
    match readAt xe row with
    | some ev => (writeTo xe1 i ev).map some
    | none => none
  | none, xe1 => some xe1
  | some _, none => none

/-- The body of the loop of lines 166-188 for the local rows still to do. `g` is the global
problem (matrix in MSR format, right-hand side, initial guess, exact solution when there is
one), `l` the local problem under construction. -/
def distrib_rowLoop (g : MsrLocal) (update : List Int) : List Nat → MsrLocal → Option MsrLocal
  | [], l => some l
  | i :: rest, l =>
    match update[i]? with
    | none => none
    | some row =>
      match readAt g.b row, readAt g.x row, readAt g.val row with
      | some bv, some xv, some dv =>
        match writeTo l.b i bv, writeTo l.x i xv with
        | some b1, some x1 =>
          match distrib_xexactStep g.xexact l.xexact i row, writeTo l.val i dv, l.bindx[i]? with
          | some xe1, some val1, some p =>
            match writeTo l.bindx ((i : Int) + 1) p, readAt g.bindx row, readAt g.bindx (row + 1) with
            | some bindx1, some lo, some hi =>
              match distrib_copyLoop g.val g.bindx i (forRange lo hi) (bindx1, val1) with
              | some (bindx1a, val1a) =>
                distrib_rowLoop g update rest
                  { l with val := val1a, bindx := bindx1a, b := b1, x := x1, xexact := xe1 }
              | none => none
            | _, _, _ => none
          | _, _, _ => none
        | _, _ => none
      | _, _, _ => none

/-- The construction of the local matrix in `distrib_msr_matrix` (lines 133-219). `g` holds
the global problem as every process has it after the broadcasts (lines 65-111), `N_update` and
`update` are the result of `AZ_read_update` (lines 115-121); both are library calls outside
the sources. The result is what the pointer arguments refer to on return, `none` when an
array is accessed outside its bounds. With one process nothing is done. -/
def distrib_msr_matrix (N_procs : Int) (g : MsrLocal) (N_update : Int) (update : List Int) :
    Option MsrLocal :=
  if N_procs > 1 then
    match distrib_countLoop g.bindx update (List.range N_update.toNat) N_update with
    | none => none
    | some n_nonzeros =>
      let bindx1 : List Int := List.replicate (n_nonzeros + 1).toNat 0
      let val1 : List Rat := List.replicate (n_nonzeros + 1).toNat 0
      let b1 : List Rat := List.replicate N_update.toNat 0
      let x1 : List Rat := List.replicate N_update.toNat 0
      let xexact1 : Option (List Rat) :=
        if g.xexact.isSome then some (List.replicate N_update.toNat 0) else none
      match writeTo bindx1 0 (N_update + 1) with
      | none => none
      | some bindx1a =>
        distrib_rowLoop g update (List.range N_update.toNat)
          { n_nonzeros := n_nonzeros, val := val1, bindx := bindx1a, b := b1, x := x1,
            xexact := xexact1 }
  else some g

/-- The 4 by 4 matrix tridiag(-1, 2, -1) in MSR format with right-hand side and initial
guess, no exact solution. -/
def tridiagonalMsr : MsrLocal :=
  { n_nonzeros := 10,
    val := [2, 2, 2, 2, 0, -1, -1, -1, -1, -1, -1],
    bindx := [5, 6, 8, 10, 11, 1, 0, 2, 1, 3, 2],
    b := [1, 0, 0, 1], x := [0, 0, 0, 0], xexact := none }

/-- The entry `bindx[row]` of an MSR index array: where the off-diagonal entries of the row
start (0 when `row` is no index of the array). -/
def msrRowStart (bindx : List Int) (row : Int) : Int := (readAt bindx row).getD 0

/-- The entry `bindx[row + 1]` of an MSR index array: where the off-diagonal entries of the row
end (0 when `row + 1` is no index of the array). -/
def msrRowEnd (bindx : List Int) (row : Int) : Int := (readAt bindx (row + 1)).getD 0

/-- Number of off-diagonal entries of a row of an MSR matrix. -/
def msrRowCount (bindx : List Int) (row : Int) : Nat :=
  (msrRowEnd bindx row - msrRowStart bindx row).toNat

/-- The global row `row` is a row of the global problem `g` in MSR format: `row` and `row + 1`
are indices of the index array, the diagonal value, right-hand side, initial guess and exact
solution exist for it, and its off-diagonal entries occupy a range `bindx[row] ≤ bindx[row+1]`
inside the value and index arrays. -/
def MsrRowValid (g : MsrLocal) (row : Int) : Prop :=
  0 ≤ row ∧ row.toNat + 1 < g.bindx.length ∧ row.toNat < g.val.length ∧
  row.toNat < g.b.length ∧ row.toNat < g.x.length ∧
  g.xexact.all (fun xe => decide (row.toNat < xe.length)) = true ∧
  0 ≤ msrRowStart g.bindx row ∧ msrRowStart g.bindx row ≤ msrRowEnd g.bindx row ∧
  msrRowEnd g.bindx row ≤ g.bindx.length ∧ msrRowEnd g.bindx row ≤ g.val.length

/-- Where the off-diagonal entries of local row `i` start in the local arrays, as the claim on
the local matrix words it: behind the `update.length + 1` leading entries and the off-diagonal
entries of the local rows before `i`. -/
def spec_localStart (g : MsrLocal) (update : List Int) (i : Nat) : Nat :=
  update.length + 1 + ((update.take i).map (msrRowCount g.bindx)).sum

instance (g : MsrLocal) (row : Int) : Decidable (MsrRowValid g row) := by
  unfold MsrRowValid
  infer_instance

/-! ## Solver session: binding a new problem -/

/-- `AztecOO::DeleteMemory()` (lines 100-115), as far as the modelled state goes: once the
kernel's view of the problem has been set up, a preconditioner that is present is destroyed.
The matrix structure `Amat_` and the array `update_` are not represented. -/
def AztecOO.DeleteMemory (s : AztecOO) : AztecOO :=
  if s.azVarsAllocated_ = false then s
  else if s.Prec_ ≠ none then { s with Prec_ := none } else s

/-- `AztecOO::SetAztecVariables()` (lines 133-177). `x` stands for the values of `*X_` and `N`
for `B_->MyLength()`, which are read only when the pointers are non-null. -/
def AztecOO.SetAztecVariables (s : AztecOO) (x : List Rat) (N : Nat) : Int × AztecOO :=
  let s1 := s.DeleteMemory
  if s1.X_ = false ∨ s1.B_ = false ∨ s1.A_ = false then (-1, s1)
  else (0, { s1 with N_local_ := N, x_ := x, Prec_ := none, azVarsAllocated_ := true })

/-- `AztecOO::Iterate(A, X, B, MaxIters, Tolerance)` (lines 422-434). `A` tells whether the
operator pointer is non-null, `X` holds the values of the new solution vector and `B` the
local length of the new right-hand side (`none` for a null pointer). The result of
`SetAztecVariables` is not looked at; `EPETRA_CHK_ERR(Iterate(...)); return(0);` hands on the
result of `Iterate` whatever it is. -/
def AztecOO.Iterate_A_X_B (env : AztecEnv) (s : AztecOO) (A : Bool) (X : Option (List Rat))
    (B : Option Nat) (MaxIters : Int) (Tolerance : Rat) : Outcome × AztecOO :=
  let s1 := { s with A_ := A, X_ := X.isSome, B_ := B.isSome }
  let s2 := (s1.SetAztecVariables (X.getD s1.x_) (B.getD s1.N_local_)).2
  s2.Iterate env MaxIters Tolerance

/-- The demo session with no operator bound. -/
def unboundSession : AztecOO := { demoSession with A_ := false }

/-! ## Properties of runs used in the proofs on the drop-tolerance escalation -/

/-- The configuration `c` is at a solve attempt that takes the drop-tolerance escalation
(lines 570-573): the kernel call ends in max-iterations, fill is not below its ceiling, the
subdomain solve is ILUT and the drop tolerance is positive. -/
def dropEscalation (env : AztecEnv) (c : AdaptiveConfig) : Prop :=
  c.pc = .solve ∧ (env.AZ_iterate c.s.attempts.length c.s).status.AZ_why = AZ_maxits ∧
  ¬ c.l.fill < c.l.curMaxFill ∧ c.s.options_.AZ_subdomain_solve = AZ_ilut ∧
  c.s.params_.AZ_drop > 0

instance (env : AztecEnv) (c : AdaptiveConfig) : Decidable (dropEscalation env c) := by
  unfold dropEscalation
  infer_instance

/-- Invariant of the loops of `AdaptiveIterate`: inside the trial loop the ILUT fill in the
parameters is the local `fill`, and the subspace size in the options is the local `kspace`
unless only the subspace-size escalation is left (fill at its ceiling and no positive drop
tolerance with ILUT). -/
def LocalsInEffect (c : AdaptiveConfig) : Prop :=
  (c.pc = .condLoop ∨ c.pc = .solve ∨ (c.pc = .trialLoop ∧ c.l.curTrial < c.s.NumTrials_)) →
    (c.s.options_.AZ_subdomain_solve = AZ_ilut → c.s.params_.AZ_ilut_fill = c.l.fill) ∧
    (c.s.options_.AZ_kspace = c.l.kspace ∨
      (¬ c.l.fill < c.l.curMaxFill ∧
       ¬ (c.s.options_.AZ_subdomain_solve = AZ_ilut ∧ c.s.params_.AZ_drop > 0)))

/-- Invariant of the loops of `AdaptiveIterate` after a drop-tolerance escalation at the
kernel call number `k`, which ran with ILUT fill `F` and subspace size `K`: the subdomain
solve is ILUT and the drop tolerance 0; either no further kernel call has been made, the
locals `fill` and `kspace` are `F` and `K`, and inside the trial loop they are in effect in
the solver data; or the kernel call number `k + 1` is recorded and ran with fill `F`, subspace
size `K` and drop tolerance 0. -/
def AfterDropEscalation (k : Nat) (F : Rat) (K : Int) (c : AdaptiveConfig) : Prop :=
  c.s.options_.AZ_subdomain_solve = AZ_ilut ∧ c.s.params_.AZ_drop = 0 ∧
  ((c.s.attempts.length = k + 1 ∧ c.l.fill = F ∧ c.l.kspace = K ∧
      (c.pc = .kspaceLoop ∨ c.pc = .done ∨ c.pc = .fault ∨
       (c.pc = .trialLoop ∧ ¬ c.l.curTrial < c.s.NumTrials_) ∨
       ((c.pc = .trialLoop ∨ c.pc = .condLoop ∨ c.pc = .solve) ∧
        c.s.options_.AZ_kspace = K ∧ c.s.params_.AZ_ilut_fill = F))) ∨
   (∃ a, c.s.attempts[k + 1]? = some a ∧ a.fill = F ∧ a.options.AZ_kspace = K ∧
      a.params.AZ_drop = 0))
/-! ## Session: classification of the termination reason -/

/-- The end status is determined by the termination reason alone, and the six known reasons
give six different results. -/
theorem endStatus_spec (s : AztecOO) :
    (s.endStatus = .ret 0 ↔ s.status_.AZ_why = AZ_normal) ∧
    (s.endStatus = .ret 1 ↔ s.status_.AZ_why = AZ_maxits) ∧
    (s.endStatus = .ret (-1) ↔ s.status_.AZ_why = AZ_param) ∧
    (s.endStatus = .ret (-2) ↔ s.status_.AZ_why = AZ_breakdown) ∧
    (s.endStatus = .ret (-3) ↔ s.status_.AZ_why = AZ_loss) ∧
    (s.endStatus = .ret (-4) ↔ s.status_.AZ_why = AZ_ill_cond) := by
  unfold AztecOO.endStatus
  simp only [AZ_normal, AZ_param, AZ_breakdown, AZ_loss, AZ_ill_cond, AZ_maxits]
  split_ifs with h0 h1 h2 h3 h4 h5 <;> simp_all

/-- On a bound session that has a preconditioner or is not of the user-supplied kind,
`Iterate` calls the kernel once, in the state `Iterate_kernelInput`, keeps its status and
returns the end status of that status. -/
theorem Iterate_eq (env : AztecEnv) (s : AztecOO) (MaxIters : Int) (Tolerance : Rat)
    (hA : s.A_ = true) (hX : s.X_ = true) (hB : s.B_ = true)
    (hP : s.Prec_ ≠ none ∨ s.options_.AZ_precond ≠ AZ_user_precond) :
    (s.Iterate env MaxIters Tolerance).2.status_ =
        (env.AZ_iterate s.attempts.length (s.Iterate_kernelInput MaxIters Tolerance)).status ∧
    (s.Iterate env MaxIters Tolerance).1 = (s.Iterate env MaxIters Tolerance).2.endStatus ∧
    (s.Iterate env MaxIters Tolerance).2.attempts.length = s.attempts.length + 1 := by
  unfold AztecOO.Iterate AztecOO.Iterate_kernelInput
  by_cases hp : s.Prec_ = none
  · have hu : s.options_.AZ_precond ≠ AZ_user_precond := by
      rcases hP with h | h
      · exact absurd hp h
      · exact h
    simp [hA, hX, hB, hp, hu, AztecOO.SetIterTol, AztecOO.AZ_precond_create,
      AztecOO.AZ_iterate, AztecOO.endStatus]
  · simp [hA, hX, hB, hp, AztecOO.SetIterTol, AztecOO.AZ_iterate]

/-- C1: on a session with operator, x and b bound, and with a preconditioner present or a
preconditioner kind other than user-supplied, `Iterate` returns 0 exactly when the termination
reason reported by its kernel call is normal, 1 exactly when it is max-iterations, and -1, -2,
-3, -4 exactly when it is parameter-error, breakdown, precision-loss, ill-conditioned; the
four failure codes are negative and pairwise distinct. -/
theorem C1_Iterate_classifies (env : AztecEnv) (s : AztecOO) (MaxIters : Int) (Tolerance : Rat)
    (hA : s.A_ = true) (hX : s.X_ = true) (hB : s.B_ = true)
    (hP : s.Prec_ ≠ none ∨ s.options_.AZ_precond ≠ AZ_user_precond) :
    ((s.Iterate env MaxIters Tolerance).1 = .ret 0 ↔
      (env.AZ_iterate s.attempts.length
        (s.Iterate_kernelInput MaxIters Tolerance)).status.AZ_why = AZ_normal) ∧
    ((s.Iterate env MaxIters Tolerance).1 = .ret 1 ↔
      (env.AZ_iterate s.attempts.length
        (s.Iterate_kernelInput MaxIters Tolerance)).status.AZ_why = AZ_maxits) ∧
    ((s.Iterate env MaxIters Tolerance).1 = .ret (-1) ↔
      (env.AZ_iterate s.attempts.length
        (s.Iterate_kernelInput MaxIters Tolerance)).status.AZ_why = AZ_param) ∧
    ((s.Iterate env MaxIters Tolerance).1 = .ret (-2) ↔
      (env.AZ_iterate s.attempts.length
        (s.Iterate_kernelInput MaxIters Tolerance)).status.AZ_why = AZ_breakdown) ∧
    ((s.Iterate env MaxIters Tolerance).1 = .ret (-3) ↔
      (env.AZ_iterate s.attempts.length
        (s.Iterate_kernelInput MaxIters Tolerance)).status.AZ_why = AZ_loss) ∧
    ((s.Iterate env MaxIters Tolerance).1 = .ret (-4) ↔
      (env.AZ_iterate s.attempts.length
        (s.Iterate_kernelInput MaxIters Tolerance)).status.AZ_why = AZ_ill_cond) ∧
    (s.Iterate env MaxIters Tolerance).2.attempts.length = s.attempts.length + 1 ∧
    [(-1 : Int), -2, -3, -4].Nodup ∧ ∀ v ∈ [(-1 : Int), -2, -3, -4], v < 0 := by
  obtain ⟨h1, h2, h3⟩ := Iterate_eq env s MaxIters Tolerance hA hX hB hP
  have h := endStatus_spec (s.Iterate env MaxIters Tolerance).2
  rw [← h1, h2]
  exact ⟨h.1, h.2.1, h.2.2.1, h.2.2.2.1, h.2.2.2.2.1, h.2.2.2.2.2, h3, by decide, by decide⟩

/-- Witness for C1: on the demo session a kernel call ending in breakdown makes `Iterate`
return -2. -/
theorem C1_Iterate_classifies_witness :
    demoSession.A_ = true ∧ demoSession.X_ = true ∧ demoSession.B_ = true ∧
    (demoSession.Prec_ ≠ none ∨ demoSession.options_.AZ_precond ≠ AZ_user_precond) ∧
    (demoSession.Iterate (scriptedEnv [(AZ_breakdown, 1, [1])]) 100 (1 / 1000)).1 = .ret (-2) :=
  ⟨rfl, rfl, rfl, Or.inr (by decide),
   (C1_Iterate_classifies (scriptedEnv [(AZ_breakdown, 1, [1])]) demoSession 100 (1 / 1000)
      rfl rfl rfl (Or.inr (by decide))).2.2.2.1.mpr (by decide!)⟩

/-! ## The loops of the controller: general facts -/

/-- Running `a + b` steps is running `a` steps and then `b` steps. -/
theorem run_add (env : AztecEnv) (a b : Nat) (c : AdaptiveConfig) :
    c.run env (a + b) = (c.run env a).run env b := by
  induction a generalizing c with
  | zero => simp [AdaptiveConfig.run]
  | succ a ih => rw [Nat.succ_add]; exact ih (c.step env)

/-- One more step at the end of a run. -/
theorem run_succ (env : AztecEnv) (n : Nat) (c : AdaptiveConfig) :
    c.run env (n + 1) = (c.run env n).step env := by
  rw [run_add]; rfl

/-- A property kept by every step holds all along a run. -/
theorem run_invariant (env : AztecEnv) (P : AdaptiveConfig → Prop)
    (hstep : ∀ c, P c → P (c.step env)) (c : AdaptiveConfig) (h : P c) (n : Nat) :
    P (c.run env n) := by
  induction n with
  | zero => exact h
  | succ n ih => rw [run_succ]; exact hstep _ ih

/-- Once the loops are left, nothing changes any more. -/
theorem run_done (env : AztecEnv) (c : AdaptiveConfig) (h : c.pc = .done) (n : Nat) :
    c.run env n = c := by
  induction n with
  | zero => rfl
  | succ n ih =>
    have hs : c.step env = c := by simp [AdaptiveConfig.step, h]
    simp [AdaptiveConfig.run, hs, ih]

/-- A run that comes back to an earlier configuration only ever visits the configurations
before the repetition. -/
theorem run_periodic (env : AztecEnv) (c : AdaptiveConfig) (p k : Nat) (hk : 0 < k)
    (h : c.run env (p + k) = c.run env p) (n : Nat) :
    ∃ m, m < p + k ∧ c.run env n = c.run env m := by
  induction n using Nat.strong_induction_on with
  | _ n ih =>
    by_cases hn : n < p + k
    · exact ⟨n, hn, rfl⟩
    · obtain ⟨j, rfl⟩ : ∃ j, n = (p + k) + j := ⟨n - (p + k), by omega⟩
      have e : c.run env (p + k + j) = c.run env (p + j) := by
        rw [run_add, h, ← run_add]
      obtain ⟨m, hm, hm2⟩ := ih (p + j) (by omega)
      exact ⟨m, hm, e.trans hm2⟩

/-! ## C2, C3: the early exits of `AdaptiveIterate` through `Iterate` -/

/-- C2 (code evaluated at the failing input): with the Jacobi preconditioner kind (not domain
decomposition) and a kernel that converges normally, a single `Iterate` makes one kernel call
and ends with solution `[1]`, whereas `AdaptiveIterate` does not stop after its call of
`Iterate`: it goes on into the adaptive loop, makes a second kernel call and ends with
solution `[2]` and other parameters. -/
theorem C2_AdaptiveIterate_second_kernel_call :
    jacobiSession.options_.AZ_precond ≠ AZ_dom_decomp ∧
    (jacobiSession.Iterate (scriptedEnv [(AZ_normal, 1, [1]), (AZ_normal, 1, [2])])
        100 (1 / 1000)).1 = .ret 0 ∧
    (jacobiSession.Iterate (scriptedEnv [(AZ_normal, 1, [1]), (AZ_normal, 1, [2])])
        100 (1 / 1000)).2.attempts.length = 1 ∧
    (jacobiSession.Iterate (scriptedEnv [(AZ_normal, 1, [1]), (AZ_normal, 1, [2])])
        100 (1 / 1000)).2.x_ = [1] ∧
    (jacobiSession.Iterate (scriptedEnv [(AZ_normal, 1, [1]), (AZ_normal, 1, [2])])
        100 (1 / 1000)).2.params_.AZ_rthresh = 0 ∧
    (jacobiSession.AdaptiveIterate (scriptedEnv [(AZ_normal, 1, [1]), (AZ_normal, 1, [2])])
        7 100 (1 / 1000)).map (fun r => (r.1, r.2.attempts.length, r.2.x_, r.2.params_.AZ_rthresh))
      = some (.ret 0, 2, [2], 1) := by
  decide!

/-- C3 (code evaluated at the failing input): domain decomposition, ILUT subdomain solves, an
explicitly supplied trial table with `NumTrials = 0`, and a kernel that converges normally.
`Iterate` returns 0, but `AdaptiveIterate` never returns: after its call of `Iterate`
returned 0 it enters the loops, where no trial can run and nothing changes, so the loops are
never left. -/
theorem C3_AdaptiveIterate_no_trials_diverges :
    noTrialsSession.options_.AZ_precond = AZ_dom_decomp ∧
    noTrialsSession.options_.AZ_subdomain_solve ≠ AZ_lu ∧
    noTrialsSession.useAdaptiveDefaults_ = false ∧ noTrialsSession.NumTrials_ < 1 ∧
    (noTrialsSession.Iterate (scriptedEnv [(AZ_normal, 1, [1])]) 100 (1 / 1000)).1 = .ret 0 ∧
    ∀ fuel, noTrialsSession.AdaptiveIterate (scriptedEnv [(AZ_normal, 1, [1])]) fuel
      100 (1 / 1000) = none := by
  refine ⟨by decide, by decide, by decide!, by decide!, by decide!, ?_⟩
  intro fuel
  have hb : noTrialsSession.AdaptiveIterate_begin (scriptedEnv [(AZ_normal, 1, [1])])
      100 (1 / 1000) = .loop (noTrialsSession.AdaptiveIterate_begin
        (scriptedEnv [(AZ_normal, 1, [1])]) 100 (1 / 1000)).config := by decide!
  have hper := run_periodic (scriptedEnv [(AZ_normal, 1, [1])])
    (noTrialsSession.AdaptiveIterate_begin (scriptedEnv [(AZ_normal, 1, [1])])
      100 (1 / 1000)).config 1 2 (by decide) (by decide!) fuel
  obtain ⟨m, hm, he⟩ := hper
  have hpc : ∀ m, m < 1 + 2 → ((noTrialsSession.AdaptiveIterate_begin
      (scriptedEnv [(AZ_normal, 1, [1])]) 100 (1 / 1000)).config.run
      (scriptedEnv [(AZ_normal, 1, [1])]) m).pc ≠ .done := by decide!
  unfold AztecOO.AdaptiveIterate
  rw [hb]
  simp only [he]
  rw [if_neg (hpc m hm)]

/-! ## The loops of the controller: what each step may change -/

/-- Case analysis on one step of the loops: a property holds after the step as soon as it
holds for the result of each branch of each control point. -/
theorem step_elim (env : AztecEnv) (c : AdaptiveConfig) (P : AdaptiveConfig → Prop)
    (h_kenter : c.pc = .kspaceLoop →
      ((c.s.status_.AZ_why ≠ AZ_normal ∨ c.l.FirstCallToSolver = true)
        ∧ c.l.kspace ≤ c.l.curMaxKspace) →
      P { pc := .trialLoop, s := kspaceEnter c.s c.l, l := { c.l with curTrial := 0 } })
    (h_kexit : c.pc = .kspaceLoop →
      ¬ ((c.s.status_.AZ_why ≠ AZ_normal ∨ c.l.FirstCallToSolver = true)
        ∧ c.l.kspace ≤ c.l.curMaxKspace) → P { c with pc := .done })
    (h_tenter : c.pc = .trialLoop →
      ((c.s.status_.AZ_why ≠ AZ_normal ∨ c.l.FirstCallToSolver = true)
        ∧ c.l.curTrial < c.s.NumTrials_) →
      P { c with pc := .condLoop, l := { c.l with curCondestThreshold := c.s.condest_ } })
    (h_texit : c.pc = .trialLoop →
      ¬ ((c.s.status_.AZ_why ≠ AZ_normal ∨ c.l.FirstCallToSolver = true)
        ∧ c.l.curTrial < c.s.NumTrials_) → P { c with pc := .kspaceLoop })
    (h_cpass : c.pc = .condLoop → c.s.condest_ ≥ c.l.curCondestThreshold →
      ∀ s l, condStep env c.s c.l = some (s, l) → P { pc := .condLoop, s := s, l := l })
    (h_cfault : c.pc = .condLoop → c.s.condest_ ≥ c.l.curCondestThreshold →
      condStep env c.s c.l = none → P { c with pc := .fault })
    (h_cexit : c.pc = .condLoop → ¬ c.s.condest_ ≥ c.l.curCondestThreshold →
      P { c with pc := .solve })
    (h_solve : c.pc = .solve →
      P { pc := .trialLoop, s := (solveStep env c.s c.l).1, l := (solveStep env c.s c.l).2 })
    (h_stop : c.pc = .done ∨ c.pc = .fault → P c) :
    P (c.step env) := by
  unfold AdaptiveConfig.step
  cases hpc : c.pc
  · simp only
    split_ifs with hg
    · exact h_kenter hpc hg
    · exact h_kexit hpc hg
  · simp only
    split_ifs with hg
    · exact h_tenter hpc hg
    · exact h_texit hpc hg
  · simp only
    split_ifs with hg
    · cases hcs : condStep env c.s c.l with
      | none => exact h_cfault hpc hg hcs
      | some r => exact h_cpass hpc hg r.1 r.2 hcs
    · exact h_cexit hpc hg
  · exact h_solve hpc
  · exact h_stop (Or.inl hpc)
  · exact h_stop (Or.inr hpc)

/-- What the head of the body of the subspace-size loop may change: the subspace size and
the fill level in the solver data, and the condition estimate. -/
theorem kspaceEnter_shape (s : AztecOO) (l : AdaptiveLocals) :
    kspaceEnter s l =
      { s with options_ := { s.options_ with
                 AZ_kspace := l.kspace,
                 AZ_graph_fill := (kspaceEnter s l).options_.AZ_graph_fill },
               params_ := { s.params_ with
                 AZ_ilut_fill := (kspaceEnter s l).params_.AZ_ilut_fill },
               condest_ := s.condestThreshold_ } := by
  unfold kspaceEnter AztecOO.setFill
  simp only
  split_ifs <;> rfl

/-- What `ConstructPreconditioner` may change: the preconditioner, `options_[AZ_pre_calc]`,
the condition estimate and the two counters of the model. -/
theorem ConstructPreconditioner_shape (env : AztecEnv) (s : AztecOO) (condest : Rat) :
    (s.ConstructPreconditioner env condest).2.2 =
      { s with Prec_ := (s.ConstructPreconditioner env condest).2.2.Prec_,
               options_ := { s.options_ with
                 AZ_pre_calc := (s.ConstructPreconditioner env condest).2.2.options_.AZ_pre_calc },
               condest_ := (s.ConstructPreconditioner env condest).2.2.condest_,
               precApplied := (s.ConstructPreconditioner env condest).2.2.precApplied,
               precCreated := (s.ConstructPreconditioner env condest).2.2.precCreated } := by
  unfold AztecOO.ConstructPreconditioner AztecOO.AZ_precond_create
  simp only
  split_ifs <;> rfl

/-- What one pass of the condition search may change: the preconditioner,
`options_[AZ_pre_calc]`, the two thresholds in `params_`, the condition estimate, the counters
of the model, and the trial index, which goes up by one. -/
theorem condStep_shape (env : AztecEnv) (s s1 : AztecOO) (l l1 : AdaptiveLocals)
    (h : condStep env s l = some (s1, l1)) :
    s1 = { s with Prec_ := s1.Prec_,
                  options_ := { s.options_ with AZ_pre_calc := s1.options_.AZ_pre_calc },
                  params_ := { s.params_ with AZ_athresh := s1.params_.AZ_athresh,
                                              AZ_rthresh := s1.params_.AZ_rthresh },
                  condest_ := s1.condest_, precApplied := s1.precApplied,
                  precCreated := s1.precCreated } ∧
    l1 = { l with curTrial := l.curTrial + 1 } := by
  unfold condStep at h
  simp only at h
  split_ifs at h with h1 h2
  · split at h
    · simp only [Option.some.injEq, Prod.mk.injEq] at h
      obtain ⟨hs, hl⟩ := h
      subst hs hl
      refine ⟨?_, rfl⟩
      unfold AztecOO.ConstructPreconditioner AztecOO.AZ_precond_create AztecOO.SetThresholds
           AztecOO.DestroyPreconditioner
      simp only
      split_ifs <;> rfl
    · exact absurd h (by simp)
  · split at h
    · simp only [Option.some.injEq, Prod.mk.injEq] at h
      obtain ⟨hs, hl⟩ := h
      subst hs hl
      refine ⟨?_, rfl⟩
      unfold AztecOO.ConstructPreconditioner AztecOO.AZ_precond_create AztecOO.SetThresholds
      simp only
      split_ifs <;> rfl
    · exact absurd h (by simp)

/-- What the solve-and-accept step may change: the solution vector, the status (which becomes
the kernel's), the record of kernel calls, the drop tolerance, and the locals `fill`,
`kspace`, `curTrial` and `FirstCallToSolver` (which becomes false). -/
theorem solveStep_shape (env : AztecEnv) (s : AztecOO) (l : AdaptiveLocals) :
    (solveStep env s l).1 =
      { s with x_ := (solveStep env s l).1.x_,
               status_ := (env.AZ_iterate s.attempts.length s).status,
               attempts := s.attempts ++ [{ options := s.options_, params := s.params_,
                                            condest := s.condest_, Prec := s.Prec_ }],
               params_ := { s.params_ with AZ_drop := (solveStep env s l).1.params_.AZ_drop } } ∧
    (solveStep env s l).2 =
      { l with FirstCallToSolver := false, fill := (solveStep env s l).2.fill,
               kspace := (solveStep env s l).2.kspace,
               curTrial := (solveStep env s l).2.curTrial } := by
  unfold solveStep escalate AztecOO.AZ_iterate
  simp only
  split_ifs <;> exact ⟨rfl, rfl⟩

/-- The solution vector after the solve-and-accept step: the one before the step when this is
not the first call and the residual did not get smaller, the kernel's otherwise. -/
theorem solveStep_x (env : AztecEnv) (s : AztecOO) (l : AdaptiveLocals) :
    (solveStep env s l).1.x_ =
      if l.FirstCallToSolver = false ∧
          ¬ (s.status_.AZ_r > (env.AZ_iterate s.attempts.length s).status.AZ_r)
      then s.x_ else (env.AZ_iterate s.attempts.length s).x := by
  unfold solveStep escalate AztecOO.AZ_iterate
  simp only
  split_ifs <;> simp_all

/-- Steps other than the solve-and-accept step leave the solution vector, the status, the
record of kernel calls and the first-call flag alone. -/
theorem step_frame (env : AztecEnv) (c : AdaptiveConfig) (h : c.pc ≠ .solve) :
    (c.step env).s.x_ = c.s.x_ ∧ (c.step env).s.status_ = c.s.status_ ∧
    (c.step env).s.attempts = c.s.attempts ∧
    (c.step env).l.FirstCallToSolver = c.l.FirstCallToSolver := by
  apply step_elim env c (fun d => d.s.x_ = c.s.x_ ∧ d.s.status_ = c.s.status_ ∧
    d.s.attempts = c.s.attempts ∧ d.l.FirstCallToSolver = c.l.FirstCallToSolver)
  · intro _ _
    rw [kspaceEnter_shape]
    simp
  · intro _ _; simp
  · intro _ _; simp
  · intro _ _; simp
  · intro _ _ s l hs
    obtain ⟨h1, h2⟩ := condStep_shape env c.s s c.l l hs
    rw [h1, h2]
    simp
  · intro _ _ _; simp
  · intro _ _; simp
  · intro hpc; exact absurd hpc h
  · intro _; simp

/-- The step taken at the solve-and-accept control point. -/
theorem step_solve (env : AztecEnv) (c : AdaptiveConfig) (h : c.pc = .solve) :
    c.step env =
      { pc := .trialLoop, s := (solveStep env c.s c.l).1, l := (solveStep env c.s c.l).2 } := by
  simp [AdaptiveConfig.step, h]

/-! ## C4: rollback of a solve attempt that did not improve the residual -/

/-- Between two consecutive solve attempts the solution vector and the status stay as the
earlier attempt left them, and the first-call flag is off. -/
theorem between_attempts (env : AztecEnv) (c0 : AdaptiveConfig) (n1 n2 : Nat)
    (h1 : (c0.run env n1).pc = .solve)
    (hbetween : ∀ m, m < n2 → n1 < m → (c0.run env m).pc ≠ .solve) (k : Nat)
    (hk : n1 + 1 + k ≤ n2) :
    (c0.run env (n1 + 1 + k)).s.x_ = (c0.run env (n1 + 1)).s.x_ ∧
    (c0.run env (n1 + 1 + k)).s.status_ = (c0.run env (n1 + 1)).s.status_ ∧
    (c0.run env (n1 + 1 + k)).l.FirstCallToSolver = false := by
  induction k with
  | zero =>
    refine ⟨rfl, rfl, ?_⟩
    show (c0.run env (n1 + 1)).l.FirstCallToSolver = false
    rw [run_succ, step_solve env _ h1, (solveStep_shape env _ _).2]
  | succ k ih =>
    obtain ⟨i1, i2, i3⟩ := ih (by omega)
    have hpc := hbetween (n1 + 1 + k) (by omega) (by omega)
    obtain ⟨f1, f2, _, f4⟩ := step_frame env (c0.run env (n1 + 1 + k)) hpc
    rw [show n1 + 1 + (k + 1) = (n1 + 1 + k) + 1 from rfl, run_succ]
    exact ⟨f1.trans i1, f2.trans i2, f4.trans i3⟩

/-- C4 (counterexample): on the demo session with the kernel outcomes of `rollbackEnv`, the
first attempt (step 4) starts from solution `[0]` with residual 0 in the status and is kept
with solution `[1]` and residual 5; the second (step 10, residual 7) is rolled back to `[1]`;
the third (step 16) ends with residual 6, which is not smaller than the residual 5 of the
accepted solution `[1]`, and yet the solution after it is `[3]`. -/
theorem C4_rollback_counterexample :
    demoSession.AdaptiveIterate_begin rollbackEnv 100 (1 / 1000) = .loop (demoEntry rollbackEnv) ∧
    ((demoEntry rollbackEnv).run rollbackEnv 4).pc = .solve ∧
    ((demoEntry rollbackEnv).run rollbackEnv 4).s.x_ = [0] ∧
    ((demoEntry rollbackEnv).run rollbackEnv 4).s.status_.AZ_r = 0 ∧
    ((demoEntry rollbackEnv).run rollbackEnv 5).s.x_ = [1] ∧
    ((demoEntry rollbackEnv).run rollbackEnv 5).s.status_.AZ_r = 5 ∧
    ((demoEntry rollbackEnv).run rollbackEnv 10).pc = .solve ∧
    ((demoEntry rollbackEnv).run rollbackEnv 11).s.x_ = [1] ∧
    ((demoEntry rollbackEnv).run rollbackEnv 11).s.status_.AZ_r = 7 ∧
    ((demoEntry rollbackEnv).run rollbackEnv 16).pc = .solve ∧
    ((demoEntry rollbackEnv).run rollbackEnv 16).s.x_ = [1] ∧
    ((demoEntry rollbackEnv).run rollbackEnv 17).s.status_.AZ_r = 6 ∧
    ((demoEntry rollbackEnv).run rollbackEnv 17).s.x_ = [3] ∧
    ¬ (¬ (((demoEntry rollbackEnv).run rollbackEnv 17).s.status_.AZ_r
            < ((demoEntry rollbackEnv).run rollbackEnv 5).s.status_.AZ_r) →
        ((demoEntry rollbackEnv).run rollbackEnv 17).s.x_
          = ((demoEntry rollbackEnv).run rollbackEnv 5).s.x_) := by
  decide!

/-- C4 (amended): in the loops of `AdaptiveIterate`, for all collaborators, take a solve
attempt (at step `n2`) and the solve attempt before it (at step `n1`). When the later attempt
starts, the solution vector and the residual in the status are those left by the earlier
attempt; and if the later attempt ends with a residual that is not strictly smaller than the
residual reported by the earlier one, the solution vector after it equals the solution vector
left by the earlier one. The first solve attempt of the loops keeps the kernel's solution
whatever its residual. -/
theorem C4_rollback_after_first (env : AztecEnv) (c0 : AdaptiveConfig) (n1 n2 : Nat)
    (h1 : (c0.run env n1).pc = .solve) (h2 : (c0.run env n2).pc = .solve) (hlt : n1 < n2)
    (hbetween : ∀ m, m < n2 → n1 < m → (c0.run env m).pc ≠ .solve) :
    (c0.run env n2).s.x_ = (c0.run env (n1 + 1)).s.x_ ∧
    (c0.run env n2).s.status_.AZ_r = (c0.run env (n1 + 1)).s.status_.AZ_r ∧
    (¬ ((c0.run env (n2 + 1)).s.status_.AZ_r < (c0.run env (n1 + 1)).s.status_.AZ_r) →
      (c0.run env (n2 + 1)).s.x_ = (c0.run env (n1 + 1)).s.x_) ∧
    (∀ c : AdaptiveConfig, c.pc = .solve → c.l.FirstCallToSolver = true →
      (c.step env).s.x_ = (env.AZ_iterate c.s.attempts.length c.s).x) := by
  obtain ⟨k, hk⟩ : ∃ k, n2 = n1 + 1 + k := ⟨n2 - (n1 + 1), by omega⟩
  obtain ⟨e1, e2, e3⟩ := between_attempts env c0 n1 n2 h1 hbetween k (by omega)
  rw [← hk] at e1 e2 e3
  refine ⟨e1, by rw [e2], ?_, ?_⟩
  · intro hr
    rw [run_succ env n2, step_solve env _ h2]
    have hst : (solveStep env (c0.run env n2).s (c0.run env n2).l).1.status_ =
        (env.AZ_iterate (c0.run env n2).s.attempts.length (c0.run env n2).s).status := by
      rw [(solveStep_shape env _ _).1]
    rw [run_succ env n2, step_solve env _ h2] at hr
    simp only [hst, ← e2] at hr
    simp only [solveStep_x, e3, gt_iff_lt, hr, not_false_eq_true, and_self, if_true, e1]
  · intro c hc hf
    rw [step_solve env _ hc]
    simp [solveStep_x, hf]

/-- Witness for C4 (amended): the first two solve attempts, at steps 4 and 10, of the demo
session run with the kernel outcomes of `rollbackEnv`. -/
theorem C4_rollback_after_first_witness :
    ((demoEntry rollbackEnv).run rollbackEnv 4).pc = .solve ∧
    ((demoEntry rollbackEnv).run rollbackEnv 10).pc = .solve ∧
    (∀ m, m < 10 → 4 < m → ((demoEntry rollbackEnv).run rollbackEnv m).pc ≠ .solve) ∧
    ((demoEntry rollbackEnv).run rollbackEnv 11).s.x_
      = ((demoEntry rollbackEnv).run rollbackEnv 5).s.x_ :=
  ⟨by decide!, by decide!, by decide!,
   (C4_rollback_after_first rollbackEnv (demoEntry rollbackEnv) 4 10 (by decide!) (by decide!)
      (by decide) (by decide!)).2.2.1 (by decide!)⟩

/-! ## C5: which outcomes of a solve attempt end the adaptive loop -/

/-- `DestroyPreconditioner` leaves no preconditioner and does not touch the status. -/
theorem DestroyPreconditioner_spec (s : AztecOO) :
    s.DestroyPreconditioner.1 = 0 ∧ s.DestroyPreconditioner.2.Prec_ = none ∧
    s.DestroyPreconditioner.2.status_ = s.status_ ∧
    s.DestroyPreconditioner.2.attempts = s.attempts ∧
    s.DestroyPreconditioner.2.x_ = s.x_ := by
  unfold AztecOO.DestroyPreconditioner
  split_ifs with h
  · simp
  · simp only [ne_eq, not_not] at h
    simp [h]

/-- C5 (counterexample): on the demo session with the kernel outcomes of `breakdownEnv`, the
first solve attempt of the adaptive loop (step 4) ends in breakdown, and the loop goes on: a
second kernel call is made (step 8), and `AdaptiveIterate` returns 0 after two kernel calls,
not -2 after one. -/
theorem C5_retry_after_breakdown :
    demoSession.AdaptiveIterate_begin breakdownEnv 100 (1 / 1000)
      = .loop (demoEntry breakdownEnv) ∧
    ((demoEntry breakdownEnv).run breakdownEnv 4).pc = .solve ∧
    ((demoEntry breakdownEnv).run breakdownEnv 5).s.status_.AZ_why = AZ_breakdown ∧
    ((demoEntry breakdownEnv).run breakdownEnv 5).s.attempts.length = 1 ∧
    ((demoEntry breakdownEnv).run breakdownEnv 8).pc = .solve ∧
    ((demoEntry breakdownEnv).run breakdownEnv 9).s.attempts.length = 2 ∧
    (demoSession.AdaptiveIterate breakdownEnv 11 100 (1 / 1000)).map
      (fun r => (r.1, r.2.attempts.length)) = some (.ret 0, 2) := by
  decide!

/-- Without a max-iterations outcome the solve-and-accept step changes no local but the
first-call flag, and no parameter. -/
theorem solveStep_no_escalation (env : AztecEnv) (s : AztecOO) (l : AdaptiveLocals)
    (hm : (env.AZ_iterate s.attempts.length s).status.AZ_why ≠ AZ_maxits) :
    (solveStep env s l).2 = { l with FirstCallToSolver := false } ∧
    (solveStep env s l).1.params_ = s.params_ := by
  unfold solveStep AztecOO.AZ_iterate
  simp only
  split_ifs <;> exact ⟨rfl, rfl⟩

/-- C5 (amended): for a solve attempt of the adaptive loop, for all collaborators.
(1) If it ends with status normal, the loops are left three steps later without a further
kernel call, ever; the preconditioner is destroyed and `AdaptiveIterate` returns 0.
(2) If it ends with a status that is neither normal nor max-iterations (so also with
parameter-error, breakdown, precision-loss or ill-conditioned) and a trial is left, the loop
is not left: it goes on with the condition search of the next trial, with fill, subspace
size, trial index and drop tolerance unchanged.
(3) Whenever the loops are left, the preconditioner is destroyed, and a final status
parameter-error, breakdown, precision-loss, ill-conditioned gives the result -1, -2, -3, -4. -/
theorem C5_only_normal_stops (env : AztecEnv) (c : AdaptiveConfig) (hpc : c.pc = .solve) :
    ((env.AZ_iterate c.s.attempts.length c.s).status.AZ_why = AZ_normal →
      (c.run env 3).pc = .done ∧
      (∀ n, 3 ≤ n → (c.run env n).s.attempts.length = c.s.attempts.length + 1) ∧
      (c.run env 3).finish.1 = .ret 0 ∧ (c.run env 3).finish.2.Prec_ = none) ∧
    ((env.AZ_iterate c.s.attempts.length c.s).status.AZ_why ≠ AZ_normal →
      (env.AZ_iterate c.s.attempts.length c.s).status.AZ_why ≠ AZ_maxits →
      c.l.curTrial < c.s.NumTrials_ →
      (c.run env 2).pc = .condLoop ∧ (c.run env 2).l.fill = c.l.fill ∧
      (c.run env 2).l.kspace = c.l.kspace ∧ (c.run env 2).l.curTrial = c.l.curTrial ∧
      (c.run env 2).s.params_.AZ_drop = c.s.params_.AZ_drop ∧
      (c.run env 2).s.attempts.length = c.s.attempts.length + 1) ∧
    (∀ d : AdaptiveConfig, d.finish.2.Prec_ = none ∧
      (d.s.status_.AZ_why = AZ_param → d.finish.1 = .ret (-1)) ∧
      (d.s.status_.AZ_why = AZ_breakdown → d.finish.1 = .ret (-2)) ∧
      (d.s.status_.AZ_why = AZ_loss → d.finish.1 = .ret (-3)) ∧
      (d.s.status_.AZ_why = AZ_ill_cond → d.finish.1 = .ret (-4))) := by
  have hs := solveStep_shape env c.s c.l
  have hstat : (solveStep env c.s c.l).1.status_ =
      (env.AZ_iterate c.s.attempts.length c.s).status := by rw [hs.1]
  have hfirst : (solveStep env c.s c.l).2.FirstCallToSolver = false := by rw [hs.2]
  have hatt : (solveStep env c.s c.l).1.attempts.length = c.s.attempts.length + 1 := by
    rw [hs.1]; simp
  refine ⟨?_, ?_, ?_⟩
  · intro hn
    have e3 : c.run env 3 =
        ⟨.done, (solveStep env c.s c.l).1, (solveStep env c.s c.l).2⟩ := by
      show ((c.step env).step env).step env = _
      rw [step_solve env c hpc]
      simp [AdaptiveConfig.step, hstat, hn, hfirst]
    refine ⟨by rw [e3], ?_, ?_, ?_⟩
    · intro n hn3
      obtain ⟨j, rfl⟩ : ∃ j, n = 3 + j := ⟨n - 3, by omega⟩
      rw [run_add, run_done env _ (by rw [e3]) j, e3]
      exact hatt
    · have := (endStatus_spec (c.run env 3).finish.2).1
      show (c.run env 3).finish.2.endStatus = _
      rw [this]
      show (c.run env 3).s.DestroyPreconditioner.2.status_.AZ_why = _
      rw [(DestroyPreconditioner_spec _).2.2.1, e3]
      simp [hstat, hn]
    · exact (DestroyPreconditioner_spec _).2.1
  · intro hn hm ht
    have hesc : (solveStep env c.s c.l).2.fill = c.l.fill ∧
        (solveStep env c.s c.l).2.kspace = c.l.kspace ∧
        (solveStep env c.s c.l).2.curTrial = c.l.curTrial ∧
        (solveStep env c.s c.l).1.params_.AZ_drop = c.s.params_.AZ_drop := by
      obtain ⟨q1, q2⟩ := solveStep_no_escalation env c.s c.l hm
      rw [q1, q2]
      exact ⟨rfl, rfl, rfl, rfl⟩
    have hnt : (solveStep env c.s c.l).1.NumTrials_ = c.s.NumTrials_ := by rw [hs.1]
    have e2 : c.run env 2 = ⟨.condLoop, (solveStep env c.s c.l).1,
        { (solveStep env c.s c.l).2 with
            curCondestThreshold := (solveStep env c.s c.l).1.condest_ }⟩ := by
      show (c.step env).step env = _
      rw [step_solve env c hpc]
      simp [AdaptiveConfig.step, hstat, hn, hesc.2.2.1, hnt, ht]
    rw [e2]
    exact ⟨rfl, hesc.1, hesc.2.1, hesc.2.2.1, hesc.2.2.2, hatt⟩
  · intro d
    have hst : d.finish.2.status_ = d.s.status_ := (DestroyPreconditioner_spec d.s).2.2.1
    have h := endStatus_spec d.finish.2
    rw [hst] at h
    exact ⟨(DestroyPreconditioner_spec d.s).2.1, h.2.2.1.mpr, h.2.2.2.1.mpr, h.2.2.2.2.1.mpr,
      h.2.2.2.2.2.mpr⟩

/-- Witness for C5 (amended): the second solve attempt (step 8) of the demo session run with
the kernel outcomes of `breakdownEnv` ends with status normal. -/
theorem C5_only_normal_stops_witness :
    ((demoEntry breakdownEnv).run breakdownEnv 8).pc = .solve ∧
    (breakdownEnv.AZ_iterate ((demoEntry breakdownEnv).run breakdownEnv 8).s.attempts.length
      ((demoEntry breakdownEnv).run breakdownEnv 8).s).status.AZ_why = AZ_normal ∧
    ((((demoEntry breakdownEnv).run breakdownEnv 8).run breakdownEnv 3).pc = .done ∧
     (∀ n, 3 ≤ n → ((((demoEntry breakdownEnv).run breakdownEnv 8).run breakdownEnv n).s.attempts.length
        = ((demoEntry breakdownEnv).run breakdownEnv 8).s.attempts.length + 1)) ∧
     (((demoEntry breakdownEnv).run breakdownEnv 8).run breakdownEnv 3).finish.1 = .ret 0 ∧
     (((demoEntry breakdownEnv).run breakdownEnv 8).run breakdownEnv 3).finish.2.Prec_ = none) :=
  ⟨by decide!, by decide!,
   (C5_only_normal_stops breakdownEnv ((demoEntry breakdownEnv).run breakdownEnv 8)
      (by decide!)).1 (by decide!)⟩

/-! ## C6: the preconditioner after `AdaptiveIterate` -/

/-- What `Iterate` may change: the solution vector, the status, the record of kernel calls,
the iteration cap, the tolerance and the counter of created preconditioners. In particular
the preconditioner of the session is the same before and after. -/
theorem Iterate_shape (env : AztecEnv) (s : AztecOO) (MaxIters : Int) (Tolerance : Rat) :
    (s.Iterate env MaxIters Tolerance).2 =
      { s with x_ := (s.Iterate env MaxIters Tolerance).2.x_,
               status_ := (s.Iterate env MaxIters Tolerance).2.status_,
               attempts := (s.Iterate env MaxIters Tolerance).2.attempts,
               options_ := { s.options_ with
                 AZ_max_iter := (s.Iterate env MaxIters Tolerance).2.options_.AZ_max_iter },
               params_ := { s.params_ with
                 AZ_tol := (s.Iterate env MaxIters Tolerance).2.params_.AZ_tol },
               precCreated := (s.Iterate env MaxIters Tolerance).2.precCreated } := by
  obtain ⟨A, X, B, x, N, P, o, p, st, ce, u, nt, mf, mk, at_, rt, ct, att, pa, pc⟩ := s
  unfold AztecOO.Iterate AztecOO.SetIterTol AztecOO.AZ_iterate AztecOO.AZ_precond_create
  simp only
  split_ifs with h1 h2 h3
  · rfl
  · rfl
  · subst h2; rfl
  · rfl

/-- The two ways through `EPETRA_CHK_ERR`: the argument is non-zero (or throws) and is the
result, or it is `ret 0` and the next statement decides. -/
theorem EPETRA_CHK_ERR_cases (a : Outcome × AztecOO) (k : AztecOO → AdaptiveEntry) :
    (a.1 ≠ .ret 0 ∧ EPETRA_CHK_ERR a k = .returned a.1 a.2) ∨
    (a.1 = .ret 0 ∧ EPETRA_CHK_ERR a k = k a.2) := by
  unfold EPETRA_CHK_ERR
  cases h : a.1 with
  | raise v => left; simp
  | ret v =>
    by_cases hv : v = 0
    · right; simp [hv]
    · left; simp [hv]

/-- Induction over the statements of `AdaptiveIterate` before its loops: a relation between
the state on entry and a later state that holds at the start and is kept by a call of
`Iterate` and by the strategy set-up holds at every return before the loops and at the entry
of the loops, which is `AdaptiveIterate_locals` of some such state. -/
theorem begin_elim (env : AztecEnv) (s : AztecOO) (MaxIters : Int) (Tolerance : Rat)
    (R : AztecOO → Prop) (hrefl : R s)
    (hIter : ∀ t, R t → R (t.Iterate env MaxIters Tolerance).2)
    (hstrat : ∀ t, R t → R (t.AdaptiveIterate_strategy MaxIters Tolerance)) :
    (∀ o s1, s.AdaptiveIterate_begin env MaxIters Tolerance = .returned o s1 → R s1) ∧
    (∀ c, s.AdaptiveIterate_begin env MaxIters Tolerance = .loop c →
      ∃ s6, R s6 ∧ s6.AdaptiveIterate_locals = .loop c) := by
  have key : ∀ (t : AztecOO) (b : Prop) [Decidable b], R t →
      R (if b then t.Iterate env MaxIters Tolerance else (.ret 0, t)).2 := by
    intro t b _ ht
    split_ifs
    · exact hIter t ht
    · exact ht
  unfold AztecOO.AdaptiveIterate_begin
  rcases EPETRA_CHK_ERR_cases (if s.options_.AZ_precond ≠ AZ_dom_decomp then
      s.Iterate env MaxIters Tolerance else (.ret 0, s)) _ with ⟨_, e1⟩ | ⟨_, e1⟩
  · rw [e1]
    refine ⟨?_, ?_⟩
    · intro o s1 h
      injection h with _ h2
      rw [← h2]
      exact key s _ hrefl
    · intro c h; exact absurd h (by simp)
  rw [e1]
  have r1 := key s (s.options_.AZ_precond ≠ AZ_dom_decomp) hrefl
  generalize (if s.options_.AZ_precond ≠ AZ_dom_decomp then
      s.Iterate env MaxIters Tolerance else (Outcome.ret 0, s)).2 = t1 at r1 ⊢
  rcases EPETRA_CHK_ERR_cases (if t1.options_.AZ_subdomain_solve = AZ_lu then
      t1.Iterate env MaxIters Tolerance else (.ret 0, t1)) _ with ⟨_, e2⟩ | ⟨_, e2⟩
  · rw [e2]
    refine ⟨?_, ?_⟩
    · intro o s1 h
      injection h with _ h2
      rw [← h2]
      exact key t1 _ r1
    · intro c h; exact absurd h (by simp)
  rw [e2]
  have r2 := key t1 (t1.options_.AZ_subdomain_solve = AZ_lu) r1
  generalize (if t1.options_.AZ_subdomain_solve = AZ_lu then
      t1.Iterate env MaxIters Tolerance else (Outcome.ret 0, t1)).2 = t2 at r2 ⊢
  have r3 := hstrat t2 r2
  generalize t2.AdaptiveIterate_strategy MaxIters Tolerance = t3 at r3 ⊢
  rcases EPETRA_CHK_ERR_cases (if t3.NumTrials_ < 1 then
      t3.Iterate env MaxIters Tolerance else (.ret 0, t3)) _ with ⟨_, e3⟩ | ⟨_, e3⟩
  · rw [e3]
    refine ⟨?_, ?_⟩
    · intro o s1 h
      injection h with _ h2
      rw [← h2]
      exact key t3 _ r3
    · intro c h; exact absurd h (by simp)
  rw [e3]
  have r4 := key t3 (t3.NumTrials_ < 1) r3
  generalize (if t3.NumTrials_ < 1 then
      t3.Iterate env MaxIters Tolerance else (Outcome.ret 0, t3)).2 = t4 at r4 ⊢
  refine ⟨?_, ?_⟩
  · intro o s1 h
    exact absurd h (by simp [AztecOO.AdaptiveIterate_locals])
  · intro c h
    exact ⟨t4, r4, h⟩

/-- What the strategy set-up may change: the iteration cap, the tolerance, the subdomain
solve (block ILU becomes the block ILU of IFPACK) and the adaptive trial table. -/
theorem strategy_shape (s : AztecOO) (MaxIters : Int) (Tolerance : Rat) :
    s.AdaptiveIterate_strategy MaxIters Tolerance =
      { s with options_ := { s.options_ with
                 AZ_max_iter := MaxIters,
                 AZ_subdomain_solve :=
                   (s.AdaptiveIterate_strategy MaxIters Tolerance).options_.AZ_subdomain_solve },
               params_ := { s.params_ with AZ_tol := Tolerance },
               useAdaptiveDefaults_ :=
                 (s.AdaptiveIterate_strategy MaxIters Tolerance).useAdaptiveDefaults_,
               NumTrials_ := (s.AdaptiveIterate_strategy MaxIters Tolerance).NumTrials_,
               maxFill_ := (s.AdaptiveIterate_strategy MaxIters Tolerance).maxFill_,
               maxKspace_ := (s.AdaptiveIterate_strategy MaxIters Tolerance).maxKspace_,
               athresholds_ := (s.AdaptiveIterate_strategy MaxIters Tolerance).athresholds_,
               rthresholds_ := (s.AdaptiveIterate_strategy MaxIters Tolerance).rthresholds_,
               condestThreshold_ :=
                 (s.AdaptiveIterate_strategy MaxIters Tolerance).condestThreshold_ } := by
  unfold AztecOO.AdaptiveIterate_strategy AztecOO.AdaptiveIterate_defaults
    AztecOO.SetAdaptiveParams AztecOO.SetIterTol
  simp only
  split_ifs <;> rfl

/-- C6 (counterexample): the Jacobi session holds a preconditioner built by
`ConstructPreconditioner`; the kernel ends in max-iterations, so `AdaptiveIterate` returns 1
through its first call of `Iterate`, and the preconditioner is still present afterwards. -/
theorem C6_preconditioner_kept_on_early_return :
    jacobiBuiltSession.Prec_ = some { id := 0, user := false } ∧
    (jacobiBuiltSession.AdaptiveIterate stallEnv 0 100 (1 / 1000)).map
      (fun r => (r.1, r.2.Prec_)) = some (.ret 1, some { id := 0, user := false }) := by
  decide!

/-- C6 (amended): whenever `AdaptiveIterate` returns or throws, (1) if the loops were entered
no preconditioner is present afterwards, whatever was present on entry, and (2) if the call
ended before the loops, through one of its calls of `Iterate`, the preconditioner is the one
of the entry: none if there was none, and the same one otherwise. -/
theorem C6_preconditioner_after (env : AztecEnv) (fuel : Nat) (s : AztecOO) (MaxIters : Int)
    (Tolerance : Rat) (o : Outcome) (s' : AztecOO)
    (h : s.AdaptiveIterate env fuel MaxIters Tolerance = some (o, s')) :
    (∀ c, s.AdaptiveIterate_begin env MaxIters Tolerance = .loop c → s'.Prec_ = none) ∧
    (∀ o1 s1, s.AdaptiveIterate_begin env MaxIters Tolerance = .returned o1 s1 →
      s'.Prec_ = s.Prec_) := by
  unfold AztecOO.AdaptiveIterate at h
  refine ⟨?_, ?_⟩
  · intro c hc
    rw [hc] at h
    simp only at h
    split_ifs at h
    simp only [Option.some.injEq, AdaptiveConfig.finish, Prod.mk.injEq] at h
    rw [← h.2]
    exact (DestroyPreconditioner_spec _).2.1
  · intro o1 s1 hr
    rw [hr] at h
    simp only [Option.some.injEq, Prod.mk.injEq] at h
    rw [← h.2]
    refine (begin_elim env s MaxIters Tolerance (fun t => t.Prec_ = s.Prec_) rfl ?_ ?_).1 o1 s1 hr
    · intro t ht
      rw [Iterate_shape]
      exact ht
    · intro t ht
      rw [strategy_shape]
      exact ht

/-- Witness for C6 (amended): the call on the demo session with the kernel outcomes of
`breakdownEnv`, which enters the loops and returns 0 after 11 steps. -/
theorem C6_preconditioner_after_witness :
    demoSession.AdaptiveIterate breakdownEnv 11 100 (1 / 1000)
      = some (.ret 0, ((demoEntry breakdownEnv).run breakdownEnv 11).finish.2) ∧
    demoSession.AdaptiveIterate_begin breakdownEnv 100 (1 / 1000)
      = .loop (demoEntry breakdownEnv) ∧
    ((demoEntry breakdownEnv).run breakdownEnv 11).finish.2.Prec_ = none :=
  ⟨by decide!, by decide!,
   (C6_preconditioner_after breakdownEnv 11 demoSession 100 (1 / 1000) (.ret 0)
      ((demoEntry breakdownEnv).run breakdownEnv 11).finish.2 (by decide!)).1
      (demoEntry breakdownEnv) (by decide!)⟩

/-! ## C8: the escalation after a max-iterations outcome -/

/-- The loop entry built by `AdaptiveIterate_locals`. -/
theorem locals_entry (s6 : AztecOO) (c : AdaptiveConfig)
    (h : s6.AdaptiveIterate_locals = .loop c) :
    c.pc = .kspaceLoop ∧ c.s = s6 ∧ c.l.FirstCallToSolver = true ∧
    c.l.fill = s6.fillInEffect ∧ c.l.curMaxFill = EPETRA_MAX s6.fillInEffect s6.maxFill_ ∧
    c.l.kspace = s6.options_.AZ_kspace ∧ c.l.kspace ≤ c.l.curMaxKspace ∧
    c.l.curMaxKspace ≤ EPETRA_MAX s6.options_.AZ_kspace s6.maxKspace_ := by
  unfold AztecOO.AdaptiveIterate_locals at h
  simp only [AdaptiveEntry.loop.injEq] at h
  subst h
  refine ⟨rfl, rfl, rfl, rfl, rfl, rfl, ?_, ?_⟩
  · simp only [EPETRA_MAX]
    split_ifs <;> omega
  · simp only [EPETRA_MAX]
    split_ifs <;> omega

/-- The escalation made by the solve-and-accept step after a max-iterations outcome is
`escalate` applied to the data before the step: the kernel call and the rollback change
nothing that `escalate` reads. -/
theorem solveStep_maxits (env : AztecEnv) (s : AztecOO) (l : AdaptiveLocals)
    (hm : (env.AZ_iterate s.attempts.length s).status.AZ_why = AZ_maxits) :
    (solveStep env s l).1.params_ = (escalate s l).1.params_ ∧
    (solveStep env s l).2.fill = (escalate s l).2.fill ∧
    (solveStep env s l).2.kspace = (escalate s l).2.kspace ∧
    (solveStep env s l).2.curTrial = (escalate s l).2.curTrial := by
  unfold solveStep escalate AztecOO.AZ_iterate
  simp only [hm, if_true]
  split_ifs <;> exact ⟨rfl, rfl, rfl, rfl⟩

/-- A value in the range of a 32-bit `int` is held as it is. -/
theorem int32_of_range (v : Int) (hlo : -(2 : Int) ^ 31 ≤ v) (hhi : v < 2 ^ 31) :
    int32 v = v := by
  unfold int32
  rw [Int.emod_eq_of_lt (by omega) (by omega)]
  omega

/-- The three branches of `escalate`. -/
theorem escalate_spec (s : AztecOO) (l : AdaptiveLocals) :
    (l.fill < l.curMaxFill →
      (escalate s l).2.fill = EPETRA_MIN (2 * l.fill) l.curMaxFill ∧
      (escalate s l).2.kspace = l.kspace ∧ (escalate s l).1.params_ = s.params_ ∧
      (escalate s l).2.curTrial = s.NumTrials_) ∧
    (¬ l.fill < l.curMaxFill → (s.options_.AZ_subdomain_solve = AZ_ilut ∧ s.params_.AZ_drop > 0) →
      (escalate s l).2.fill = l.fill ∧ (escalate s l).2.kspace = l.kspace ∧
      (escalate s l).1.params_ = { s.params_ with AZ_drop := 0 } ∧
      (escalate s l).2.curTrial = s.NumTrials_) ∧
    (¬ l.fill < l.curMaxFill → ¬ (s.options_.AZ_subdomain_solve = AZ_ilut ∧ s.params_.AZ_drop > 0) →
      (escalate s l).2.fill = l.fill ∧ (escalate s l).2.kspace = int32 (l.kspace * 2) ∧
      (escalate s l).1.params_ = s.params_ ∧ (escalate s l).2.curTrial = 0) := by
  unfold escalate
  refine ⟨?_, ?_, ?_⟩
  · intro h; simp [h]
  · intro h h2; simp [h, h2]
  · intro h h2; simp [h, h2]

/-- Along the loops, as long as one of the first two escalations is still possible the
subspace size has not been doubled, so it is within its ceiling. -/
theorem kspace_within_ceiling (env : AztecEnv) (s : AztecOO) (MaxIters : Int) (Tolerance : Rat)
    (c0 : AdaptiveConfig) (h0 : s.AdaptiveIterate_begin env MaxIters Tolerance = .loop c0)
    (n : Nat) :
    (c0.run env n).l.kspace ≤ (c0.run env n).l.curMaxKspace ∨
    (¬ (c0.run env n).l.fill < (c0.run env n).l.curMaxFill ∧
     ¬ ((c0.run env n).s.options_.AZ_subdomain_solve = AZ_ilut ∧
        (c0.run env n).s.params_.AZ_drop > 0)) := by
  obtain ⟨s6, -, h6⟩ := (begin_elim env s MaxIters Tolerance (fun _ => True) trivial
    (fun _ _ => trivial) (fun _ _ => trivial)).2 c0 h0
  have he := locals_entry s6 c0 h6
  apply run_invariant env (fun c => c.l.kspace ≤ c.l.curMaxKspace ∨
    (¬ c.l.fill < c.l.curMaxFill ∧
     ¬ (c.s.options_.AZ_subdomain_solve = AZ_ilut ∧ c.s.params_.AZ_drop > 0)))
  · intro c hc
    apply step_elim env c (fun c => c.l.kspace ≤ c.l.curMaxKspace ∨
      (¬ c.l.fill < c.l.curMaxFill ∧
       ¬ (c.s.options_.AZ_subdomain_solve = AZ_ilut ∧ c.s.params_.AZ_drop > 0)))
    · intro _ _
      rw [kspaceEnter_shape]
      exact hc
    · intro _ _; exact hc
    · intro _ _; exact hc
    · intro _ _; exact hc
    · intro _ _ s1 l1 hs
      obtain ⟨e1, e2⟩ := condStep_shape env c.s s1 c.l l1 hs
      rw [e1, e2]
      exact hc
    · intro _ _ _; exact hc
    · intro _ _; exact hc
    · intro _
      obtain ⟨e1, e2⟩ := solveStep_shape env c.s c.l
      by_cases hm : (env.AZ_iterate c.s.attempts.length c.s).status.AZ_why = AZ_maxits
      · obtain ⟨m1, m2, m3, m4⟩ := solveStep_maxits env c.s c.l hm
        obtain ⟨ea, eb, ec⟩ := escalate_spec c.s c.l
        rw [e1, e2]
        simp only
        rw [m1, m2, m3]
        by_cases ha : c.l.fill < c.l.curMaxFill
        · obtain ⟨a1, a2, a3, _⟩ := ea ha
          left
          rw [a2]
          rcases hc with hc | hc
          · exact hc
          · exact absurd ha hc.1
        · by_cases hb : c.s.options_.AZ_subdomain_solve = AZ_ilut ∧ c.s.params_.AZ_drop > 0
          · obtain ⟨b1, b2, b3, _⟩ := eb ha hb
            left
            rw [b2]
            rcases hc with hc | hc
            · exact hc
            · exact absurd hb hc.2
          · obtain ⟨c1, c2, c3, _⟩ := ec ha hb
            right
            rw [c1, c3]
            exact ⟨ha, hb⟩
      · obtain ⟨q1, q2⟩ := solveStep_no_escalation env c.s c.l hm
        rw [q1, e1, q2]
        exact hc
    · intro _; exact hc
  · left; exact he.2.2.2.2.2.2.1

/-- The head of the body of the subspace-size loop leaves the drop tolerance and the record of
kernel calls alone. -/
theorem kspaceEnter_frame (s : AztecOO) (l : AdaptiveLocals) :
    (kspaceEnter s l).params_.AZ_drop = s.params_.AZ_drop ∧
    (kspaceEnter s l).attempts = s.attempts := by
  rw [kspaceEnter_shape]
  exact ⟨rfl, rfl⟩

/-- After a max-iterations outcome with the trial index forced to `NumTrials_` and the
subspace size within its ceiling, the trial loop is left and entered again from index 0 two
steps later, through the head of the subspace-size loop. -/
theorem trial_loop_reentry (env : AztecEnv) (c : AdaptiveConfig) (hpc : c.pc = .trialLoop)
    (ht : c.l.curTrial = c.s.NumTrials_) (hw : c.s.status_.AZ_why = AZ_maxits)
    (hk : c.l.kspace ≤ c.l.curMaxKspace) :
    c.run env 2 = ⟨.trialLoop, kspaceEnter c.s c.l, { c.l with curTrial := 0 }⟩ := by
  have hne : ¬ ((AZ_maxits : Rat) = (AZ_normal : Rat)) := by
    simp [AZ_maxits, AZ_normal]
  show (c.step env).step env = _
  simp [AdaptiveConfig.step, hpc, ht, hw, hk, hne]

/-- After a solve attempt of the adaptive loop that ends in max-iterations, exactly one
escalation is applied, chosen in this order. (a) If fill is below the fill ceiling, fill
becomes the smaller of twice fill and the ceiling, with subspace size and drop tolerance
unchanged, and two steps later the trial loop is entered again from index 0. (b) Otherwise,
if the subdomain solve is ILUT and the drop tolerance is positive, the drop tolerance becomes
0, with fill and subspace size unchanged, and two steps later the trial loop is entered again
from index 0. (c) Otherwise the subspace size becomes its double taken in 32-bit arithmetic,
which is its double as long as that is below 2^31, and the trial index is reset to 0, with
fill and drop tolerance unchanged. Here `n` is the step of the attempt, `n + 1` the step
after it and `n + 3` two steps later; no kernel call is made in between. -/
theorem escalation_order (env : AztecEnv) (s : AztecOO) (MaxIters : Int) (Tolerance : Rat)
    (c0 : AdaptiveConfig) (n : Nat)
    (h0 : s.AdaptiveIterate_begin env MaxIters Tolerance = .loop c0)
    (hpc : (c0.run env n).pc = .solve)
    (hmax : (env.AZ_iterate (c0.run env n).s.attempts.length (c0.run env n).s).status.AZ_why
      = AZ_maxits) :
    ((c0.run env n).l.fill < (c0.run env n).l.curMaxFill →
      (c0.run env (n + 1)).l.fill
        = EPETRA_MIN (2 * (c0.run env n).l.fill) (c0.run env n).l.curMaxFill ∧
      (c0.run env (n + 1)).l.kspace = (c0.run env n).l.kspace ∧
      (c0.run env (n + 1)).s.params_.AZ_drop = (c0.run env n).s.params_.AZ_drop ∧
      (c0.run env (n + 3)).pc = .trialLoop ∧ (c0.run env (n + 3)).l.curTrial = 0 ∧
      (c0.run env (n + 3)).l.fill = (c0.run env (n + 1)).l.fill ∧
      (c0.run env (n + 3)).l.kspace = (c0.run env n).l.kspace ∧
      (c0.run env (n + 3)).s.params_.AZ_drop = (c0.run env n).s.params_.AZ_drop ∧
      (c0.run env (n + 3)).s.attempts = (c0.run env (n + 1)).s.attempts) ∧
    (¬ (c0.run env n).l.fill < (c0.run env n).l.curMaxFill →
      ((c0.run env n).s.options_.AZ_subdomain_solve = AZ_ilut ∧
        (c0.run env n).s.params_.AZ_drop > 0) →
      (c0.run env (n + 1)).s.params_.AZ_drop = 0 ∧
      (c0.run env (n + 1)).l.fill = (c0.run env n).l.fill ∧
      (c0.run env (n + 1)).l.kspace = (c0.run env n).l.kspace ∧
      (c0.run env (n + 3)).pc = .trialLoop ∧ (c0.run env (n + 3)).l.curTrial = 0 ∧
      (c0.run env (n + 3)).l.fill = (c0.run env n).l.fill ∧
      (c0.run env (n + 3)).l.kspace = (c0.run env n).l.kspace ∧
      (c0.run env (n + 3)).s.params_.AZ_drop = 0 ∧
      (c0.run env (n + 3)).s.attempts = (c0.run env (n + 1)).s.attempts) ∧
    (¬ (c0.run env n).l.fill < (c0.run env n).l.curMaxFill →
      ¬ ((c0.run env n).s.options_.AZ_subdomain_solve = AZ_ilut ∧
        (c0.run env n).s.params_.AZ_drop > 0) →
      (c0.run env (n + 1)).l.kspace = int32 ((c0.run env n).l.kspace * 2) ∧
      (-(2 : Int) ^ 31 ≤ (c0.run env n).l.kspace * 2 → (c0.run env n).l.kspace * 2 < 2 ^ 31 →
        (c0.run env (n + 1)).l.kspace = (c0.run env n).l.kspace * 2) ∧
      (c0.run env (n + 1)).pc = .trialLoop ∧ (c0.run env (n + 1)).l.curTrial = 0 ∧
      (c0.run env (n + 1)).l.fill = (c0.run env n).l.fill ∧
      (c0.run env (n + 1)).s.params_.AZ_drop = (c0.run env n).s.params_.AZ_drop) := by
  have hinv := kspace_within_ceiling env s MaxIters Tolerance c0 h0 n
  have e1 : c0.run env (n + 1) = ⟨.trialLoop, (solveStep env (c0.run env n).s (c0.run env n).l).1,
      (solveStep env (c0.run env n).s (c0.run env n).l).2⟩ := by
    rw [run_succ, step_solve env _ hpc]
  have e3 : c0.run env (n + 3) = (c0.run env (n + 1)).run env 2 := by
    rw [show n + 3 = (n + 1) + 2 from rfl, run_add]
  generalize c0.run env n = c at hpc hmax hinv e1 e3 ⊢
  obtain ⟨m1, m2, m3, m4⟩ := solveStep_maxits env c.s c.l hmax
  obtain ⟨ea, eb, ec⟩ := escalate_spec c.s c.l
  obtain ⟨sh1, sh2⟩ := solveStep_shape env c.s c.l
  have hst : (solveStep env c.s c.l).1.status_.AZ_why = AZ_maxits := by rw [sh1]; exact hmax
  have hnt : (solveStep env c.s c.l).1.NumTrials_ = c.s.NumTrials_ := by rw [sh1]
  have hck : (solveStep env c.s c.l).2.curMaxKspace = c.l.curMaxKspace := by rw [sh2]
  refine ⟨?_, ?_, ?_⟩
  · intro ha
    obtain ⟨a1, a2, a3, a4⟩ := ea ha
    have hk : c.l.kspace ≤ c.l.curMaxKspace := by
      rcases hinv with h | h
      · exact h
      · exact absurd ha h.1
    have re := trial_loop_reentry env (c0.run env (n + 1)) (by rw [e1])
      (by rw [e1]; simp only; rw [m4, a4, hnt]) (by rw [e1]; exact hst)
      (by rw [e1]; simp only; rw [m3, a2, hck]; exact hk)
    rw [e3, re, e1]
    simp only [(kspaceEnter_frame _ _).1, (kspaceEnter_frame _ _).2]
    rw [m1, m2, m3, a1, a2, a3]
    refine ⟨?_, ?_, ?_, ?_, ?_, ?_, ?_, ?_, ?_⟩ <;> first | rfl | trivial
  · intro ha hb
    obtain ⟨b1, b2, b3, b4⟩ := eb ha hb
    have hk : c.l.kspace ≤ c.l.curMaxKspace := by
      rcases hinv with h | h
      · exact h
      · exact absurd hb h.2
    have re := trial_loop_reentry env (c0.run env (n + 1)) (by rw [e1])
      (by rw [e1]; simp only; rw [m4, b4, hnt]) (by rw [e1]; exact hst)
      (by rw [e1]; simp only; rw [m3, b2, hck]; exact hk)
    rw [e3, re, e1]
    simp only [(kspaceEnter_frame _ _).1, (kspaceEnter_frame _ _).2]
    rw [m1, m2, m3, b1, b2, b3]
    refine ⟨?_, ?_, ?_, ?_, ?_, ?_, ?_, ?_, ?_⟩ <;> first | rfl | trivial
  · intro ha hb
    obtain ⟨c1, c2, c3, c4⟩ := ec ha hb
    rw [e1]
    simp only
    rw [m1, m2, m3, m4, c1, c2, c3, c4]
    refine ⟨?_, ?_, ?_, ?_, ?_, ?_⟩ <;>
      first | rfl | trivial | exact fun hlo hhi => int32_of_range _ hlo hhi

/-- The first solve attempt (step 4) of the demo session run with the kernel outcomes of
`rollbackEnv` ends in max-iterations with fill 1 below the ceiling 4: branch (a). -/
theorem escalation_order_example :
    demoSession.AdaptiveIterate_begin rollbackEnv 100 (1 / 1000) = .loop (demoEntry rollbackEnv) ∧
    ((demoEntry rollbackEnv).run rollbackEnv 4).pc = .solve ∧
    (rollbackEnv.AZ_iterate ((demoEntry rollbackEnv).run rollbackEnv 4).s.attempts.length
      ((demoEntry rollbackEnv).run rollbackEnv 4).s).status.AZ_why = AZ_maxits ∧
    ((demoEntry rollbackEnv).run rollbackEnv 4).l.fill
      < ((demoEntry rollbackEnv).run rollbackEnv 4).l.curMaxFill ∧
    (((demoEntry rollbackEnv).run rollbackEnv (4 + 1)).l.fill
        = EPETRA_MIN (2 * ((demoEntry rollbackEnv).run rollbackEnv 4).l.fill)
            ((demoEntry rollbackEnv).run rollbackEnv 4).l.curMaxFill ∧
      ((demoEntry rollbackEnv).run rollbackEnv (4 + 1)).l.kspace
        = ((demoEntry rollbackEnv).run rollbackEnv 4).l.kspace ∧
      ((demoEntry rollbackEnv).run rollbackEnv (4 + 1)).s.params_.AZ_drop
        = ((demoEntry rollbackEnv).run rollbackEnv 4).s.params_.AZ_drop ∧
      ((demoEntry rollbackEnv).run rollbackEnv (4 + 3)).pc = .trialLoop ∧
      ((demoEntry rollbackEnv).run rollbackEnv (4 + 3)).l.curTrial = 0 ∧
      ((demoEntry rollbackEnv).run rollbackEnv (4 + 3)).l.fill
        = ((demoEntry rollbackEnv).run rollbackEnv (4 + 1)).l.fill ∧
      ((demoEntry rollbackEnv).run rollbackEnv (4 + 3)).l.kspace
        = ((demoEntry rollbackEnv).run rollbackEnv 4).l.kspace ∧
      ((demoEntry rollbackEnv).run rollbackEnv (4 + 3)).s.params_.AZ_drop
        = ((demoEntry rollbackEnv).run rollbackEnv 4).s.params_.AZ_drop ∧
      ((demoEntry rollbackEnv).run rollbackEnv (4 + 3)).s.attempts
        = ((demoEntry rollbackEnv).run rollbackEnv (4 + 1)).s.attempts) :=
  ⟨by decide!, by decide!, by decide!, by decide!,
   (escalation_order rollbackEnv demoSession 100 (1 / 1000) (demoEntry rollbackEnv) 4
      (by decide!) (by decide!) (by decide!)).1 (by decide!)⟩

/-- Truncation toward zero is monotone. -/
theorem double_to_int_mono {a b : Rat} (h : a ≤ b) : double_to_int a ≤ double_to_int b := by
  unfold double_to_int
  split_ifs with ha hb hb
  · exact Int.floor_mono h
  · exact absurd (le_trans ha h) hb
  · have h1 : ⌈a⌉ ≤ 0 := by
      rw [Int.ceil_le]
      push_neg at ha
      exact_mod_cast le_of_lt ha
    have h2 : (0 : Int) ≤ ⌊b⌋ := Int.floor_nonneg.mpr hb
    omega
  · exact Int.ceil_mono h

/-- Truncation of an integer value is that integer. -/
theorem double_to_int_intCast (z : Int) : double_to_int (z : Rat) = z := by
  unfold double_to_int
  split_ifs <;> simp

/-- The fill level in effect once the head of the subspace-size loop has written `fill`. -/
theorem kspaceEnter_fillInEffect (s : AztecOO) (l : AdaptiveLocals) :
    (kspaceEnter s l).fillInEffect =
      if s.options_.AZ_subdomain_solve = AZ_ilut then l.fill
      else ((double_to_int l.fill : Int) : Rat) := by
  unfold kspaceEnter AztecOO.setFill AztecOO.fillInEffect
  simp only
  split_ifs <;> simp_all

/-- The escalation never lowers a non-negative fill. -/
theorem solveStep_grow (env : AztecEnv) (s : AztecOO) (l : AdaptiveLocals)
    (hf : 0 ≤ l.fill) : l.fill ≤ (solveStep env s l).2.fill := by
  by_cases hm : (env.AZ_iterate s.attempts.length s).status.AZ_why = AZ_maxits
  · obtain ⟨_, m2, _, _⟩ := solveStep_maxits env s l hm
    rw [m2]
    unfold escalate EPETRA_MIN
    split_ifs with h1 h2 h3
    · simp only; linarith
    · simp only; exact le_of_lt h1
    · simp
    · simp
  · obtain ⟨q1, _⟩ := solveStep_no_escalation env s l hm
    rw [q1]

/-- `Iterate` keeps the fill level and subspace size in effect, and records at most one kernel
call, made with the fill level and subspace size of its entry. -/
theorem Iterate_keeps (env : AztecEnv) (t : AztecOO) (MaxIters : Int) (Tolerance : Rat) :
    (t.Iterate env MaxIters Tolerance).2.fillInEffect = t.fillInEffect ∧
    (t.Iterate env MaxIters Tolerance).2.options_.AZ_kspace = t.options_.AZ_kspace ∧
    ((t.Iterate env MaxIters Tolerance).2.attempts = t.attempts ∨
     ∃ a : SolveAttempt, (t.Iterate env MaxIters Tolerance).2.attempts = t.attempts ++ [a] ∧
       a.fill = t.fillInEffect ∧ a.options.AZ_kspace = t.options_.AZ_kspace) := by
  refine ⟨?_, ?_, ?_⟩
  · rw [Iterate_shape]; rfl
  · rw [Iterate_shape]
  · unfold AztecOO.Iterate AztecOO.SetIterTol AztecOO.AZ_iterate AztecOO.AZ_precond_create
    simp only
    split_ifs
    · left; rfl
    · left; rfl
    · right; exact ⟨_, rfl, rfl, rfl⟩
    · right; exact ⟨_, rfl, rfl, rfl⟩

/-- The strategy set-up keeps the fill level and subspace size in effect and records no kernel
call. -/
theorem strategy_keeps (t : AztecOO) (MaxIters : Int) (Tolerance : Rat) :
    (t.AdaptiveIterate_strategy MaxIters Tolerance).fillInEffect = t.fillInEffect ∧
    (t.AdaptiveIterate_strategy MaxIters Tolerance).options_.AZ_kspace = t.options_.AZ_kspace ∧
    (t.AdaptiveIterate_strategy MaxIters Tolerance).attempts = t.attempts := by
  refine ⟨?_, ?_, ?_⟩
  · unfold AztecOO.AdaptiveIterate_strategy AztecOO.AdaptiveIterate_defaults
      AztecOO.SetAdaptiveParams AztecOO.SetIterTol AztecOO.fillInEffect
    simp only [AZ_bilu, AZ_bilu_ifp, AZ_ilut]
    split_ifs <;> simp_all
  · rw [strategy_shape]
  · rw [strategy_shape]

/-- The statements of `AdaptiveIterate` before its loops keep the fill level and subspace size
in effect, at every kernel call they make and in the state they end in. -/
theorem begin_keeps (env : AztecEnv) (s : AztecOO) (MaxIters : Int) (Tolerance : Rat) :
    (∀ o s1, s.AdaptiveIterate_begin env MaxIters Tolerance = .returned o s1 →
      PreludeKeeps s s1) ∧
    (∀ c, s.AdaptiveIterate_begin env MaxIters Tolerance = .loop c →
      ∃ s6, PreludeKeeps s s6 ∧ s6.AdaptiveIterate_locals = .loop c) := by
  apply begin_elim env s MaxIters Tolerance (PreludeKeeps s)
  · exact ⟨rfl, rfl, le_refl _, by simp⟩
  · intro t ⟨h1, h2, h3, h4⟩
    obtain ⟨k1, k2, k3⟩ := Iterate_keeps env t MaxIters Tolerance
    refine ⟨k1.trans h1, k2.trans h2, ?_, ?_⟩
    · rcases k3 with k3 | ⟨a, k3, _, _⟩
      · rw [k3]; exact h3
      · rw [k3]; simp; omega
    · rcases k3 with k3 | ⟨a, k3, ka, kb⟩
      · rw [k3]; exact h4
      · rw [k3, List.drop_append_of_le_length h3]
        intro x hx
        rcases List.mem_append.mp hx with hx | hx
        · exact h4 x hx
        · rw [List.mem_singleton] at hx
          subst hx
          exact ⟨ka.trans h1, kb.trans h2⟩
  · intro t ⟨h1, h2, h3, h4⟩
    obtain ⟨k1, k2, k3⟩ := strategy_keeps t MaxIters Tolerance
    refine ⟨k1.trans h1, k2.trans h2, ?_, ?_⟩
    · rw [k3]; exact h3
    · rw [k3]; exact h4

/-- Records that all carry the same fill level are in order of fill level. -/
theorem fill_pairwise_of_const (xs : List SolveAttempt) (f : Rat)
    (h : ∀ a ∈ xs, a.fill = f) : xs.Pairwise (fun x y => x.fill ≤ y.fill) := by
  rw [List.pairwise_iff_forall_sublist]
  intro a b hab
  have ha := h a (hab.subset (by simp))
  have hb := h b (hab.subset (by simp))
  rw [ha, hb]

/-- The fill level in effect depends on the subdomain solve, `params_[AZ_ilut_fill]` and
`options_[AZ_graph_fill]` only. -/
theorem fillInEffect_congr (s t : AztecOO)
    (h1 : t.options_.AZ_subdomain_solve = s.options_.AZ_subdomain_solve)
    (h2 : t.options_.AZ_graph_fill = s.options_.AZ_graph_fill)
    (h3 : t.params_.AZ_ilut_fill = s.params_.AZ_ilut_fill) :
    t.fillInEffect = s.fillInEffect := by
  unfold AztecOO.fillInEffect
  rw [h1, h2, h3]

/-- Every step of the loops keeps `FillMonotoneSoFar`. -/
theorem FillMonotoneSoFar_step (env : AztecEnv) (b : Nat) (c : AdaptiveConfig)
    (h : FillMonotoneSoFar b c) : FillMonotoneSoFar b (c.step env) := by
  obtain ⟨h1, h2, h3, h4, h6⟩ := h
  apply step_elim env c (FillMonotoneSoFar b)
  · intro _ _
    refine ⟨?_, ?_, ?_, ?_, h6⟩
    · rw [(kspaceEnter_frame _ _).2]; exact h1
    · rw [(kspaceEnter_frame _ _).2]; exact h2
    · rw [(kspaceEnter_frame _ _).2]
      intro a ha
      exact le_trans (h3 a ha) h4
    · rw [kspaceEnter_fillInEffect, kspaceEnter_fillInEffect]
      have : (kspaceEnter c.s c.l).options_.AZ_subdomain_solve
          = c.s.options_.AZ_subdomain_solve := by rw [kspaceEnter_shape]
      rw [this]
  · intro _ _; exact ⟨h1, h2, h3, h4, h6⟩
  · intro _ _; exact ⟨h1, h2, h3, h4, h6⟩
  · intro _ _; exact ⟨h1, h2, h3, h4, h6⟩
  · intro _ _ s1 l1 hs
    obtain ⟨e1, e2⟩ := condStep_shape env c.s s1 c.l l1 hs
    have f1 : s1.fillInEffect = c.s.fillInEffect :=
      fillInEffect_congr c.s s1 (by rw [e1]) (by rw [e1]) (by rw [e1])
    have f2 : s1.attempts = c.s.attempts := by rw [e1]
    have f4 : s1.options_.AZ_subdomain_solve = c.s.options_.AZ_subdomain_solve := by rw [e1]
    have f5 : l1.fill = c.l.fill := by rw [e2]
    refine ⟨by rw [f2]; exact h1, by rw [f2]; exact h2, ?_, ?_, ?_⟩
    · show ∀ a ∈ s1.attempts.drop b, a.fill ≤ s1.fillInEffect
      rw [f1, f2]; exact h3
    · show s1.fillInEffect ≤ (kspaceEnter s1 l1).fillInEffect
      rw [f1, kspaceEnter_fillInEffect, f4, f5, ← kspaceEnter_fillInEffect]; exact h4
    · show 0 ≤ l1.fill
      rw [f5]; exact h6
  · intro _ _ _; exact ⟨h1, h2, h3, h4, h6⟩
  · intro _ _; exact ⟨h1, h2, h3, h4, h6⟩
  · intro _
    obtain ⟨e1, e2⟩ := solveStep_shape env c.s c.l
    have g1 := solveStep_grow env c.s c.l h6
    have f1 : (solveStep env c.s c.l).1.fillInEffect = c.s.fillInEffect :=
      fillInEffect_congr c.s _ (by rw [e1]) (by rw [e1]) (by rw [e1])
    have f2 : (solveStep env c.s c.l).1.attempts = c.s.attempts ++
        [{ options := c.s.options_, params := c.s.params_, condest := c.s.condest_,
           Prec := c.s.Prec_ }] := by rw [e1]
    have f4 : (solveStep env c.s c.l).1.options_.AZ_subdomain_solve
        = c.s.options_.AZ_subdomain_solve := by rw [e1]
    refine ⟨?_, ?_, ?_, ?_, ?_⟩
    · show b ≤ (solveStep env c.s c.l).1.attempts.length
      rw [f2]; simp; omega
    · show ((solveStep env c.s c.l).1.attempts.drop b).Pairwise (fun x y => x.fill ≤ y.fill)
      rw [f2, List.drop_append_of_le_length h1, List.pairwise_append]
      refine ⟨h2, by simp, ?_⟩
      intro x hx y hy
      rw [List.mem_singleton] at hy
      subst hy
      exact h3 x hx
    · show ∀ a ∈ (solveStep env c.s c.l).1.attempts.drop b,
        a.fill ≤ (solveStep env c.s c.l).1.fillInEffect
      rw [f1, f2, List.drop_append_of_le_length h1]
      intro x hx
      rcases List.mem_append.mp hx with hx | hx
      · exact h3 x hx
      · rw [List.mem_singleton] at hx
        subst hx
        exact le_refl _
    · show (solveStep env c.s c.l).1.fillInEffect
        ≤ (kspaceEnter (solveStep env c.s c.l).1 (solveStep env c.s c.l).2).fillInEffect
      rw [f1, kspaceEnter_fillInEffect, f4]
      refine le_trans h4 ?_
      rw [kspaceEnter_fillInEffect]
      split_ifs
      · exact g1
      · exact_mod_cast double_to_int_mono g1
    · exact le_trans h6 g1
  · intro _; exact ⟨h1, h2, h3, h4, h6⟩

/-- The fill component of the monotonic escalation: within one call of `AdaptiveIterate`
started with a non-negative fill level in effect, the kernel calls made during the call, taken
in order, have non-decreasing fill level in effect, `n` loop steps into the call for every `n`
and for all collaborators. -/
theorem fill_nondecreasing (env : AztecEnv) (s : AztecOO) (MaxIters : Int)
    (Tolerance : Rat) (n : Nat) (hfill : 0 ≤ s.fillInEffect) :
    ((s.AdaptiveIterate_state env n MaxIters Tolerance).attempts.drop
      s.attempts.length).Pairwise (fun x y => x.fill ≤ y.fill) := by
  obtain ⟨hret, hloop⟩ := begin_keeps env s MaxIters Tolerance
  unfold AztecOO.AdaptiveIterate_state
  cases hb : s.AdaptiveIterate_begin env MaxIters Tolerance with
  | returned o s1 =>
    obtain ⟨_, _, _, k4⟩ := hret o s1 hb
    exact fill_pairwise_of_const _ _ (fun a ha => (k4 a ha).1)
  | loop c =>
    obtain ⟨s6, ⟨k1, k2, k3, k4⟩, h6⟩ := hloop c hb
    obtain ⟨_, e2, _, e4, _, e6, _, _⟩ := locals_entry s6 c h6
    have h0 : FillMonotoneSoFar s.attempts.length c := by
      refine ⟨?_, ?_, ?_, ?_, ?_⟩
      · rw [e2]; exact k3
      · rw [e2]; exact fill_pairwise_of_const _ _ (fun a ha => (k4 a ha).1)
      · rw [e2]
        intro a ha
        rw [(k4 a ha).1, k1]
      · rw [kspaceEnter_fillInEffect, e4, e2]
        unfold AztecOO.fillInEffect
        split_ifs
        · exact le_refl _
        · rw [double_to_int_intCast]
      · rw [e4, k1]; exact hfill
    exact (run_invariant env (FillMonotoneSoFar s.attempts.length)
      (fun d hd => FillMonotoneSoFar_step env _ d hd) c h0 n).2.1

/-- The call on the demo session with the kernel outcomes of `rollbackEnv`: its three kernel
calls are made with fill 1, 2, 4 and subspace size 30. -/
theorem fill_nondecreasing_example :
    0 ≤ demoSession.fillInEffect ∧
    (((demoSession.AdaptiveIterate_state rollbackEnv 19 100 (1 / 1000)).attempts.drop
      demoSession.attempts.length).Pairwise (fun x y => x.fill ≤ y.fill)) ∧
    ((demoSession.AdaptiveIterate_state rollbackEnv 19 100 (1 / 1000)).attempts.drop
      demoSession.attempts.length).map (fun a => (a.fill, a.options.AZ_kspace))
      = [(1, 30), (2, 30), (4, 30)] :=
  ⟨by decide!,
   fill_nondecreasing rollbackEnv demoSession 100 (1 / 1000) 19 (by decide!), by decide!⟩

/-- Truncation of a non-negative value does not exceed it. -/
theorem double_to_int_le {q : Rat} (h : 0 ≤ q) : ((double_to_int q : Int) : Rat) ≤ q := by
  unfold double_to_int
  rw [if_pos h]
  exact Int.floor_le q

/-- Every step of the loops keeps `WithinCeilings`. -/
theorem WithinCeilings_step (env : AztecEnv) (F : Rat) (K : Int) (c : AdaptiveConfig)
    (h : WithinCeilings F K c) : WithinCeilings F K (c.step env) := by
  obtain ⟨h1, h2, h3, h4, h5, h6⟩ := h
  apply step_elim env c (WithinCeilings F K)
  · intro _ hg
    have hsub : (kspaceEnter c.s c.l).options_.AZ_subdomain_solve
        = c.s.options_.AZ_subdomain_solve := by rw [kspaceEnter_shape]
    refine ⟨h1, h2, h3, ?_, ?_, ?_⟩
    · rw [kspaceEnter_fillInEffect]
      split_ifs with hi
      · exact h3
      · by_cases hneg : c.l.fill < 0
        · obtain ⟨z, hz⟩ := h6 hi hneg
          rw [hz, double_to_int_intCast, ← hz]
          exact h3
        · exact le_trans (double_to_int_le (not_lt.mp hneg)) h3
    · rw [kspaceEnter_shape]
      show c.l.kspace ≤ K
      rw [← h2]; exact hg.2
    · rw [hsub]; exact h6
  · intro _ _; exact ⟨h1, h2, h3, h4, h5, h6⟩
  · intro _ _; exact ⟨h1, h2, h3, h4, h5, h6⟩
  · intro _ _; exact ⟨h1, h2, h3, h4, h5, h6⟩
  · intro _ _ s1 l1 hs
    obtain ⟨e1, e2⟩ := condStep_shape env c.s s1 c.l l1 hs
    have f1 : s1.fillInEffect = c.s.fillInEffect :=
      fillInEffect_congr c.s s1 (by rw [e1]) (by rw [e1]) (by rw [e1])
    have f3 : s1.options_.AZ_kspace = c.s.options_.AZ_kspace := by rw [e1]
    have f4 : s1.options_.AZ_subdomain_solve = c.s.options_.AZ_subdomain_solve := by rw [e1]
    have f5 : l1.fill = c.l.fill := by rw [e2]
    refine ⟨by rw [e2]; exact h1, by rw [e2]; exact h2, ?_, ?_, ?_, ?_⟩
    · show l1.fill ≤ F
      rw [f5]; exact h3
    · show s1.fillInEffect ≤ F
      rw [f1]; exact h4
    · show s1.options_.AZ_kspace ≤ K
      rw [f3]; exact h5
    · show s1.options_.AZ_subdomain_solve ≠ AZ_ilut → l1.fill < 0 → ∃ z : Int, l1.fill = z
      rw [f4, f5]; exact h6
  · intro _ _ _; exact ⟨h1, h2, h3, h4, h5, h6⟩
  · intro _ _; exact ⟨h1, h2, h3, h4, h5, h6⟩
  · intro _
    obtain ⟨e1, e2⟩ := solveStep_shape env c.s c.l
    have f1 : (solveStep env c.s c.l).1.fillInEffect = c.s.fillInEffect :=
      fillInEffect_congr c.s _ (by rw [e1]) (by rw [e1]) (by rw [e1])
    have f3 : (solveStep env c.s c.l).1.options_.AZ_kspace = c.s.options_.AZ_kspace := by
      rw [e1]
    have f4 : (solveStep env c.s c.l).1.options_.AZ_subdomain_solve
        = c.s.options_.AZ_subdomain_solve := by rw [e1]
    have ffill : (solveStep env c.s c.l).2.fill ≤ F ∧
        (c.s.options_.AZ_subdomain_solve ≠ AZ_ilut → (solveStep env c.s c.l).2.fill < 0 →
          ∃ z : Int, (solveStep env c.s c.l).2.fill = z) := by
      by_cases hm : (env.AZ_iterate c.s.attempts.length c.s).status.AZ_why = AZ_maxits
      · obtain ⟨_, m2, _, _⟩ := solveStep_maxits env c.s c.l hm
        obtain ⟨ea, eb, ec⟩ := escalate_spec c.s c.l
        rw [m2]
        by_cases ha : c.l.fill < c.l.curMaxFill
        · rw [(ea ha).1, h1]
          rw [h1] at ha
          unfold EPETRA_MIN
          split_ifs with hlt
          · refine ⟨le_of_lt hlt, ?_⟩
            intro hi hneg
            obtain ⟨z, hz⟩ := h6 hi (by linarith)
            exact ⟨2 * z, by rw [hz]; push_cast; ring⟩
          · refine ⟨le_refl _, ?_⟩
            intro _ hneg
            exfalso
            push_neg at hlt
            linarith
        · by_cases hb : c.s.options_.AZ_subdomain_solve = AZ_ilut ∧ c.s.params_.AZ_drop > 0
          · rw [(eb ha hb).1]; exact ⟨h3, h6⟩
          · rw [(ec ha hb).1]; exact ⟨h3, h6⟩
      · obtain ⟨q1, _⟩ := solveStep_no_escalation env c.s c.l hm
        rw [q1]; exact ⟨h3, h6⟩
    refine ⟨by rw [e2]; exact h1, by rw [e2]; exact h2, ffill.1, ?_, ?_, ?_⟩
    · show (solveStep env c.s c.l).1.fillInEffect ≤ F
      rw [f1]; exact h4
    · show (solveStep env c.s c.l).1.options_.AZ_kspace ≤ K
      rw [f3]; exact h5
    · show (solveStep env c.s c.l).1.options_.AZ_subdomain_solve ≠ AZ_ilut → _
      rw [f4]; exact ffill.2
  · intro _; exact ⟨h1, h2, h3, h4, h5, h6⟩

/-- C10 (counterexample): on `aboveCeilingsSession` (ILUT fill 10, subspace size 30, trial
table with maximum fill 4 and maximum subspace size 20) the first solve attempt of the
adaptive loop (step 4) runs with fill 10 and subspace size 30, both above the configured
maxima. -/
theorem C10_attempt_above_configured_maxima :
    aboveCeilingsSession.AdaptiveIterate_begin stallEnv 100 (1 / 1000)
      = .loop (aboveCeilingsSession.AdaptiveIterate_begin stallEnv 100 (1 / 1000)).config ∧
    (((aboveCeilingsSession.AdaptiveIterate_begin stallEnv 100 (1 / 1000)).config.run
      stallEnv 4).pc = .solve) ∧
    ((aboveCeilingsSession.AdaptiveIterate_begin stallEnv 100 (1 / 1000)).config.run
      stallEnv 4).s.maxFill_ = 4 ∧
    ((aboveCeilingsSession.AdaptiveIterate_begin stallEnv 100 (1 / 1000)).config.run
      stallEnv 4).s.fillInEffect = 10 ∧
    ((aboveCeilingsSession.AdaptiveIterate_begin stallEnv 100 (1 / 1000)).config.run
      stallEnv 4).s.maxKspace_ = 20 ∧
    ((aboveCeilingsSession.AdaptiveIterate_begin stallEnv 100 (1 / 1000)).config.run
      stallEnv 4).s.options_.AZ_kspace = 30 ∧
    ¬ (((aboveCeilingsSession.AdaptiveIterate_begin stallEnv 100 (1 / 1000)).config.run
          stallEnv 4).s.fillInEffect
        ≤ ((aboveCeilingsSession.AdaptiveIterate_begin stallEnv 100 (1 / 1000)).config.run
          stallEnv 4).s.maxFill_ ∧
       ((aboveCeilingsSession.AdaptiveIterate_begin stallEnv 100 (1 / 1000)).config.run
          stallEnv 4).s.options_.AZ_kspace
        ≤ ((aboveCeilingsSession.AdaptiveIterate_begin stallEnv 100 (1 / 1000)).config.run
          stallEnv 4).s.maxKspace_) := by
  decide!

/-- C10 (amended): all along the loops of `AdaptiveIterate`, so at every solve attempt of the
adaptive loop, for all collaborators, every initial fill, initial subspace size, solver kind
and trial table: the fill level in effect does not exceed the larger of the fill level in
effect at the entry of the loops and the configured maximum fill, and the subspace size in
effect does not exceed the larger of the subspace size at the entry of the loops and the
configured maximum subspace size. The values at the entry of the loops are those at the entry
of the call. -/
theorem C10_within_entry_ceilings (env : AztecEnv) (s : AztecOO) (MaxIters : Int)
    (Tolerance : Rat) (c0 : AdaptiveConfig) (n : Nat)
    (h0 : s.AdaptiveIterate_begin env MaxIters Tolerance = .loop c0) :
    (c0.run env n).s.fillInEffect ≤ EPETRA_MAX c0.s.fillInEffect c0.s.maxFill_ ∧
    (c0.run env n).s.options_.AZ_kspace ≤ EPETRA_MAX c0.s.options_.AZ_kspace c0.s.maxKspace_ ∧
    (c0.run env n).s.maxFill_ = c0.s.maxFill_ ∧ (c0.run env n).s.maxKspace_ = c0.s.maxKspace_ ∧
    c0.s.fillInEffect = s.fillInEffect ∧ c0.s.options_.AZ_kspace = s.options_.AZ_kspace := by
  obtain ⟨s6, ⟨k1, k2, _, _⟩, h6⟩ := (begin_keeps env s MaxIters Tolerance).2 c0 h0
  obtain ⟨_, e2, _, e4, e5, e6, e7, e8⟩ := locals_entry s6 c0 h6
  have hF : c0.l.fill ≤ c0.l.curMaxFill := by
    rw [e4, e5]; unfold EPETRA_MAX; split_ifs with h
    · exact le_refl _
    · exact not_lt.mp h
  have hinit : WithinCeilings c0.l.curMaxFill c0.l.curMaxKspace c0 := by
    refine ⟨rfl, rfl, hF, ?_, ?_, ?_⟩
    · rw [e2, ← e4]; exact hF
    · rw [e2, ← e6]; exact e7
    · intro hi _
      rw [e4]
      rw [e2] at hi
      unfold AztecOO.fillInEffect
      rw [if_neg hi]
      exact ⟨_, rfl⟩
  obtain ⟨_, _, _, r4, r5, _⟩ := run_invariant env _
    (fun d hd => WithinCeilings_step env c0.l.curMaxFill c0.l.curMaxKspace d hd) c0 hinit n
  have hmf : (c0.run env n).s.maxFill_ = c0.s.maxFill_ ∧
      (c0.run env n).s.maxKspace_ = c0.s.maxKspace_ := by
    apply run_invariant env (fun d => d.s.maxFill_ = c0.s.maxFill_ ∧
      d.s.maxKspace_ = c0.s.maxKspace_) _ c0 ⟨rfl, rfl⟩
    intro d hd
    apply step_elim env d (fun d => d.s.maxFill_ = c0.s.maxFill_ ∧
      d.s.maxKspace_ = c0.s.maxKspace_)
    · intro _ _; rw [kspaceEnter_shape]; exact hd
    · intro _ _; exact hd
    · intro _ _; exact hd
    · intro _ _; exact hd
    · intro _ _ s1 l1 hs
      rw [(condStep_shape env d.s s1 d.l l1 hs).1]; exact hd
    · intro _ _ _; exact hd
    · intro _ _; exact hd
    · intro _; rw [(solveStep_shape env d.s d.l).1]; exact hd
    · intro _; exact hd
  refine ⟨?_, ?_, hmf.1, hmf.2, ?_, ?_⟩
  · rw [e2, ← e5]; exact r4
  · rw [e2]; exact le_trans r5 e8
  · rw [e2]; exact k1
  · rw [e2]; exact k2

/-- Witness for C10 (amended): the first solve attempt (step 4) of the run on
`aboveCeilingsSession`. -/
theorem C10_within_entry_ceilings_witness :
    aboveCeilingsSession.AdaptiveIterate_begin stallEnv 100 (1 / 1000)
      = .loop (aboveCeilingsSession.AdaptiveIterate_begin stallEnv 100 (1 / 1000)).config ∧
    ((aboveCeilingsSession.AdaptiveIterate_begin stallEnv 100 (1 / 1000)).config.run
        stallEnv 4).s.fillInEffect
      ≤ EPETRA_MAX
          (aboveCeilingsSession.AdaptiveIterate_begin stallEnv 100 (1 / 1000)).config.s.fillInEffect
          (aboveCeilingsSession.AdaptiveIterate_begin stallEnv 100 (1 / 1000)).config.s.maxFill_ ∧
    ((aboveCeilingsSession.AdaptiveIterate_begin stallEnv 100 (1 / 1000)).config.run
        stallEnv 4).s.options_.AZ_kspace
      ≤ EPETRA_MAX
          (aboveCeilingsSession.AdaptiveIterate_begin stallEnv 100
            (1 / 1000)).config.s.options_.AZ_kspace
          (aboveCeilingsSession.AdaptiveIterate_begin stallEnv 100
            (1 / 1000)).config.s.maxKspace_ :=
  ⟨by decide!,
   (C10_within_entry_ceilings stallEnv aboveCeilingsSession 100 (1 / 1000)
      (aboveCeilingsSession.AdaptiveIterate_begin stallEnv 100 (1 / 1000)).config 4
      (by decide!)).1,
   (C10_within_entry_ceilings stallEnv aboveCeilingsSession 100 (1 / 1000)
      (aboveCeilingsSession.AdaptiveIterate_begin stallEnv 100 (1 / 1000)).config 4
      (by decide!)).2.1⟩
/-! ## C7: termination of the adaptive loop -/

/-- The kernel of `stallEnv` ends every call in max-iterations. -/
theorem stallEnv_why (k : Nat) (s : AztecOO) :
    (stallEnv.AZ_iterate k s).status.AZ_why = AZ_maxits := by
  cases k <;> simp [stallEnv, scriptedEnv, List.getD]

/-- One pass of the condition search with the collaborators of `stallEnv`, on a bound
session with a non-zero preconditioner kind, one local row and a positive condition estimate,
at an index inside the trial table: the condition estimate is halved. -/
theorem condStep_stallEnv (s : AztecOO) (l : AdaptiveLocals) (hA : s.A_ = true)
    (hp : s.options_.AZ_precond ≠ 0) (hN : s.N_local_ = 1) (hc : 0 < s.condest_)
    (h0 : 0 ≤ l.curTrial) (ha : l.curTrial.toNat < s.athresholds_.length)
    (hr : l.curTrial.toNat < s.rthresholds_.length) :
    ∃ s1, condStep stallEnv s l = some (s1, { l with curTrial := l.curTrial + 1 }) ∧
      s1.condest_ = s.condest_ / 2 := by
  have hpos : (0 : Rat) < s.condest_ / 2 := by linarith
  have hfab : fabs (s.condest_ / 2) = s.condest_ / 2 := by
    unfold fabs; rw [if_neg (not_lt.mpr (le_of_lt hpos))]
  have key : ∀ t : AztecOO, t.A_ = true → t.options_.AZ_precond ≠ 0 → t.N_local_ = 1 →
      t.condest_ = s.condest_ →
      (t.ConstructPreconditioner stallEnv t.condest_).2.1 = s.condest_ / 2 := by
    intro t tA tp tN tc
    unfold AztecOO.ConstructPreconditioner
    simp only [tA, tp, Bool.true_eq_false, if_false, ne_eq, not_false_eq_true, if_true]
    split_ifs <;>
      simp [stallEnv, scriptedEnv, AztecOO.AZ_precond_create, tN, tc, localCondest,
        Comm_MaxAll, hfab, hpos]
  have hs1 : ∀ s1 : AztecOO, (if s.Prec_ ≠ none then s.DestroyPreconditioner.2 else s) = s1 →
      s1.athresholds_ = s.athresholds_ ∧ s1.rthresholds_ = s.rthresholds_ ∧ s1.A_ = s.A_ ∧
      s1.options_.AZ_precond = s.options_.AZ_precond ∧ s1.N_local_ = s.N_local_ ∧
      s1.condest_ = s.condest_ := by
    intro s1 h
    subst h
    unfold AztecOO.DestroyPreconditioner
    split_ifs <;> exact ⟨rfl, rfl, rfl, rfl, rfl, rfl⟩
  unfold condStep
  simp only
  generalize hg : (if s.Prec_ ≠ none then s.DestroyPreconditioner.2 else s) = s1
  obtain ⟨f1, f2, f3, f4, f5, f6⟩ := hs1 s1 hg
  rw [← f1] at ha
  rw [← f2] at hr
  simp only [h0, if_true, List.getElem?_eq_getElem ha, List.getElem?_eq_getElem hr]
  refine ⟨_, rfl, ?_⟩
  simp only
  exact key _ (by simp only [AztecOO.SetThresholds]; rw [f3, hA])
    (by simp only [AztecOO.SetThresholds]; rw [f4]; exact hp)
    (by simp only [AztecOO.SetThresholds]; rw [f5, hN])
    (by simp only [AztecOO.SetThresholds]; rw [f6])

/-- With the collaborators of `stallEnv`, every step of the loops keeps `KspaceSpin`: the
loops go round the trial-loop head, one rebuild of the preconditioner and a solve attempt,
doubling the local `kspace` each time, and never reach the head of the subspace-size loop
where `kspace` is compared with its ceiling. -/
theorem KspaceSpin_step (c : AdaptiveConfig) (m : Nat) (h : KspaceSpin c m) :
    KspaceSpin (c.step stallEnv) (m + 1) := by
  obtain ⟨j1, j2, j3, j4, j5, j6, j7, j8, j9, j10, j11, hcase⟩ := h
  have hne : ¬ ((AZ_maxits : Rat) = (AZ_normal : Rat)) := by simp [AZ_maxits, AZ_normal]
  have hp0 : c.s.options_.AZ_precond ≠ 0 := by rw [j7]; decide
  rcases hcase with ⟨hpc, ht, hm⟩ | ⟨hpc, ht, hthr, hm⟩ | ⟨hpc, ht, hthr, hm⟩ | ⟨hpc, ht, hm⟩
  · -- at the trial-loop head with index 0
    have hg : (c.s.status_.AZ_why ≠ AZ_normal ∨ c.l.FirstCallToSolver = true)
        ∧ c.l.curTrial < c.s.NumTrials_ := by
      refine ⟨Or.inl ?_, ?_⟩
      · rw [j1]; exact hne
      · rw [ht, j3]; decide
    have e : c.step stallEnv =
        { c with pc := .condLoop, l := { c.l with curCondestThreshold := c.s.condest_ } } := by
      simp [AdaptiveConfig.step, hpc, hg]
    rw [e]
    exact ⟨j1, j2, j3, j4, j5, j6, j7, j8, j9, j10, j11,
      Or.inr (Or.inl ⟨rfl, ht, rfl, by rw [← hm]⟩)⟩
  · -- in the condition search, before the rebuild
    obtain ⟨s1, hs1, hc1⟩ := condStep_stallEnv c.s c.l j6 hp0 j8 j11 (by rw [ht])
      (by rw [ht, j4]; decide) (by rw [ht, j5]; decide)
    have hg : c.s.condest_ ≥ c.l.curCondestThreshold := by rw [hthr]
    have e : c.step stallEnv =
        { pc := .condLoop, s := s1, l := { c.l with curTrial := c.l.curTrial + 1 } } := by
      simp [AdaptiveConfig.step, hpc, hg, hs1]
    obtain ⟨sh, _⟩ := condStep_shape stallEnv c.s s1 c.l _ hs1
    rw [e]
    refine ⟨?_, j2, ?_, ?_, ?_, ?_, ?_, ?_, j9, ?_, ?_,
      Or.inr (Or.inr (Or.inl ⟨rfl, ?_, ?_, ?_⟩))⟩
    · show s1.status_.AZ_why = _
      rw [sh]; exact j1
    · show s1.NumTrials_ = _
      rw [sh]; exact j3
    · show s1.athresholds_.length = _
      rw [sh]; exact j4
    · show s1.rthresholds_.length = _
      rw [sh]; exact j5
    · show s1.A_ = _
      rw [sh]; exact j6
    · show s1.options_.AZ_precond = _
      rw [sh]; exact j7
    · show s1.N_local_ = _
      rw [sh]; exact j8
    · show s1.params_.AZ_drop = _
      rw [sh]; exact j10
    · show 0 < s1.condest_
      rw [hc1]; linarith
    · show c.l.curTrial + 1 = 1
      rw [ht]; rfl
    · show s1.condest_ < c.l.curCondestThreshold
      rw [hc1, hthr]; linarith
    · show 4 * s1.attempts.length + 2 = m + 1
      rw [sh, ← hm]
  · -- in the condition search, after the rebuild
    have hg : ¬ c.s.condest_ ≥ c.l.curCondestThreshold := not_le.mpr hthr
    have e : c.step stallEnv = { c with pc := .solve } := by
      simp [AdaptiveConfig.step, hpc, hthr]
    rw [e]
    exact ⟨j1, j2, j3, j4, j5, j6, j7, j8, j9, j10, j11,
      Or.inr (Or.inr (Or.inr ⟨rfl, ht, by rw [← hm]⟩))⟩
  · -- at the solve-and-accept step
    have hw := stallEnv_why c.s.attempts.length c.s
    obtain ⟨m1, m2, m3, m4⟩ := solveStep_maxits stallEnv c.s c.l hw
    obtain ⟨_, _, ec⟩ := escalate_spec c.s c.l
    have hb : ¬ (c.s.options_.AZ_subdomain_solve = AZ_ilut ∧ c.s.params_.AZ_drop > 0) := by
      rw [j10]; simp
    obtain ⟨c1, c2, c3, c4⟩ := ec j9 hb
    obtain ⟨sh1, sh2⟩ := solveStep_shape stallEnv c.s c.l
    rw [step_solve stallEnv c hpc]
    refine ⟨?_, ?_, ?_, ?_, ?_, ?_, ?_, ?_, ?_, ?_, ?_, Or.inl ⟨rfl, ?_, ?_⟩⟩
    · show (solveStep stallEnv c.s c.l).1.status_.AZ_why = _
      rw [sh1]; exact hw
    · show (solveStep stallEnv c.s c.l).2.FirstCallToSolver = false
      rw [sh2]
    · show (solveStep stallEnv c.s c.l).1.NumTrials_ = _
      rw [sh1]; exact j3
    · show (solveStep stallEnv c.s c.l).1.athresholds_.length = _
      rw [sh1]; exact j4
    · show (solveStep stallEnv c.s c.l).1.rthresholds_.length = _
      rw [sh1]; exact j5
    · show (solveStep stallEnv c.s c.l).1.A_ = _
      rw [sh1]; exact j6
    · show (solveStep stallEnv c.s c.l).1.options_.AZ_precond = _
      rw [sh1]; exact j7
    · show (solveStep stallEnv c.s c.l).1.N_local_ = _
      rw [sh1]; exact j8
    · show ¬ (solveStep stallEnv c.s c.l).2.fill < (solveStep stallEnv c.s c.l).2.curMaxFill
      rw [m2, c1]
      have : (solveStep stallEnv c.s c.l).2.curMaxFill = c.l.curMaxFill := by rw [sh2]
      rw [this]; exact j9
    · show (solveStep stallEnv c.s c.l).1.params_.AZ_drop = _
      rw [m1, c3]; exact j10
    · show 0 < (solveStep stallEnv c.s c.l).1.condest_
      rw [sh1]; exact j11
    · show (solveStep stallEnv c.s c.l).2.curTrial = 0
      rw [m4, c4]
    · show 4 * (solveStep stallEnv c.s c.l).1.attempts.length = m + 1
      rw [sh1, ← hm]
      simp only [List.length_append, List.length_singleton]
      omega

/-- C7 (code evaluated at the failing input): the demo session (GMRES, ILUT, fill 1, drop
tolerance 1/100, subspace size 30, built-in trial table of seven trials, so fill ceiling 4 and
subspace-size ceiling 120) with a kernel that ends every call in max-iterations. After fill
has reached its ceiling and the drop tolerance is 0 (step 23), each further max-iterations
outcome doubles the local `kspace` and resets the trial index to 0, which keeps the trial
loop running: the test of `kspace` against its ceiling is never reached again. So the loops
are never left, `AdaptiveIterate` never returns, and the number of solve attempts grows
without bound; at step 34 a solve attempt is made with the local `kspace` at 240, above the
ceiling 120, while the subspace size in effect is still 30. -/
theorem C7_adaptive_loop_never_left :
    demoSession.AdaptiveIterate_begin stallEnv 100 (1 / 1000) = .loop (demoEntry stallEnv) ∧
    (∀ k s, (stallEnv.AZ_iterate k s).status.AZ_why = AZ_maxits) ∧
    (∀ n, ((demoEntry stallEnv).run stallEnv n).pc ≠ .done ∧
          ((demoEntry stallEnv).run stallEnv n).pc ≠ .fault) ∧
    (∀ fuel, demoSession.AdaptiveIterate stallEnv fuel 100 (1 / 1000) = none) ∧
    (∀ N, ∃ n, N ≤ ((demoEntry stallEnv).run stallEnv n).s.attempts.length) ∧
    ((demoEntry stallEnv).run stallEnv 34).pc = .solve ∧
    ((demoEntry stallEnv).run stallEnv 34).l.kspace = 240 ∧
    ((demoEntry stallEnv).run stallEnv 34).l.curMaxKspace = 120 ∧
    ((demoEntry stallEnv).run stallEnv 34).s.options_.AZ_kspace = 30 := by
  have hb : demoSession.AdaptiveIterate_begin stallEnv 100 (1 / 1000)
      = .loop (demoEntry stallEnv) := by decide!
  have h23 : KspaceSpin ((demoEntry stallEnv).run stallEnv 23) 16 := by
    unfold KspaceSpin; decide!
  have hspin : ∀ j, KspaceSpin ((demoEntry stallEnv).run stallEnv (23 + j)) (16 + j) := by
    intro j
    induction j with
    | zero => exact h23
    | succ j ih =>
      rw [show 23 + (j + 1) = (23 + j) + 1 from rfl, run_succ]
      exact KspaceSpin_step _ _ ih
  have hearly : ∀ n, n < 23 → ((demoEntry stallEnv).run stallEnv n).pc ≠ .done ∧
      ((demoEntry stallEnv).run stallEnv n).pc ≠ .fault := by decide!
  have hpc : ∀ n, ((demoEntry stallEnv).run stallEnv n).pc ≠ .done ∧
      ((demoEntry stallEnv).run stallEnv n).pc ≠ .fault := by
    intro n
    by_cases hn : n < 23
    · exact hearly n hn
    · obtain ⟨j, rfl⟩ : ∃ j, n = 23 + j := ⟨n - 23, by omega⟩
      obtain ⟨_, _, _, _, _, _, _, _, _, _, _, hc⟩ := hspin j
      rcases hc with h | h | h | h <;> rw [h.1] <;> exact ⟨by decide, by decide⟩
  refine ⟨hb, stallEnv_why, hpc, ?_, ?_, by decide!, by decide!, by decide!, by decide!⟩
  · intro fuel
    unfold AztecOO.AdaptiveIterate
    rw [hb]
    simp only
    rw [if_neg (hpc fuel).1]
  · intro N
    refine ⟨23 + 4 * N, ?_⟩
    obtain ⟨_, _, _, _, _, _, _, _, _, _, _, hc⟩ := hspin (4 * N)
    rcases hc with h | h | h | h <;> omega

/-! ## C11: `Iterate` without a preconditioner for the user-supplied kind -/

/-- C11: on a bound session with no preconditioner and the user-supplied preconditioner kind,
`Iterate` returns the negative code -2; no kernel call is made, no preconditioner is created
and none is present afterwards, and the solution vector is unchanged. Only the iteration cap
and the tolerance have been set. -/
theorem C11_Iterate_user_kind_without_preconditioner (env : AztecEnv) (s : AztecOO)
    (MaxIters : Int) (Tolerance : Rat)
    (hA : s.A_ = true) (hX : s.X_ = true) (hB : s.B_ = true) (hP : s.Prec_ = none)
    (hU : s.options_.AZ_precond = AZ_user_precond) :
    (s.Iterate env MaxIters Tolerance).1 = .ret (-2) ∧ (-2 : Int) < 0 ∧
    (s.Iterate env MaxIters Tolerance).2.attempts = s.attempts ∧
    (s.Iterate env MaxIters Tolerance).2.precCreated = s.precCreated ∧
    (s.Iterate env MaxIters Tolerance).2.Prec_ = none ∧
    (s.Iterate env MaxIters Tolerance).2.x_ = s.x_ ∧
    (s.Iterate env MaxIters Tolerance).2 = s.SetIterTol MaxIters Tolerance := by
  have e : s.Iterate env MaxIters Tolerance = (.ret (-2), s.SetIterTol MaxIters Tolerance) := by
    unfold AztecOO.Iterate
    simp [hA, hX, hB, hP, hU, AztecOO.SetIterTol]
  rw [e]
  exact ⟨rfl, by decide, rfl, rfl, hP, rfl, rfl⟩

/-- Witness for C11: the demo session with the user-supplied kind. -/
theorem C11_Iterate_user_kind_without_preconditioner_witness :
    userKindSession.A_ = true ∧ userKindSession.X_ = true ∧ userKindSession.B_ = true ∧
    userKindSession.Prec_ = none ∧ userKindSession.options_.AZ_precond = AZ_user_precond ∧
    (userKindSession.Iterate stallEnv 100 (1 / 1000)).1 = .ret (-2) ∧
    (userKindSession.Iterate stallEnv 100 (1 / 1000)).2.attempts = userKindSession.attempts :=
  ⟨rfl, rfl, rfl, rfl, rfl,
   (C11_Iterate_user_kind_without_preconditioner stallEnv userKindSession 100 (1 / 1000)
      rfl rfl rfl rfl rfl).1,
   (C11_Iterate_user_kind_without_preconditioner stallEnv userKindSession 100 (1 / 1000)
      rfl rfl rfl rfl rfl).2.2.1⟩

/-! ## C12: a termination reason outside the known set -/

/-- The end status is the thrown code -5 exactly for a termination reason outside the known
set, and nothing else is ever thrown. -/
theorem endStatus_raise (s : AztecOO) :
    (s.endStatus = .raise (-5) ↔ ¬ knownReason s.status_.AZ_why) ∧
    (∀ v, s.endStatus = .raise v → v = -5) := by
  unfold AztecOO.endStatus knownReason
  split_ifs with h0 h1 h2 h3 h4 h5 <;> simp_all

/-- On a session that has a preconditioner or is not of the user-supplied kind,
`recursiveIterate` calls the kernel once, in the state `recursiveIterate_kernelInput`, and
ends with the end status of the kernel's status. -/
theorem recursiveIterate_eq (env : AztecEnv) (s : AztecOO) (MaxIters : Int) (Tolerance : Rat)
    (hP : s.Prec_ ≠ none ∨ s.options_.AZ_precond ≠ AZ_user_precond) :
    ∃ s', s.recursiveIterate env MaxIters Tolerance = .ended s'.endStatus s' ∧
      s'.status_ = (env.AZ_oldsolve s.attempts.length
        (s.recursiveIterate_kernelInput MaxIters Tolerance)).status := by
  unfold AztecOO.recursiveIterate AztecOO.recursiveIterate_kernelInput
  by_cases hp : s.Prec_ = none
  · have hu : s.options_.AZ_precond ≠ AZ_user_precond := by
      rcases hP with h | h
      · exact absurd hp h
      · exact h
    simp only [AztecOO.SetIterTol, hp, hu, if_true, if_false]
    exact ⟨_, rfl, rfl⟩
  · simp only [AztecOO.SetIterTol, hp, if_false]
    exact ⟨_, rfl, rfl⟩

/-- C12: when the kernel reports a termination reason outside normal, parameter-error,
breakdown, precision-loss, ill-conditioned and max-iterations, `Iterate` (on a bound session)
and `recursiveIterate` throw the internal-error code -5 and return no integer; this for
every session on which they call the kernel at all, that is with a preconditioner present or
a preconditioner kind other than user-supplied. -/
theorem C12_unknown_reason_raises (env : AztecEnv) (s : AztecOO) (MaxIters : Int)
    (Tolerance : Rat)
    (hP : s.Prec_ ≠ none ∨ s.options_.AZ_precond ≠ AZ_user_precond) :
    (s.A_ = true → s.X_ = true → s.B_ = true →
      ¬ knownReason (env.AZ_iterate s.attempts.length
          (s.Iterate_kernelInput MaxIters Tolerance)).status.AZ_why →
      (s.Iterate env MaxIters Tolerance).1 = .raise (-5) ∧
      ∀ v, (s.Iterate env MaxIters Tolerance).1 ≠ .ret v) ∧
    (¬ knownReason (env.AZ_oldsolve s.attempts.length
          (s.recursiveIterate_kernelInput MaxIters Tolerance)).status.AZ_why →
      (∃ s', s.recursiveIterate env MaxIters Tolerance = .ended (.raise (-5)) s') ∧
      ∀ v s', s.recursiveIterate env MaxIters Tolerance ≠ .ended (.ret v) s') := by
  refine ⟨?_, ?_⟩
  · intro hA hX hB hw
    obtain ⟨h1, h2, _⟩ := Iterate_eq env s MaxIters Tolerance hA hX hB hP
    have hr := (endStatus_raise (s.Iterate env MaxIters Tolerance).2).1
    rw [h1] at hr
    have e : (s.Iterate env MaxIters Tolerance).1 = .raise (-5) := by
      rw [h2]; exact hr.mpr hw
    exact ⟨e, fun v hv => by rw [e] at hv; exact Outcome.noConfusion hv⟩
  · intro hw
    obtain ⟨s', e1, e2⟩ := recursiveIterate_eq env s MaxIters Tolerance hP
    have hr := (endStatus_raise s').1
    rw [e2] at hr
    have e : s'.endStatus = .raise (-5) := hr.mpr hw
    rw [e] at e1
    refine ⟨⟨s', e1⟩, ?_⟩
    intro v t ht
    rw [e1] at ht
    injection ht with ht1 _
    exact Outcome.noConfusion ht1

/-- Witness for C12: on the demo session a kernel that reports the unknown reason 9 makes
`Iterate` and `recursiveIterate` throw -5. -/
theorem C12_unknown_reason_raises_witness :
    (demoSession.Prec_ ≠ none ∨ demoSession.options_.AZ_precond ≠ AZ_user_precond) ∧
    ¬ knownReason ((scriptedEnv [(9, 1, [1])]).AZ_iterate demoSession.attempts.length
        (demoSession.Iterate_kernelInput 100 (1 / 1000))).status.AZ_why ∧
    (demoSession.Iterate (scriptedEnv [(9, 1, [1])]) 100 (1 / 1000)).1 = .raise (-5) ∧
    (∃ s', demoSession.recursiveIterate (scriptedEnv [(9, 1, [1])]) 100 (1 / 1000)
      = .ended (.raise (-5)) s') :=
  ⟨Or.inr (by decide), by unfold knownReason; decide!,
   ((C12_unknown_reason_raises (scriptedEnv [(9, 1, [1])]) demoSession 100 (1 / 1000)
      (Or.inr (by decide))).1 rfl rfl rfl (by unfold knownReason; decide!)).1,
   ((C12_unknown_reason_raises (scriptedEnv [(9, 1, [1])]) demoSession 100 (1 / 1000)
      (Or.inr (by decide))).2 (by unfold knownReason; decide!)).1⟩

/-! ## C13: `Iterate` and the preconditioner of the session -/

/-- C13: `Iterate` leaves the preconditioner of the session as it found it, for every
outcome: if none was present on entry none is present on exit, and a kernel call made in
between ran with a throwaway default preconditioner created for it; if one was present on
entry the same one is present on exit and none was created. -/
theorem C13_Iterate_keeps_preconditioner (env : AztecEnv) (s : AztecOO) (MaxIters : Int)
    (Tolerance : Rat) :
    (s.Iterate env MaxIters Tolerance).2.Prec_ = s.Prec_ ∧
    (s.Prec_ = none → (s.Iterate env MaxIters Tolerance).2.Prec_ = none ∧
      ∀ a ∈ (s.Iterate env MaxIters Tolerance).2.attempts.drop s.attempts.length,
        a.Prec = some { id := s.precCreated, user := false } ∧
        (s.Iterate env MaxIters Tolerance).2.precCreated = s.precCreated + 1) ∧
    (∀ p, s.Prec_ = some p → (s.Iterate env MaxIters Tolerance).2.Prec_ = some p ∧
      (s.Iterate env MaxIters Tolerance).2.precCreated = s.precCreated ∧
      ∀ a ∈ (s.Iterate env MaxIters Tolerance).2.attempts.drop s.attempts.length,
        a.Prec = some p) := by
  have hk : (s.Iterate env MaxIters Tolerance).2.Prec_ = s.Prec_ := by rw [Iterate_shape]
  refine ⟨hk, ?_, ?_⟩
  · intro hn
    refine ⟨hk.trans hn, ?_⟩
    unfold AztecOO.Iterate AztecOO.SetIterTol AztecOO.AZ_iterate AztecOO.AZ_precond_create
    simp only [hn]
    split_ifs <;> simp
  · intro p hp
    refine ⟨hk.trans hp, ?_, ?_⟩
    · unfold AztecOO.Iterate AztecOO.SetIterTol AztecOO.AZ_iterate AztecOO.AZ_precond_create
      simp only [hp]
      split_ifs <;> first | contradiction | simp
    · unfold AztecOO.Iterate AztecOO.SetIterTol AztecOO.AZ_iterate AztecOO.AZ_precond_create
      simp only [hp]
      split_ifs <;> first | contradiction | simp

/-! ## C14: `DestroyPreconditioner` -/

/-- C14: `DestroyPreconditioner` always returns 0 and leaves no preconditioner; called with
no preconditioner present it changes nothing in the session state; calling it a second time
changes nothing, so twice in a row is the same as once. -/
theorem C14_DestroyPreconditioner_idempotent (s : AztecOO) :
    s.DestroyPreconditioner.1 = 0 ∧ s.DestroyPreconditioner.2.Prec_ = none ∧
    (s.Prec_ = none → s.DestroyPreconditioner = (0, s)) ∧
    s.DestroyPreconditioner.2.DestroyPreconditioner = (0, s.DestroyPreconditioner.2) := by
  have h1 : ∀ t : AztecOO, t.Prec_ = none → t.DestroyPreconditioner = (0, t) := by
    intro t ht
    unfold AztecOO.DestroyPreconditioner
    simp [ht]
  have h2 := (DestroyPreconditioner_spec s)
  exact ⟨h2.1, h2.2.1, h1 s, h1 _ h2.2.1⟩

/-! ## C15: `SetPreconditioner` with a preconditioner already present -/

/-- C15 (counterexample): on the Jacobi session, which holds a preconditioner built by
`ConstructPreconditioner`, `SetPreconditioner` returns 0 and the preconditioner of the session
is a new one, not the one that was present. -/
theorem C15_SetPreconditioner_replaces :
    jacobiBuiltSession.Prec_ = some { id := 0, user := false } ∧
    jacobiBuiltSession.SetPreconditioner.1 = 0 ∧
    jacobiBuiltSession.SetPreconditioner.2.Prec_ = some { id := 1, user := true } ∧
    ¬ (jacobiBuiltSession.SetPreconditioner.1 ≠ 0 ∧
       jacobiBuiltSession.SetPreconditioner.2.Prec_ = jacobiBuiltSession.Prec_) := by
  decide!

/-- C15 (amended): `SetPreconditioner` returns 0 whether or not a preconditioner is present;
afterwards a newly created preconditioner wrapping the function of the caller is present and
the preconditioner kind is the user-supplied one; nothing else in the session changes but
the counter of created preconditioners. -/
theorem C15_SetPreconditioner_always_succeeds (s : AztecOO) :
    s.SetPreconditioner.1 = 0 ∧
    s.SetPreconditioner.2.Prec_ = some { id := s.precCreated, user := true } ∧
    s.SetPreconditioner.2.options_.AZ_precond = AZ_user_precond ∧
    s.SetPreconditioner.2 =
      { s with Prec_ := some { id := s.precCreated, user := true },
               options_ := { s.options_ with AZ_precond := AZ_user_precond },
               precCreated := s.precCreated + 1 } := by
  unfold AztecOO.SetPreconditioner AztecOO.AZ_precond_create
  exact ⟨rfl, rfl, rfl, rfl⟩

/-! ## C16: the preconditioner after `ConstructPreconditioner` -/

/-- C16 (counterexample): on the demo session with the no-preconditioner kind 0 and no
preconditioner, `ConstructPreconditioner` returns 0 and no preconditioner is present
afterwards. -/
theorem C16_ConstructPreconditioner_none_kind :
    noneKindSession.options_.AZ_precond = 0 ∧ noneKindSession.Prec_ = none ∧
    (noneKindSession.ConstructPreconditioner stallEnv 0).1 = 0 ∧
    (noneKindSession.ConstructPreconditioner stallEnv 0).2.2.Prec_ = none := by
  decide!

/-- C16 (amended): whenever `ConstructPreconditioner` returns 0, a preconditioner is present
afterwards if `options[AZ_precond]` is non-zero; if it is 0 the session state and the
variable bound to the reference are unchanged, so a preconditioner is present afterwards
exactly if one was present before. -/
theorem C16_ConstructPreconditioner_built (env : AztecEnv) (s : AztecOO) (condest : Rat)
    (h : (s.ConstructPreconditioner env condest).1 = 0) :
    (s.options_.AZ_precond ≠ 0 → (s.ConstructPreconditioner env condest).2.2.Prec_ ≠ none) ∧
    (s.options_.AZ_precond = 0 →
      (s.ConstructPreconditioner env condest).2.2 = s ∧
      (s.ConstructPreconditioner env condest).2.1 = condest) := by
  by_cases hA : s.A_ = false
  · unfold AztecOO.ConstructPreconditioner at h
    simp [hA] at h
  · have hA' : s.A_ = true := by simpa using hA
    refine ⟨?_, ?_⟩
    · intro hp
      unfold AztecOO.ConstructPreconditioner AztecOO.AZ_precond_create
      by_cases hn : s.Prec_ = none
      · simp [hA', hp, hn]
      · simp [hA', hp, hn]
    · intro hp
      unfold AztecOO.ConstructPreconditioner
      simp [hA', hp]

/-- Witness for C16 (amended): the demo session (domain decomposition, bound). -/
theorem C16_ConstructPreconditioner_built_witness :
    (demoSession.ConstructPreconditioner stallEnv 0).1 = 0 ∧
    (demoSession.ConstructPreconditioner stallEnv 0).2.2.Prec_ ≠ none :=
  ⟨by decide!, (C16_ConstructPreconditioner_built stallEnv demoSession 0 (by decide!)).1
    (by decide)⟩

/-! ## C17: the condition estimate reported by `ConstructPreconditioner` -/

/-- The model of `fabs` is the absolute value. -/
theorem fabs_eq_abs (v : Rat) : fabs v = |v| := by
  unfold fabs
  split_ifs with h
  · exact (abs_of_neg h).symm
  · exact (abs_of_nonneg (not_lt.mp h)).symm

/-- The maximum of a list of rationals and 0, computed by `foldr max 0`: it bounds every
entry, is non-negative, and is 0 or one of the entries. -/
theorem foldr_max_spec (xs : List Rat) :
    (∀ x ∈ xs, x ≤ xs.foldr max 0) ∧ 0 ≤ xs.foldr max 0 ∧
    (xs.foldr max 0 = 0 ∨ xs.foldr max 0 ∈ xs) := by
  induction xs with
  | nil => simp
  | cons a xs ih =>
    obtain ⟨h1, h2, h3⟩ := ih
    simp only [List.foldr_cons, List.mem_cons, forall_eq_or_imp]
    refine ⟨⟨le_max_left _ _, fun x hx => le_trans (h1 x hx) (le_max_right _ _)⟩,
      le_trans h2 (le_max_right _ _), ?_⟩
    rcases max_choice a (xs.foldr max 0) with h | h
    · right; left; exact h
    · rw [h]
      rcases h3 with h3 | h3
      · left; exact h3
      · right; right; exact h3

/-- The loop of `ConstructPreconditioner` over the local entries, started from a
non-negative value, yields the larger of that value and the estimate of the rank. -/
theorem foldl_localCondest (v : List Rat) (c : Rat) (hc : 0 ≤ c) :
    v.foldl (fun c e => if fabs e > c then fabs e else c) c = max c (spec_rankEstimate v) := by
  induction v generalizing c with
  | nil =>
    simp only [List.foldl_nil, spec_rankEstimate, List.map_nil, List.foldr_nil]
    exact (max_eq_left hc).symm
  | cons e v ih =>
    have hstep : (if fabs e > c then fabs e else c) = max c |e| := by
      rw [fabs_eq_abs]
      split_ifs with h
      · exact (max_eq_right (le_of_lt h)).symm
      · exact (max_eq_left (not_lt.mp h)).symm
    simp only [List.foldl_cons, hstep]
    rw [ih _ (le_trans hc (le_max_left _ _))]
    simp only [spec_rankEstimate, List.map_cons, List.foldr_cons]
    exact max_assoc _ _ _

/-- The estimate of one rank computed by the code is the largest absolute value among its
entries, 0 when it has none. -/
theorem localCondest_eq (v : List Rat) : localCondest v = spec_rankEstimate v := by
  unfold localCondest
  rw [foldl_localCondest v 0 (le_refl _)]
  exact max_eq_right (foldr_max_spec _).2.1

/-- The reduction `MaxAll`, started from a non-negative value of this rank, yields the larger
of that value and the values of the other ranks. -/
theorem Comm_MaxAll_eq (others : List Rat) (mine : Rat) (hm : 0 ≤ mine) :
    Comm_MaxAll mine others = max mine (others.foldr max 0) := by
  unfold Comm_MaxAll
  induction others generalizing mine with
  | nil => simp only [List.foldl_nil, List.foldr_nil]; exact (max_eq_left hm).symm
  | cons o os ih =>
    have hstep : (if o > mine then o else mine) = max mine o := by
      split_ifs with h
      · exact (max_eq_right (le_of_lt h)).symm
      · exact (max_eq_left (not_lt.mp h)).symm
    simp only [List.foldl_cons, hstep, List.foldr_cons]
    rw [ih _ (le_trans hm (le_max_left _ _))]
    exact max_assoc _ _ _

/-- The value of `spec_condest`: it bounds the absolute value of every entry of every rank,
is non-negative, and is 0 or the absolute value of some entry. -/
theorem spec_condest_spec (ranks : List (List Rat)) :
    (∀ v ∈ ranks, ∀ e ∈ v, |e| ≤ spec_condest ranks) ∧ 0 ≤ spec_condest ranks ∧
    (spec_condest ranks = 0 ∨ ∃ v ∈ ranks, ∃ e ∈ v, |e| = spec_condest ranks) := by
  obtain ⟨h1, h2, h3⟩ := foldr_max_spec (ranks.map spec_rankEstimate)
  refine ⟨?_, h2, ?_⟩
  · intro v hv e he
    have hr : spec_rankEstimate v ≤ spec_condest ranks :=
      h1 _ (List.mem_map.mpr ⟨v, hv, rfl⟩)
    have hev : |e| ≤ spec_rankEstimate v :=
      (foldr_max_spec (v.map fun e => |e|)).1 _ (List.mem_map.mpr ⟨e, he, rfl⟩)
    exact le_trans hev hr
  · rcases h3 with h3 | h3
    · left; exact h3
    · obtain ⟨v, hv, hve⟩ := List.mem_map.mp h3
      rcases (foldr_max_spec (v.map fun e => |e|)).2.2 with h4 | h4
      · left
        show (ranks.map spec_rankEstimate).foldr max 0 = 0
        rw [← hve]; exact h4
      · obtain ⟨e, he, hee⟩ := List.mem_map.mp h4
        right
        refine ⟨v, hv, e, he, ?_⟩
        show |e| = (ranks.map spec_rankEstimate).foldr max 0
        rw [← hve]; exact hee

/-- C17: when `options[AZ_precond]` is non-zero and an operator is bound,
`ConstructPreconditioner` returns 0 and reports as `condest` the maximum over all ranks of
the largest absolute value among the local entries of each rank's work vector after the
preconditioner function was applied to the all-ones vector, a rank without local rows
counting 0 (`spec_condest`). The reported value is non-negative, bounds the absolute value of
every local entry of every rank, is 0 or the absolute value of one of them, and equals the
stored `condest_`. -/
theorem C17_condest_is_global_max (env : AztecEnv) (s : AztecOO) (condest : Rat)
    (hA : s.A_ = true) (hp : s.options_.AZ_precond ≠ 0) :
    (s.ConstructPreconditioner env condest).1 = 0 ∧
    (s.ConstructPreconditioner env condest).2.1 = spec_condest (s.condvecs env) ∧
    (s.ConstructPreconditioner env condest).2.2.condest_
      = (s.ConstructPreconditioner env condest).2.1 ∧
    0 ≤ (s.ConstructPreconditioner env condest).2.1 ∧
    (∀ v ∈ s.condvecs env, ∀ e ∈ v, |e| ≤ (s.ConstructPreconditioner env condest).2.1) ∧
    ((s.ConstructPreconditioner env condest).2.1 = 0 ∨
      ∃ v ∈ s.condvecs env, ∃ e ∈ v, |e| = (s.ConstructPreconditioner env condest).2.1) := by
  have e : (s.ConstructPreconditioner env condest).1 = 0 ∧
      (s.ConstructPreconditioner env condest).2.1 = spec_condest (s.condvecs env) ∧
      (s.ConstructPreconditioner env condest).2.2.condest_
        = (s.ConstructPreconditioner env condest).2.1 := by
    unfold AztecOO.ConstructPreconditioner AztecOO.condvecs AztecOO.ConstructPreconditioner_input
    simp only [hA, hp, Bool.true_eq_false, if_false, ne_eq, not_false_eq_true, if_true]
    refine ⟨trivial, ?_, trivial⟩
    have hnn : ∀ v : List Rat, 0 ≤ spec_rankEstimate v := fun v => (foldr_max_spec _).2.1
    rw [localCondest_eq, Comm_MaxAll_eq _ _ (hnn _)]
    have hmap : ∀ l : List (List Rat), l.map localCondest = l.map spec_rankEstimate := by
      intro l; exact List.map_congr_left (fun v _ => localCondest_eq v)
    rw [hmap]
    have hN : ∀ t : AztecOO, t = (if s.Prec_ = none then s.AZ_precond_create false else s) →
        t.N_local_ = s.N_local_ := by
      intro t ht; subst ht; split_ifs <;> rfl
    rw [hN _ rfl]
    rfl
  obtain ⟨e1, e2, e3⟩ := e
  obtain ⟨c1, c2, c3⟩ := spec_condest_spec (s.condvecs env)
  rw [e2]
  exact ⟨e1, rfl, by rw [e3, e2], c2, c1, c3⟩

/-- Witness for C17: three local rows on this rank with entries 1/2, -3, 2 after the
application and a second rank with entries -7/2, 1: the reported estimate is 7/2. -/
theorem C17_condest_is_global_max_witness :
    threeRowSession.A_ = true ∧ threeRowSession.options_.AZ_precond ≠ 0 ∧
    threeRowSession.condvecs twoRankEnv = [[1 / 2, -3, 2], [-7 / 2, 1]] ∧
    (threeRowSession.ConstructPreconditioner twoRankEnv 0).2.1 = 7 / 2 ∧
    (threeRowSession.ConstructPreconditioner twoRankEnv 0).2.1
      = spec_condest (threeRowSession.condvecs twoRankEnv) :=
  ⟨rfl, by decide, by decide!, by decide!,
   (C17_condest_is_global_max twoRankEnv threeRowSession 0 rfl (by decide)).2.1⟩

/-! ## C18: `SetAdaptiveParams` -/

/-- C18 (counterexample): on a session whose condest acceptance ceiling is 10^16,
`SetAdaptiveParams` called with the ceiling 0 leaves the stored ceiling at 10^16. -/
theorem C18_ceiling_kept_for_nonpositive_argument :
    aboveCeilingsSession.condestThreshold_ = 10 ^ 16 ∧
    (aboveCeilingsSession.SetAdaptiveParams 1 [0] [1] 0 4 20).condestThreshold_ = 10 ^ 16 ∧
    (aboveCeilingsSession.SetAdaptiveParams 1 [0] [1] 0 4 20).condestThreshold_ ≠ 0 := by
  decide!

/-- C18 (amended): after `SetAdaptiveParams(NumTrials, athresholds, rthresholds,
condestThreshold, maxFill, maxKspace)` with `NumTrials` non-negative and arrays of at least
`NumTrials` entries, the stored trial count, maximum fill and maximum subspace size equal the
arguments, the stored threshold arrays are the first `NumTrials` entries of the arguments,
the stored condest acceptance ceiling equals the argument when that is positive and is the
one stored before otherwise, and the built-in trial tables are no longer applied by
`AdaptiveIterate`: its strategy set-up leaves the stored table as it is. -/
theorem C18_SetAdaptiveParams_stores (s : AztecOO) (NumTrials : Int)
    (athresholds rthresholds : List Rat) (condestThreshold maxFill : Rat) (maxKspace : Int)
    (h0 : 0 ≤ NumTrials) (ha : NumTrials.toNat ≤ athresholds.length)
    (hr : NumTrials.toNat ≤ rthresholds.length) :
    (s.SetAdaptiveParams NumTrials athresholds rthresholds condestThreshold maxFill
      maxKspace).NumTrials_ = NumTrials ∧
    ((s.SetAdaptiveParams NumTrials athresholds rthresholds condestThreshold maxFill
      maxKspace).athresholds_.length : Int) = NumTrials ∧
    ((s.SetAdaptiveParams NumTrials athresholds rthresholds condestThreshold maxFill
      maxKspace).rthresholds_.length : Int) = NumTrials ∧
    (∀ i, i < NumTrials.toNat →
      (s.SetAdaptiveParams NumTrials athresholds rthresholds condestThreshold maxFill
        maxKspace).athresholds_[i]? = athresholds[i]? ∧
      (s.SetAdaptiveParams NumTrials athresholds rthresholds condestThreshold maxFill
        maxKspace).rthresholds_[i]? = rthresholds[i]?) ∧
    (condestThreshold > 0 →
      (s.SetAdaptiveParams NumTrials athresholds rthresholds condestThreshold maxFill
        maxKspace).condestThreshold_ = condestThreshold) ∧
    (¬ condestThreshold > 0 →
      (s.SetAdaptiveParams NumTrials athresholds rthresholds condestThreshold maxFill
        maxKspace).condestThreshold_ = s.condestThreshold_) ∧
    (s.SetAdaptiveParams NumTrials athresholds rthresholds condestThreshold maxFill
      maxKspace).maxFill_ = maxFill ∧
    (s.SetAdaptiveParams NumTrials athresholds rthresholds condestThreshold maxFill
      maxKspace).maxKspace_ = maxKspace ∧
    (s.SetAdaptiveParams NumTrials athresholds rthresholds condestThreshold maxFill
      maxKspace).useAdaptiveDefaults_ = false ∧
    (s.SetAdaptiveParams NumTrials athresholds rthresholds condestThreshold maxFill
      maxKspace).AdaptiveIterate_defaults
      = s.SetAdaptiveParams NumTrials athresholds rthresholds condestThreshold maxFill
          maxKspace := by
  have hu : (s.SetAdaptiveParams NumTrials athresholds rthresholds condestThreshold maxFill
      maxKspace).useAdaptiveDefaults_ = false := by
    unfold AztecOO.SetAdaptiveParams; rfl
  refine ⟨?_, ?_, ?_, ?_, ?_, ?_, ?_, ?_, hu, ?_⟩
  · unfold AztecOO.SetAdaptiveParams; simp only; split_ifs <;> rfl
  · have : (s.SetAdaptiveParams NumTrials athresholds rthresholds condestThreshold maxFill
        maxKspace).athresholds_ = athresholds.take NumTrials.toNat := by
      unfold AztecOO.SetAdaptiveParams; simp only; split_ifs <;> rfl
    rw [this, List.length_take, min_eq_left ha]
    exact Int.toNat_of_nonneg h0
  · have : (s.SetAdaptiveParams NumTrials athresholds rthresholds condestThreshold maxFill
        maxKspace).rthresholds_ = rthresholds.take NumTrials.toNat := by
      unfold AztecOO.SetAdaptiveParams; simp only; split_ifs <;> rfl
    rw [this, List.length_take, min_eq_left hr]
    exact Int.toNat_of_nonneg h0
  · intro i hi
    have e1 : (s.SetAdaptiveParams NumTrials athresholds rthresholds condestThreshold maxFill
        maxKspace).athresholds_ = athresholds.take NumTrials.toNat := by
      unfold AztecOO.SetAdaptiveParams; simp only; split_ifs <;> rfl
    have e2 : (s.SetAdaptiveParams NumTrials athresholds rthresholds condestThreshold maxFill
        maxKspace).rthresholds_ = rthresholds.take NumTrials.toNat := by
      unfold AztecOO.SetAdaptiveParams; simp only; split_ifs <;> rfl
    rw [e1, e2]
    exact ⟨List.getElem?_take_of_lt hi, List.getElem?_take_of_lt hi⟩
  · intro hc
    unfold AztecOO.SetAdaptiveParams; simp only [hc, if_true]
  · intro hc
    unfold AztecOO.SetAdaptiveParams; simp only [hc, if_false]
  · unfold AztecOO.SetAdaptiveParams; simp only; split_ifs <;> rfl
  · unfold AztecOO.SetAdaptiveParams; simp only; split_ifs <;> rfl
  · unfold AztecOO.AdaptiveIterate_defaults
    rw [hu]
    simp

/-- Witness for C18 (amended): a table of one trial stored on the demo session. -/
theorem C18_SetAdaptiveParams_stores_witness :
    (0 : Int) ≤ 1 ∧ (1 : Int).toNat ≤ [(0 : Rat)].length ∧ (1 : Int).toNat ≤ [(1 : Rat)].length ∧
    (demoSession.SetAdaptiveParams 1 [0] [1] (10 ^ 16) 4 20).NumTrials_ = 1 ∧
    (demoSession.SetAdaptiveParams 1 [0] [1] (10 ^ 16) 4 20).maxFill_ = 4 :=
  ⟨by decide, by decide, by decide,
   (C18_SetAdaptiveParams_stores demoSession 1 [0] [1] (10 ^ 16) 4 20 (by decide) (by decide)
      (by decide)).1,
   (C18_SetAdaptiveParams_stores demoSession 1 [0] [1] (10 ^ 16) 4 20 (by decide) (by decide)
      (by decide)).2.2.2.2.2.2.1⟩

/-! ## C19: return value of `Epetra_Aztec_getrow` -/

theorem getrow_loop_code (A : Epetra_RowMatrix) (entries : Int → List (Int × Rat)) :
    ∀ (rows : List Int) (i off : Nat) (Length : Int) (b : GetrowBuffers),
      A.copiesRows entries rows → 0 ≤ Length →
      (getrow_loop A rows i off Length b).1
        = if Length < (spec_totalNonzeros entries rows : Int) then 0 else 1 := by
  intro rows
  induction rows with
  | nil =>
    intro i off Length b _ h0
    have : ¬ Length < 0 := by omega
    simp [getrow_loop, spec_totalNonzeros, this]
  | cons r rest ih =>
    intro i off Length b hA h0
    have hr := hA r (List.mem_cons_self _ _) Length
    have hrest : A.copiesRows entries rest := fun q hq => hA q (List.mem_cons_of_mem _ hq)
    have htot : (spec_totalNonzeros entries (r :: rest) : Int)
        = ((entries r).length : Int) + (spec_totalNonzeros entries rest : Int) := by
      simp [spec_totalNonzeros]
    rw [getrow_loop]
    by_cases hc : (A.ExtractMyRowCopy r Length).1 ≠ 0
    · have hlt := hr.1.1 hc
      have : Length < (spec_totalNonzeros entries (r :: rest) : Int) := by omega
      simp [hc, this]
    · have hle : ¬ Length < ((entries r).length : Int) := fun h => hc (hr.1.2 h)
      have he := hr.2 (not_not.1 hc)
      rw [if_neg hc, ih _ _ _ _ hrest (by rw [he]; omega), he, htot]
      by_cases ht : Length - ((entries r).length : Int) < (spec_totalNonzeros entries rest : Int)
      · have : Length < ((entries r).length : Int) + (spec_totalNonzeros entries rest : Int) := by
          omega
        simp [ht, this]
      · have : ¬ Length < ((entries r).length : Int) + (spec_totalNonzeros entries rest : Int) := by
          omega
        simp [ht, this]

theorem listOperator_copiesRows (M : List (List (Int × Rat))) (rows : List Int)
    (hv : ∀ r ∈ rows, 0 ≤ r ∧ r < (M.length : Int)) :
    (listOperator M).copiesRows (fun r => M.getD r.toNat []) rows := by
  intro r hr Length
  have h := hv r hr
  have h1 : ¬ (r < 0 ∨ (M.length : Int) ≤ r) := by omega
  unfold listOperator
  simp only [h1, if_false]
  by_cases hl : Length < ((M.getD r.toNat []).length : Int)
  · rw [if_pos hl]
    exact ⟨⟨fun _ => hl, fun _ => by decide⟩, fun h => absurd h (by decide)⟩
  · rw [if_neg hl]
    exact ⟨⟨fun h => absurd rfl h, fun h => absurd h hl⟩, fun _ => rfl⟩

/-- C19: for requested rows on which the operator's row copy fails exactly when the row's
entry count exceeds the length passed to it, and `allocated_space ≥ 0`, `Epetra_Aztec_getrow`
returns 0 exactly when the total number of nonzeros of the requested rows exceeds
`allocated_space` and 1 exactly when it does not; it returns one of the two in every case
(the function is total: there is no raising path). -/
theorem C19_getrow_return_value (A : Epetra_RowMatrix) (entries : Int → List (Int × Rat))
    (columns : List Int) (values : List Rat) (row_lengths : List Int)
    (N_requested_rows : Int) (requested_rows : List Int) (allocated_space : Int)
    (h0 : 0 ≤ allocated_space)
    (hA : A.copiesRows entries (requested_rows.take N_requested_rows.toNat)) :
    ((Epetra_Aztec_getrow columns values row_lengths A N_requested_rows requested_rows
        allocated_space).1 = 0 ↔
      allocated_space
        < (spec_totalNonzeros entries (requested_rows.take N_requested_rows.toNat) : Int)) ∧
    ((Epetra_Aztec_getrow columns values row_lengths A N_requested_rows requested_rows
        allocated_space).1 = 1 ↔
      (spec_totalNonzeros entries (requested_rows.take N_requested_rows.toNat) : Int)
        ≤ allocated_space) := by
  unfold Epetra_Aztec_getrow
  rw [getrow_loop_code A entries _ 0 0 allocated_space _ hA h0]
  by_cases ht : allocated_space
      < (spec_totalNonzeros entries (requested_rows.take N_requested_rows.toNat) : Int)
  · simp [ht]
  · simp [ht]
    omega

/-- Witness for C19: the three rows of the tridiagonal example hold 7 nonzeros; with room for
6 the adapter returns 0. -/
theorem C19_getrow_return_value_witness :
    (0 : Int) ≤ 6 ∧
    spec_totalNonzeros tridiagonalEntries ([0, 2, 1].take (3 : Int).toNat) = 7 ∧
    (Epetra_Aztec_getrow (List.replicate 6 0) (List.replicate 6 0) [0, 0, 0]
      (listOperator tridiagonalRows) 3 [0, 2, 1] 6).1 = 0 :=
  ⟨by decide, by decide,
   (C19_getrow_return_value (listOperator tridiagonalRows) tridiagonalEntries
      (List.replicate 6 0) (List.replicate 6 0) [0, 0, 0] 3 [0, 2, 1] 6 (by decide)
      (listOperator_copiesRows tridiagonalRows _ (by decide))).1.2 (by decide)⟩

/-! ## C20: what `Epetra_Aztec_getrow` leaves in the buffers -/

theorem length_writeAt {α : Type} (buf : List α) (off : Nat) (xs : List α)
    (h : off + xs.length ≤ buf.length) : (writeAt buf off xs).length = buf.length := by
  unfold writeAt
  simp only [List.length_append, List.length_take, List.length_drop]
  omega

theorem writeAt_writeAt {α : Type} (buf : List α) (off : Nat) (xs ys : List α)
    (h : off ≤ buf.length) :
    writeAt (writeAt buf off xs) (off + xs.length) ys = writeAt buf off (xs ++ ys) := by
  have hl : (buf.take off ++ xs).length = off + xs.length := by
    simp only [List.length_append, List.length_take]
    omega
  unfold writeAt
  have e1 : (buf.take off ++ xs ++ buf.drop (off + xs.length)).take (off + xs.length)
      = buf.take off ++ xs := by
    rw [← hl]
    exact List.take_left _ _
  have e2 : (buf.take off ++ xs ++ buf.drop (off + xs.length)).drop (off + xs.length + ys.length)
      = buf.drop (off + (xs ++ ys).length) := by
    rw [← List.drop_drop, ← hl, List.drop_left, hl, List.drop_drop, List.length_append]
    congr 1
    omega
  rw [e1, e2]
  simp only [List.append_assoc]

theorem set_eq_writeAt {α : Type} (l : List α) (i : Nat) (v : α) (h : i < l.length) :
    l.set i v = writeAt l i [v] := by
  unfold writeAt
  rw [List.set_eq_take_append_cons_drop, if_pos h]
  simp

theorem getrow_loop_buffers (A : Epetra_RowMatrix) (entries : Int → List (Int × Rat)) :
    ∀ (rows : List Int) (i off : Nat) (Length : Int) (b : GetrowBuffers),
      A.copiesRows entries rows → 0 ≤ Length →
      off + Length.toNat ≤ b.columns.length → off + Length.toNat ≤ b.values.length →
      i + rows.length ≤ b.row_lengths.length →
      (getrow_loop A rows i off Length b).1 = 1 →
      (getrow_loop A rows i off Length b).2.columns
        = writeAt b.columns off (rows.map fun r => (entries r).map Prod.fst).flatten ∧
      (getrow_loop A rows i off Length b).2.values
        = writeAt b.values off (rows.map fun r => (entries r).map Prod.snd).flatten ∧
      (getrow_loop A rows i off Length b).2.row_lengths
        = writeAt b.row_lengths i (rows.map fun r => ((entries r).length : Int)) := by
  intro rows
  induction rows with
  | nil =>
    intro i off Length b _ _ _ _ _ _
    simp [getrow_loop, writeAt]
  | cons r rest ih =>
    intro i off Length b hA h0 hc hv hl h1
    have hr := hA r (List.mem_cons_self _ _) Length
    have hrest : A.copiesRows entries rest := fun q hq => hA q (List.mem_cons_of_mem _ hq)
    rw [getrow_loop] at h1 ⊢
    by_cases hcode : (A.ExtractMyRowCopy r Length).1 ≠ 0
    · rw [if_pos hcode] at h1
      exact absurd (show (0 : Int) = 1 from h1) (by decide)
    · have hle : ¬ Length < ((entries r).length : Int) := fun h => hcode (hr.1.2 h)
      have he := hr.2 (not_not.1 hcode)
      rw [if_neg hcode] at h1 ⊢
      rw [he] at h1 ⊢
      have hlen : i + 1 + rest.length = i + (r :: rest).length := by
        simp only [List.length_cons]; omega
      have hoc : off + (entries r).length ≤ b.columns.length := by omega
      have hov : off + (entries r).length ≤ b.values.length := by omega
      have hi : i < b.row_lengths.length := by
        simp only [List.length_cons] at hl; omega
      obtain ⟨g1, g2, g3⟩ := ih (i + 1) (off + (entries r).length)
        (Length - ((entries r).length : Int)) _ hrest (by omega)
        (by rw [length_writeAt _ _ _ (by simpa using hoc)]; omega)
        (by rw [length_writeAt _ _ _ (by simpa using hov)]; omega)
        (by simp only [List.length_set]; omega) h1
      refine ⟨?_, ?_, ?_⟩
      · rw [g1]
        have := writeAt_writeAt b.columns off ((entries r).map Prod.fst)
          (rest.map fun r => (entries r).map Prod.fst).flatten (by omega)
        rw [List.length_map] at this
        rw [this]
        simp
      · rw [g2]
        have := writeAt_writeAt b.values off ((entries r).map Prod.snd)
          (rest.map fun r => (entries r).map Prod.snd).flatten (by omega)
        rw [List.length_map] at this
        rw [this]
        simp
      · rw [g3]
        simp only
        rw [set_eq_writeAt _ _ _ hi]
        have := writeAt_writeAt b.row_lengths i [((entries r).length : Int)]
          (rest.map fun r => ((entries r).length : Int)) (by omega)
        simp only [List.length_singleton] at this
        rw [this]
        simp

theorem slice_flatten_append {α : Type} (L : List (List α)) (tail : List α) (i : Nat)
    (h : i < L.length) :
    ((L.flatten ++ tail).take ((L.map List.length).take (i + 1)).sum).drop
      ((L.map List.length).take i).sum = L[i] := by
  have hlen : L.flatten.length
      = ((L.map List.length).take (i + 1)).sum + ((L.map List.length).drop (i + 1)).sum := by
    rw [List.length_flatten, ← List.sum_append, List.take_append_drop]
  rw [List.take_append_of_le_length (by omega)]
  exact List.drop_take_succ_flatten_eq_getElem L i h

theorem spec_totalNonzeros_take (entries : Int → List (Int × Rat)) (rows : List Int) (k : Nat) :
    spec_totalNonzeros entries (rows.take k)
      = ((rows.map fun r => (entries r).length).take k).sum := by
  unfold spec_totalNonzeros
  rw [List.map_take]

/-- C20: when `Epetra_Aztec_getrow` returns 1 (buffers `columns` and `values` of at least
`allocated_space ≥ 0` entries, `row_lengths` of at least `N_requested_rows`, the operator's
row copy as assumed in `copiesRows`), then for every `i < N_requested_rows`: `row_lengths[i]`
is the entry count of `requested_rows[i]`; the sum of `row_lengths[0..i-1]` is the number of
nonzeros of the rows requested before; the column indices and the values of the entries of
`requested_rows[i]`, in their order, are exactly the slices of `columns` and `values` from
that position up to (excluding) the sum of `row_lengths[0..i]`. The total number of entries
written is at most `allocated_space`, and the buffers are untouched behind what was
written. -/
theorem C20_getrow_layout (A : Epetra_RowMatrix) (entries : Int → List (Int × Rat))
    (columns : List Int) (values : List Rat) (row_lengths : List Int)
    (N_requested_rows : Int) (requested_rows : List Int) (allocated_space : Int)
    (h0 : 0 ≤ allocated_space)
    (hA : A.copiesRows entries (requested_rows.take N_requested_rows.toNat))
    (hc : allocated_space.toNat ≤ columns.length) (hv : allocated_space.toNat ≤ values.length)
    (hl : (requested_rows.take N_requested_rows.toNat).length ≤ row_lengths.length)
    (h1 : (Epetra_Aztec_getrow columns values row_lengths A N_requested_rows requested_rows
        allocated_space).1 = 1) :
    (∀ i (hi : i < (requested_rows.take N_requested_rows.toNat).length),
      (Epetra_Aztec_getrow columns values row_lengths A N_requested_rows requested_rows
          allocated_space).2.row_lengths[i]?
        = some ((entries (requested_rows.take N_requested_rows.toNat)[i]).length : Int) ∧
      ((Epetra_Aztec_getrow columns values row_lengths A N_requested_rows requested_rows
          allocated_space).2.row_lengths.take i).sum
        = (spec_totalNonzeros entries ((requested_rows.take N_requested_rows.toNat).take i)
            : Int) ∧
      ((Epetra_Aztec_getrow columns values row_lengths A N_requested_rows requested_rows
          allocated_space).2.columns.take
            (spec_totalNonzeros entries
              ((requested_rows.take N_requested_rows.toNat).take (i + 1)))).drop
          (spec_totalNonzeros entries ((requested_rows.take N_requested_rows.toNat).take i))
        = (entries (requested_rows.take N_requested_rows.toNat)[i]).map Prod.fst ∧
      ((Epetra_Aztec_getrow columns values row_lengths A N_requested_rows requested_rows
          allocated_space).2.values.take
            (spec_totalNonzeros entries
              ((requested_rows.take N_requested_rows.toNat).take (i + 1)))).drop
          (spec_totalNonzeros entries ((requested_rows.take N_requested_rows.toNat).take i))
        = (entries (requested_rows.take N_requested_rows.toNat)[i]).map Prod.snd) ∧
    (spec_totalNonzeros entries (requested_rows.take N_requested_rows.toNat) : Int)
      ≤ allocated_space ∧
    (Epetra_Aztec_getrow columns values row_lengths A N_requested_rows requested_rows
        allocated_space).2.columns.drop
          (spec_totalNonzeros entries (requested_rows.take N_requested_rows.toNat))
      = columns.drop (spec_totalNonzeros entries (requested_rows.take N_requested_rows.toNat)) ∧
    (Epetra_Aztec_getrow columns values row_lengths A N_requested_rows requested_rows
        allocated_space).2.values.drop
          (spec_totalNonzeros entries (requested_rows.take N_requested_rows.toNat))
      = values.drop (spec_totalNonzeros entries (requested_rows.take N_requested_rows.toNat)) ∧
    (Epetra_Aztec_getrow columns values row_lengths A N_requested_rows requested_rows
        allocated_space).2.row_lengths.drop (requested_rows.take N_requested_rows.toNat).length
      = row_lengths.drop (requested_rows.take N_requested_rows.toNat).length := by
  generalize hrows : requested_rows.take N_requested_rows.toNat = rows at *
  unfold Epetra_Aztec_getrow at h1 ⊢
  rw [hrows] at h1 ⊢
  have hcode := getrow_loop_code A entries rows 0 0 allocated_space
    ⟨columns, values, row_lengths⟩ hA h0
  have htot : (spec_totalNonzeros entries rows : Int) ≤ allocated_space := by
    rw [hcode] at h1
    by_contra hn
    rw [if_pos (by omega)] at h1
    exact absurd h1 (by decide)
  obtain ⟨g1, g2, g3⟩ := getrow_loop_buffers A entries rows 0 0 allocated_space
    ⟨columns, values, row_lengths⟩ hA h0 (by simpa using hc) (by simpa using hv)
    (by simpa using hl) h1
  simp only [writeAt, List.take_zero, List.nil_append, Nat.zero_add] at g1 g2 g3
  have hfc : (rows.map fun r => (entries r).map Prod.fst).flatten.length
      = spec_totalNonzeros entries rows := by
    simp [spec_totalNonzeros, List.length_flatten, Function.comp_def]
  have hfv : (rows.map fun r => (entries r).map Prod.snd).flatten.length
      = spec_totalNonzeros entries rows := by
    simp [spec_totalNonzeros, List.length_flatten, Function.comp_def]
  have hmc : ((rows.map fun r => (entries r).map Prod.fst).map List.length)
      = rows.map fun r => (entries r).length := by
    simp [Function.comp_def]
  have hmv : ((rows.map fun r => (entries r).map Prod.snd).map List.length)
      = rows.map fun r => (entries r).length := by
    simp [Function.comp_def]
  refine ⟨?_, htot, ?_, ?_, ?_⟩
  · intro i hi
    refine ⟨?_, ?_, ?_, ?_⟩
    · rw [g3, List.getElem?_append_left (by simpa using hi)]
      simp [hi]
    · rw [g3, List.take_append_of_le_length (by simpa using hi.le),
        spec_totalNonzeros_take, Nat.cast_list_sum, ← List.map_take, ← List.map_take,
        List.map_map]
      rfl
    · rw [g1, spec_totalNonzeros_take, spec_totalNonzeros_take, ← hmc]
      have := slice_flatten_append (rows.map fun r => (entries r).map Prod.fst)
        (columns.drop (rows.map fun r => (entries r).map Prod.fst).flatten.length) i
        (by simpa using hi)
      rw [this]
      simp
    · rw [g2, spec_totalNonzeros_take, spec_totalNonzeros_take, ← hmv]
      have := slice_flatten_append (rows.map fun r => (entries r).map Prod.snd)
        (values.drop (rows.map fun r => (entries r).map Prod.snd).flatten.length) i
        (by simpa using hi)
      rw [this]
      simp
  · rw [g1, ← hfc, List.drop_left]
  · rw [g2, ← hfv, List.drop_left]
  · rw [g3]
    have : (rows.map fun r => ((entries r).length : Int)).length = rows.length := by simp
    rw [← this, List.drop_left]

/-- Witness for C20: rows 0, 2, 1 of the tridiagonal example copied into buffers of 8 entries. -/
theorem C20_getrow_layout_witness :
    (0 : Int) ≤ 8 ∧
    (listOperator tridiagonalRows).copiesRows tridiagonalEntries ([0, 2, 1].take (3 : Int).toNat) ∧
    (8 : Int).toNat ≤ (List.replicate 8 (-9 : Int)).length ∧
    (8 : Int).toNat ≤ (List.replicate 8 (0 : Rat)).length ∧
    ([(0 : Int), 2, 1].take (3 : Int).toNat).length ≤ [(0 : Int), 0, 0].length ∧
    Epetra_Aztec_getrow (List.replicate 8 (-9)) (List.replicate 8 0) [0, 0, 0]
        (listOperator tridiagonalRows) 3 [0, 2, 1] 8
      = (1, ⟨[0, 1, 1, 2, 0, 1, 2, -9], [2, -1, -1, 2, -1, 2, -1, 0], [2, 2, 3]⟩) ∧
    (spec_totalNonzeros tridiagonalEntries ([0, 2, 1].take (3 : Int).toNat) : Int) ≤ 8 ∧
    (Epetra_Aztec_getrow (List.replicate 8 (-9)) (List.replicate 8 0) [0, 0, 0]
        (listOperator tridiagonalRows) 3 [0, 2, 1] 8).2.columns.drop
          (spec_totalNonzeros tridiagonalEntries ([0, 2, 1].take (3 : Int).toNat))
      = (List.replicate 8 (-9)).drop
          (spec_totalNonzeros tridiagonalEntries ([0, 2, 1].take (3 : Int).toNat)) :=
  ⟨by decide, listOperator_copiesRows tridiagonalRows _ (by decide), by decide, by decide,
   by decide, by decide!,
   (C20_getrow_layout (listOperator tridiagonalRows) tridiagonalEntries (List.replicate 8 (-9))
      (List.replicate 8 0) [0, 0, 0] 3 [0, 2, 1] 8 (by decide)
      (listOperator_copiesRows tridiagonalRows _ (by decide)) (by decide) (by decide)
      (by decide) (by decide!)).2.1,
   (C20_getrow_layout (listOperator tridiagonalRows) tridiagonalEntries (List.replicate 8 (-9))
      (List.replicate 8 0) [0, 0, 0] 3 [0, 2, 1] 8 (by decide)
      (listOperator_copiesRows tridiagonalRows _ (by decide)) (by decide) (by decide)
      (by decide) (by decide!)).2.2.1⟩

/-! ## C21: `Petra_RDP_CRS_Matrix::ColMap` -/

/-- C21 (code at the failing input): `ColMap()` hands out the row map of the graph for every
matrix; for the 2 by 3 matrix built from the row map `[0, 1]` and the column map `[0, 1, 2]`
it returns `[0, 1]`, which is not the column map. -/
theorem C21_ColMap_returns_row_map :
    (∀ M : Petra_RDP_CRS_Matrix, M.ColMap = M.RowMap) ∧
    (∀ R C : Petra_Map, (Petra_RDP_CRS_Matrix.withColMap R C).ColMap = R) ∧
    rectangularMatrix.ColMap = { MyGlobalElements := [0, 1] } ∧
    rectangularMatrix.Graph_.ColMap = { MyGlobalElements := [0, 1, 2] } ∧
    rectangularMatrix.ColMap ≠ rectangularMatrix.Graph_.ColMap := by
  refine ⟨fun _ => rfl, fun _ _ => rfl, rfl, rfl, by decide⟩

/-! ## C22: what the condition search compares the new estimate with -/

/-- A pass of the body of the condition search reads the threshold pair at index `curTrial`,
which is an index of both threshold arrays, and writes it into the parameters. -/
theorem condStep_reads (env : AztecEnv) (s s1 : AztecOO) (l l1 : AdaptiveLocals)
    (h : condStep env s l = some (s1, l1)) :
    0 ≤ l.curTrial ∧ l.curTrial.toNat < s.athresholds_.length ∧
    l.curTrial.toNat < s.rthresholds_.length ∧
    s.athresholds_[l.curTrial.toNat]? = some s1.params_.AZ_athresh ∧
    s.rthresholds_[l.curTrial.toNat]? = some s1.params_.AZ_rthresh := by
  unfold condStep at h
  simp only at h
  split_ifs at h with h0 hp
  · have hd : s.DestroyPreconditioner.2.athresholds_ = s.athresholds_ ∧
        s.DestroyPreconditioner.2.rthresholds_ = s.rthresholds_ := by
      unfold AztecOO.DestroyPreconditioner
      rw [if_pos hp]
      exact ⟨rfl, rfl⟩
    rw [hd.1, hd.2] at h
    split at h
    · rename_i a r ha hr
      simp only [Option.some.injEq, Prod.mk.injEq] at h
      obtain ⟨hs, -⟩ := h
      have e1 : s1.params_.AZ_athresh = a := by
        rw [← hs, ConstructPreconditioner_shape]
        simp [AztecOO.SetThresholds]
      have e2 : s1.params_.AZ_rthresh = r := by
        rw [← hs, ConstructPreconditioner_shape]
        simp [AztecOO.SetThresholds]
      rw [e1, e2]
      have la := (List.getElem?_eq_some_iff.1 ha).1
      have lr := (List.getElem?_eq_some_iff.1 hr).1
      exact ⟨h0, la, lr, ha, hr⟩
    · exact absurd h (by simp)
  · split at h
    · rename_i a r ha hr
      simp only [Option.some.injEq, Prod.mk.injEq] at h
      obtain ⟨hs, -⟩ := h
      have e1 : s1.params_.AZ_athresh = a := by
        rw [← hs, ConstructPreconditioner_shape]
        simp [AztecOO.SetThresholds]
      have e2 : s1.params_.AZ_rthresh = r := by
        rw [← hs, ConstructPreconditioner_shape]
        simp [AztecOO.SetThresholds]
      rw [e1, e2]
      have la := (List.getElem?_eq_some_iff.1 ha).1
      have lr := (List.getElem?_eq_some_iff.1 hr).1
      exact ⟨h0, la, lr, ha, hr⟩
    · exact absurd h (by simp)

/-- Where a test of a condition search comes from: the head of the trial loop, which has just
copied the stored estimate into `curCondestThreshold` and left the session alone, or a pass of
the body of the search, which leaves `curCondestThreshold`, the acceptance ceiling and the
record of kernel calls alone. -/
theorem condLoop_origin (env : AztecEnv) (c : AdaptiveConfig)
    (h : (c.step env).pc = .condLoop) :
    (c.pc = .trialLoop ∧ (c.step env).l.curCondestThreshold = c.s.condest_ ∧
      (c.step env).s = c.s) ∨
    (c.pc = .condLoop ∧ (c.step env).l.curCondestThreshold = c.l.curCondestThreshold ∧
      (c.step env).s.attempts = c.s.attempts ∧
      (c.step env).s.condestThreshold_ = c.s.condestThreshold_) := by
  revert h
  apply step_elim env c (fun d => d.pc = .condLoop →
    (c.pc = .trialLoop ∧ d.l.curCondestThreshold = c.s.condest_ ∧ d.s = c.s) ∨
    (c.pc = .condLoop ∧ d.l.curCondestThreshold = c.l.curCondestThreshold ∧
      d.s.attempts = c.s.attempts ∧ d.s.condestThreshold_ = c.s.condestThreshold_))
  · exact fun _ _ h => nomatch h
  · exact fun _ _ h => nomatch h
  · exact fun hpc _ _ => Or.inl ⟨hpc, rfl, rfl⟩
  · exact fun _ _ h => nomatch h
  · intro hpc _ s1 l1 hs _
    obtain ⟨e1, e2⟩ := condStep_shape env c.s s1 c.l l1 hs
    refine Or.inr ⟨hpc, ?_, ?_, ?_⟩
    · show l1.curCondestThreshold = c.l.curCondestThreshold
      rw [e2]
    · show s1.attempts = c.s.attempts
      rw [e1]
    · show s1.condestThreshold_ = c.s.condestThreshold_
      rw [e1]
  · exact fun _ _ _ h => nomatch h
  · exact fun _ _ h => nomatch h
  · exact fun _ h => nomatch h
  · intro hstop hpc
    rcases hstop with h | h <;> rw [h] at hpc <;> exact absurd hpc (by decide)

/-- Where the head of the trial loop is reached from: the head of the subspace-size loop,
which has just reset the stored estimate to the acceptance ceiling, or a solve attempt, which
leaves the stored estimate alone and has been recorded with it. -/
theorem trialLoop_origin (env : AztecEnv) (c : AdaptiveConfig)
    (h : (c.step env).pc = .trialLoop) :
    (c.pc = .kspaceLoop ∧ (c.step env).s.condest_ = c.s.condestThreshold_ ∧
      (c.step env).s.condestThreshold_ = c.s.condestThreshold_) ∨
    (c.pc = .solve ∧ (c.step env).s.condest_ = c.s.condest_ ∧
      (c.step env).s.attempts = c.s.attempts ++
        [(⟨c.s.options_, c.s.params_, c.s.condest_, c.s.Prec_⟩ : SolveAttempt)]) := by
  revert h
  apply step_elim env c (fun d => d.pc = .trialLoop →
    (c.pc = .kspaceLoop ∧ d.s.condest_ = c.s.condestThreshold_ ∧
      d.s.condestThreshold_ = c.s.condestThreshold_) ∨
    (c.pc = .solve ∧ d.s.condest_ = c.s.condest_ ∧
      d.s.attempts = c.s.attempts ++
        [(⟨c.s.options_, c.s.params_, c.s.condest_, c.s.Prec_⟩ : SolveAttempt)]))
  · intro hpc _ _
    refine Or.inl ⟨hpc, ?_, ?_⟩
    · show (kspaceEnter c.s c.l).condest_ = c.s.condestThreshold_
      rw [kspaceEnter_shape]
    · show (kspaceEnter c.s c.l).condestThreshold_ = c.s.condestThreshold_
      rw [kspaceEnter_shape]
  · exact fun _ _ h => nomatch h
  · exact fun _ _ h => nomatch h
  · exact fun _ _ h => nomatch h
  · exact fun _ _ _ _ _ h => nomatch h
  · exact fun _ _ _ h => nomatch h
  · exact fun _ _ h => nomatch h
  · intro hpc _
    obtain ⟨e1, -⟩ := solveStep_shape env c.s c.l
    refine Or.inr ⟨hpc, ?_, ?_⟩
    · show (solveStep env c.s c.l).1.condest_ = c.s.condest_
      rw [e1]
    · show (solveStep env c.s c.l).1.attempts = _
      rw [e1]
  · intro hstop hpc
    rcases hstop with h | h <;> rw [h] at hpc <;> exact absurd hpc (by decide)

/-- Every test of a condition search belongs to a search that began at a head of the trial
loop (step `p + 1`) and has been in the search since; `curCondestThreshold` is the estimate
stored at that head. When the head was reached from the head of the subspace-size loop, that
is the acceptance ceiling; when it was reached from a solve attempt (step `p`), that is the
estimate the attempt was made and recorded with, and the attempt is the latest one. -/
theorem search_origin (env : AztecEnv) (c0 : AdaptiveConfig) (h0 : c0.pc = .kspaceLoop)
    (n : Nat) (hpc : (c0.run env n).pc = .condLoop) :
    ∃ p, p + 1 < n ∧ (c0.run env (p + 1)).pc = .trialLoop ∧
      (∀ j, p + 1 < j → j ≤ n → (c0.run env j).pc = .condLoop) ∧
      (c0.run env n).l.curCondestThreshold = (c0.run env (p + 1)).s.condest_ ∧
      (((c0.run env p).pc = .kspaceLoop ∧
          (c0.run env n).l.curCondestThreshold = (c0.run env n).s.condestThreshold_) ∨
        ((c0.run env p).pc = .solve ∧
          (c0.run env n).l.curCondestThreshold = (c0.run env p).s.condest_ ∧
          (c0.run env n).s.attempts = (c0.run env p).s.attempts ++
            [(⟨(c0.run env p).s.options_, (c0.run env p).s.params_,
               (c0.run env p).s.condest_, (c0.run env p).s.Prec_⟩ : SolveAttempt)])) := by
  induction n with
  | zero =>
    have : c0.run env 0 = c0 := rfl
    rw [this, h0] at hpc
    exact absurd hpc (by decide)
  | succ n ih =>
    have en := run_succ env n c0
    rw [en] at hpc
    rcases condLoop_origin env _ hpc with ⟨ht, hc, hs⟩ | ⟨hc0, hcur, hatt, hT⟩
    · cases n with
      | zero =>
        have : c0.run env 0 = c0 := rfl
        rw [this, h0] at ht
        exact absurd ht (by decide)
      | succ p =>
        have ep := run_succ env p c0
        have ht2 := ht
        rw [ep] at ht2
        refine ⟨p, by omega, ht, ?_, ?_, ?_⟩
        · intro j h1 h2
          have : j = p + 1 + 1 := by omega
          subst this
          rw [en]; exact hpc
        · rw [en]; exact hc
        · rcases trialLoop_origin env _ ht2 with ⟨hk, a1, a2⟩ | ⟨hsv, b1, b2⟩
          · refine Or.inl ⟨hk, ?_⟩
            rw [en, hc, hs, ep, a1, a2]
          · refine Or.inr ⟨hsv, ?_, ?_⟩
            · rw [en, hc, ep, b1]
            · rw [en, hs, ep, b2]
    · obtain ⟨p, hp, ht, hall, hcur2, hcase⟩ := ih hc0
      refine ⟨p, by omega, ht, ?_, ?_, ?_⟩
      · intro j h1 h2
        rcases Nat.lt_or_ge j (n + 1) with hj | hj
        · exact hall j h1 (by omega)
        · have : j = n + 1 := by omega
          subst this
          rw [en]; exact hpc
      · rw [en, hcur]; exact hcur2
      · rcases hcase with ⟨hk, a⟩ | ⟨hsv, b1, b2⟩
        · refine Or.inl ⟨hk, ?_⟩
          rw [en, hcur, hT]; exact a
        · refine Or.inr ⟨hsv, ?_, ?_⟩
          · rw [en, hcur]; exact b1
          · rw [en, hatt]; exact b2

/-- C22 (counterexample): the demo session with a preconditioner function that always yields
the estimate 5 and a kernel that always ends in breakdown. In the second condition search the
preconditioner has been rebuilt with the thresholds of trial 1 and the new estimate 5 is
below the acceptance ceiling 10^16, yet the search advances: the next step rebuilds with the
thresholds of trial 2. -/
theorem C22_search_advances_below_ceiling :
    demoSession.AdaptiveIterate_begin (constantEnv 5 AZ_breakdown) 100 (1 / 1000)
      = .loop (demoEntry (constantEnv 5 AZ_breakdown)) ∧
    ((demoEntry (constantEnv 5 AZ_breakdown)).run (constantEnv 5 AZ_breakdown) 6).pc
      = .condLoop ∧
    ((demoEntry (constantEnv 5 AZ_breakdown)).run (constantEnv 5 AZ_breakdown) 6).l.curTrial
      = 1 ∧
    ((demoEntry (constantEnv 5 AZ_breakdown)).run (constantEnv 5 AZ_breakdown) 7).pc
      = .condLoop ∧
    ((demoEntry (constantEnv 5 AZ_breakdown)).run (constantEnv 5 AZ_breakdown) 7).s.precApplied
      = 2 ∧
    ((demoEntry (constantEnv 5 AZ_breakdown)).run (constantEnv 5 AZ_breakdown) 7).s.params_.AZ_athresh
      = 1 / 10 ^ 12 ∧
    ((demoEntry (constantEnv 5 AZ_breakdown)).run (constantEnv 5 AZ_breakdown) 7).s.condest_
      = 5 ∧
    ((demoEntry (constantEnv 5 AZ_breakdown)).run (constantEnv 5 AZ_breakdown) 7).s.condestThreshold_
      = 10 ^ 16 ∧
    ((demoEntry (constantEnv 5 AZ_breakdown)).run (constantEnv 5 AZ_breakdown) 7).l.curTrial
      = 2 ∧
    ((demoEntry (constantEnv 5 AZ_breakdown)).run (constantEnv 5 AZ_breakdown) 8).pc
      = .condLoop ∧
    ((demoEntry (constantEnv 5 AZ_breakdown)).run (constantEnv 5 AZ_breakdown) 8).s.precApplied
      = 3 ∧
    ((demoEntry (constantEnv 5 AZ_breakdown)).run (constantEnv 5 AZ_breakdown) 8).s.params_.AZ_rthresh
      = 101 / 100 ∧
    ((demoEntry (constantEnv 5 AZ_breakdown)).run (constantEnv 5 AZ_breakdown) 8).l.curTrial
      = 3 ∧
    ¬ (((demoEntry (constantEnv 5 AZ_breakdown)).run (constantEnv 5 AZ_breakdown) 8).l.curTrial
          = ((demoEntry (constantEnv 5 AZ_breakdown)).run (constantEnv 5 AZ_breakdown)
              7).l.curTrial + 1 ↔
        ((demoEntry (constantEnv 5 AZ_breakdown)).run (constantEnv 5 AZ_breakdown) 7).s.condest_
          ≥ ((demoEntry (constantEnv 5 AZ_breakdown)).run (constantEnv 5 AZ_breakdown)
              7).s.condestThreshold_) := by
  decide!

/-- C22 (amended): in every condition search of `AdaptiveIterate`, the value the estimates are
compared with (`curCondestThreshold`) is the estimate held when the search began. The test at
step `n` belongs to a search that began at the head of the trial loop at some step `p + 1` and
has stayed in the search since, and `curCondestThreshold` is the estimate stored at that
head: when the head was reached from the head of the subspace-size loop it is the acceptance
ceiling `condestThreshold_`, and when it was reached from a solve attempt (step `p`) it is the
estimate that attempt was made with, the attempt being the latest one recorded. At every
test of the search, so after every rebuild, the search advances (rebuild with the thresholds
at index `curTrial`, then `curTrial + 1`, or a read behind the table) if and only if the stored
estimate is greater than or equal to that value, and goes on to the solve with the state
unchanged if and only if the estimate is below it. A search entered two steps after the head
of the subspace-size loop compares with the ceiling, and a search entered two steps after a
solve attempt compares with the estimate of that attempt. -/
theorem C22_search_compares_with_search_start (env : AztecEnv) (s : AztecOO) (MaxIters : Int)
    (Tolerance : Rat) (c0 : AdaptiveConfig) (n : Nat)
    (h0 : s.AdaptiveIterate_begin env MaxIters Tolerance = .loop c0)
    (hpc : (c0.run env n).pc = .condLoop) :
    (∃ p, p + 1 < n ∧ (c0.run env (p + 1)).pc = .trialLoop ∧
      (∀ j, p + 1 < j → j ≤ n → (c0.run env j).pc = .condLoop) ∧
      (c0.run env n).l.curCondestThreshold = (c0.run env (p + 1)).s.condest_ ∧
      (((c0.run env p).pc = .kspaceLoop ∧
          (c0.run env n).l.curCondestThreshold = (c0.run env n).s.condestThreshold_) ∨
        ((c0.run env p).pc = .solve ∧
          (c0.run env n).l.curCondestThreshold = (c0.run env p).s.condest_ ∧
          (c0.run env n).s.attempts = (c0.run env p).s.attempts ++
            [(⟨(c0.run env p).s.options_, (c0.run env p).s.params_,
               (c0.run env p).s.condest_, (c0.run env p).s.Prec_⟩ : SolveAttempt)]))) ∧
    ((c0.run env n).s.condest_ ≥ (c0.run env n).l.curCondestThreshold ↔
      (c0.run env (n + 1)).pc = .condLoop ∨ (c0.run env (n + 1)).pc = .fault) ∧
    ((c0.run env (n + 1)).pc = .condLoop →
      (c0.run env (n + 1)).l.curTrial = (c0.run env n).l.curTrial + 1 ∧
      (c0.run env (n + 1)).l.curCondestThreshold = (c0.run env n).l.curCondestThreshold ∧
      (c0.run env n).s.athresholds_[(c0.run env n).l.curTrial.toNat]?
        = some (c0.run env (n + 1)).s.params_.AZ_athresh ∧
      (c0.run env n).s.rthresholds_[(c0.run env n).l.curTrial.toNat]?
        = some (c0.run env (n + 1)).s.params_.AZ_rthresh) ∧
    ((c0.run env n).s.condest_ < (c0.run env n).l.curCondestThreshold ↔
      (c0.run env (n + 1)).pc = .solve) ∧
    ((c0.run env (n + 1)).pc = .solve →
      (c0.run env (n + 1)).s = (c0.run env n).s ∧ (c0.run env (n + 1)).l = (c0.run env n).l) ∧
    (∀ m, (c0.run env m).pc = .kspaceLoop → (c0.run env (m + 1)).pc = .trialLoop →
      (c0.run env (m + 2)).pc = .condLoop →
      (c0.run env (m + 2)).l.curCondestThreshold = (c0.run env m).s.condestThreshold_ ∧
      (c0.run env (m + 2)).s.condestThreshold_ = (c0.run env m).s.condestThreshold_ ∧
      (c0.run env (m + 2)).l.curTrial = 0) ∧
    (∀ m, (c0.run env m).pc = .solve → (c0.run env (m + 2)).pc = .condLoop →
      (c0.run env (m + 2)).l.curCondestThreshold = (c0.run env m).s.condest_ ∧
      (c0.run env (m + 2)).s.attempts = (c0.run env m).s.attempts ++
        [(⟨(c0.run env m).s.options_, (c0.run env m).s.params_,
           (c0.run env m).s.condest_, (c0.run env m).s.Prec_⟩ : SolveAttempt)]) := by
  obtain ⟨s6, -, h6⟩ := (begin_elim env s MaxIters Tolerance (fun _ => True) trivial
    (fun _ _ => trivial) (fun _ _ => trivial)).2 c0 h0
  have he := locals_entry s6 c0 h6
  have hinv := search_origin env c0 he.1 n hpc
  have hstep : ∀ c : AdaptiveConfig, c.pc = .condLoop →
      (c.s.condest_ ≥ c.l.curCondestThreshold →
        ((c.step env).pc = .condLoop ∨ (c.step env).pc = .fault) ∧
        ((c.step env).pc = .condLoop →
          (c.step env).l.curTrial = c.l.curTrial + 1 ∧
          (c.step env).l.curCondestThreshold = c.l.curCondestThreshold ∧
          c.s.athresholds_[c.l.curTrial.toNat]? = some (c.step env).s.params_.AZ_athresh ∧
          c.s.rthresholds_[c.l.curTrial.toNat]? = some (c.step env).s.params_.AZ_rthresh)) ∧
      (¬ c.s.condest_ ≥ c.l.curCondestThreshold →
        (c.step env).pc = .solve ∧ (c.step env).s = c.s ∧ (c.step env).l = c.l) := by
    intro c hc
    refine ⟨fun hge => ?_, fun hlt => ?_⟩
    · unfold AdaptiveConfig.step
      rw [hc]
      simp only [hge, if_true]
      cases hs : condStep env c.s c.l with
      | none => exact ⟨Or.inr rfl, (fun h => nomatch h)⟩
      | some p =>
        obtain ⟨s1, l1⟩ := p
        obtain ⟨-, e2⟩ := condStep_shape env c.s s1 c.l l1 hs
        obtain ⟨-, -, -, r1, r2⟩ := condStep_reads env c.s s1 c.l l1 hs
        refine ⟨Or.inl rfl, fun _ => ⟨?_, ?_, r1, r2⟩⟩
        · show l1.curTrial = c.l.curTrial + 1
          rw [e2]
        · show l1.curCondestThreshold = c.l.curCondestThreshold
          rw [e2]
    · have e : c.step env = { c with pc := .solve } := by
        unfold AdaptiveConfig.step
        rw [hc]
        simp only [hlt, if_false]
      rw [e]
      exact ⟨rfl, rfl, rfl⟩
  have hs := hstep (c0.run env n) hpc
  rw [run_succ env n c0]
  refine ⟨hinv, ⟨fun hge => (hs.1 hge).1, fun hor => ?_⟩, ?_, ⟨fun hlt => ?_, fun hsol => ?_⟩,
    ?_, ?_, ?_⟩
  · by_contra hge
    have := (hs.2 hge).1
    rcases hor with h | h <;> rw [h] at this <;> exact absurd this (by decide)
  · intro hcl
    by_cases hge : (c0.run env n).s.condest_ ≥ (c0.run env n).l.curCondestThreshold
    · exact (hs.1 hge).2 hcl
    · have := (hs.2 hge).1
      rw [hcl] at this
      exact absurd this (by decide)
  · exact (hs.2 (not_le.2 hlt)).1
  · by_contra hge
    rcases (hs.1 (not_lt.1 hge)).1 with h | h <;> rw [h] at hsol <;> exact absurd hsol (by decide)
  · intro hsol
    by_cases hge : (c0.run env n).s.condest_ ≥ (c0.run env n).l.curCondestThreshold
    · rcases (hs.1 hge).1 with h | h <;> rw [h] at hsol <;> exact absurd hsol (by decide)
    · exact (hs.2 hge).2
  · intro m hk ht hcnd
    have e1 : c0.run env (m + 2) = ((c0.run env m).step env).step env := by
      rw [show m + 2 = (m + 1) + 1 from rfl, run_succ, run_succ]
    rw [run_succ] at ht
    rw [e1] at hcnd ⊢
    have k1 : (c0.run env m).step env
        = { pc := .trialLoop, s := kspaceEnter (c0.run env m).s (c0.run env m).l,
            l := { (c0.run env m).l with curTrial := 0 } } := by
      unfold AdaptiveConfig.step at ht ⊢
      rw [hk] at ht ⊢
      simp only at ht ⊢
      split_ifs at ht ⊢ with hg
      rfl
    rw [k1] at hcnd ⊢
    unfold AdaptiveConfig.step at hcnd ⊢
    simp only at hcnd ⊢
    split_ifs at hcnd ⊢ with hg
    refine ⟨?_, ?_, rfl⟩
    · show (kspaceEnter (c0.run env m).s (c0.run env m).l).condest_
        = (c0.run env m).s.condestThreshold_
      rw [kspaceEnter_shape]
    · show (kspaceEnter (c0.run env m).s (c0.run env m).l).condestThreshold_
        = (c0.run env m).s.condestThreshold_
      rw [kspaceEnter_shape]
  · intro m hsv hcnd
    have e2 : c0.run env (m + 2) = (c0.run env (m + 1)).step env :=
      run_succ env (m + 1) c0
    have e1 := run_succ env m c0
    have ht : (c0.run env (m + 1)).pc = .trialLoop := by
      rw [e1, step_solve env _ hsv]
    rw [e2] at hcnd ⊢
    rcases condLoop_origin env _ hcnd with ⟨-, hc, hs2⟩ | ⟨hc0, -, -, -⟩
    · rw [e1] at ht
      rcases trialLoop_origin env _ ht with ⟨hk, -, -⟩ | ⟨-, b1, b2⟩
      · rw [hk] at hsv
        exact absurd hsv (by decide)
      · exact ⟨by rw [hc, e1, b1], by rw [hs2, e1, b2]⟩
    · rw [hc0] at ht
      exact absurd ht (by decide)

/-- Witness for C22 (amended): the second condition search of the counterexample compares with
the estimate 5 of the first solve attempt, and advances. -/
theorem C22_search_compares_with_search_start_witness :
    demoSession.AdaptiveIterate_begin (constantEnv 5 AZ_breakdown) 100 (1 / 1000)
      = .loop (demoEntry (constantEnv 5 AZ_breakdown)) ∧
    ((demoEntry (constantEnv 5 AZ_breakdown)).run (constantEnv 5 AZ_breakdown) 7).pc
      = .condLoop ∧
    ((demoEntry (constantEnv 5 AZ_breakdown)).run (constantEnv 5 AZ_breakdown)
      7).l.curCondestThreshold = 5 ∧
    (((demoEntry (constantEnv 5 AZ_breakdown)).run (constantEnv 5 AZ_breakdown) 7).s.condest_
        ≥ ((demoEntry (constantEnv 5 AZ_breakdown)).run (constantEnv 5 AZ_breakdown)
            7).l.curCondestThreshold ↔
      ((demoEntry (constantEnv 5 AZ_breakdown)).run (constantEnv 5 AZ_breakdown) (7 + 1)).pc
          = .condLoop ∨
        ((demoEntry (constantEnv 5 AZ_breakdown)).run (constantEnv 5 AZ_breakdown) (7 + 1)).pc
          = .fault) :=
  ⟨by decide!, by decide!, by decide!,
   (C22_search_compares_with_search_start (constantEnv 5 AZ_breakdown) demoSession 100
      (1 / 1000) (demoEntry (constantEnv 5 AZ_breakdown)) 7 (by decide!) (by decide!)).2.1⟩

/-! ## C23: every solve attempt of the loops runs below the acceptance ceiling -/

/-- With an operator bound and a preconditioner kind other than none, a pass of the body of
the condition search leaves a preconditioner. -/
theorem condStep_builds (env : AztecEnv) (s s1 : AztecOO) (l l1 : AdaptiveLocals)
    (h : condStep env s l = some (s1, l1)) (hA : s.A_ = true) (hP : s.options_.AZ_precond ≠ 0) :
    s1.Prec_ ≠ none := by
  have key : ∀ t : AztecOO, t.A_ = true → t.options_.AZ_precond ≠ 0 → ∀ a r : Rat,
      ((t.SetThresholds a r).ConstructPreconditioner env (t.SetThresholds a r).condest_).2.2.Prec_
        ≠ none := by
    intro t tA tP a r
    unfold AztecOO.ConstructPreconditioner AztecOO.AZ_precond_create AztecOO.SetThresholds
    by_cases hn : t.Prec_ = none
    · simp [tA, tP, hn]
    · simp [tA, tP, hn]
  have hd : s.DestroyPreconditioner.2.A_ = s.A_ ∧
      s.DestroyPreconditioner.2.options_.AZ_precond = s.options_.AZ_precond := by
    unfold AztecOO.DestroyPreconditioner
    split_ifs <;> exact ⟨rfl, rfl⟩
  unfold condStep at h
  simp only at h
  split_ifs at h with h0 hp
  · split at h
    · simp only [Option.some.injEq, Prod.mk.injEq] at h
      obtain ⟨hs, -⟩ := h
      rw [← hs]
      exact key _ (hd.1.trans hA) (by rw [hd.2]; exact hP) _ _
    · exact absurd h (by simp)
  · split at h
    · simp only [Option.some.injEq, Prod.mk.injEq] at h
      obtain ⟨hs, -⟩ := h
      rw [← hs]
      exact key _ hA hP _ _
    · exact absurd h (by simp)

theorem BelowCeiling_step (env : AztecEnv) (T : Rat) (b : Nat) (c : AdaptiveConfig)
    (h : BelowCeiling T b c) : BelowCeiling T b (c.step env) := by
  obtain ⟨h1, h2, h3, h4, h5, h6, h7, h8⟩ := h
  apply step_elim env c (BelowCeiling T b)
  · intro _ _
    have e := kspaceEnter_shape c.s c.l
    refine ⟨by rw [e]; exact h1, by rw [e]; exact h2, by rw [e]; exact h3,
      by rw [e]; exact h4, by rw [e]; exact h5, fun _ => ?_, (fun hpc => nomatch hpc),
      (fun hpc => nomatch hpc)⟩
    show (kspaceEnter c.s c.l).condest_ ≤ T
    rw [e]
    exact le_of_eq h3
  · intro _ _
    exact ⟨h1, h2, h3, h4, h5, (fun hpc => nomatch hpc), (fun hpc => nomatch hpc),
      (fun hpc => nomatch hpc)⟩
  · intro hpc _
    exact ⟨h1, h2, h3, h4, h5, (fun hpc => nomatch hpc),
      fun _ => ⟨h6 hpc, fun hlt => absurd hlt (lt_irrefl _)⟩, (fun hpc => nomatch hpc)⟩
  · intro _ _
    exact ⟨h1, h2, h3, h4, h5, (fun hpc => nomatch hpc), (fun hpc => nomatch hpc),
      (fun hpc => nomatch hpc)⟩
  · intro hpc _ s1 l1 hs
    obtain ⟨e1, e2⟩ := condStep_shape env c.s s1 c.l l1 hs
    have hb := condStep_builds env c.s s1 c.l l1 hs h1 h2
    refine ⟨by rw [e1]; exact h1, by rw [e1]; exact h2, by rw [e1]; exact h3,
      by rw [e1]; exact h4, by rw [e1]; exact h5, (fun hpc => nomatch hpc), fun _ => ⟨?_, fun _ => hb⟩,
      (fun hpc => nomatch hpc)⟩
    show l1.curCondestThreshold ≤ T
    rw [e2]
    exact (h7 hpc).1
  · intro _ _ _
    exact ⟨h1, h2, h3, h4, h5, (fun hpc => nomatch hpc), (fun hpc => nomatch hpc),
      (fun hpc => nomatch hpc)⟩
  · intro hpc hlt
    have hlt' : c.s.condest_ < c.l.curCondestThreshold := not_le.1 hlt
    exact ⟨h1, h2, h3, h4, h5, (fun hpc => nomatch hpc), (fun hpc => nomatch hpc),
      fun _ => ⟨lt_of_lt_of_le hlt' (h7 hpc).1, (h7 hpc).2 hlt'⟩⟩
  · intro hpc
    obtain ⟨e1, -⟩ := solveStep_shape env c.s c.l
    obtain ⟨g1, g2⟩ := h8 hpc
    have fa : (solveStep env c.s c.l).1.attempts
        = c.s.attempts ++ [{ options := c.s.options_, params := c.s.params_,
                             condest := c.s.condest_, Prec := c.s.Prec_ }] := by rw [e1]
    refine ⟨by rw [e1]; exact h1, by rw [e1]; exact h2, by rw [e1]; exact h3, ?_, ?_,
      fun _ => ?_, (fun hpc => nomatch hpc), (fun hpc => nomatch hpc)⟩
    · show b ≤ (solveStep env c.s c.l).1.attempts.length
      rw [fa, List.length_append]
      exact Nat.le_add_right_of_le h4
    · show ∀ a ∈ (solveStep env c.s c.l).1.attempts.drop b, a.condest < T ∧ a.Prec ≠ none
      rw [fa, List.drop_append_of_le_length h4]
      intro a ha
      rcases List.mem_append.1 ha with ha | ha
      · exact h5 a ha
      · rw [List.mem_singleton.1 ha]
        exact ⟨g1, g2⟩
    · show (solveStep env c.s c.l).1.condest_ ≤ T
      rw [e1]
      exact le_of_lt g1
  · intro hstop
    refine ⟨h1, h2, h3, h4, h5, fun hpc => ?_, fun hpc => ?_, fun hpc => ?_⟩
    · rcases hstop with h | h <;> rw [h] at hpc <;> exact absurd hpc (by decide)
    · rcases hstop with h | h <;> rw [h] at hpc <;> exact absurd hpc (by decide)
    · rcases hstop with h | h <;> rw [h] at hpc <;> exact absurd hpc (by decide)

/-- C23: on a session with an operator bound and the domain-decomposition preconditioner
kind, every kernel call made by the loops of `AdaptiveIterate` runs with a preconditioner
present whose condition estimate is strictly below the acceptance ceiling `condestThreshold_`
(which the loops never change), for all collaborators and at every step of the run; whenever
control is at the solve step, the stored estimate is below the ceiling. -/
theorem C23_attempts_below_ceiling (env : AztecEnv) (s : AztecOO) (MaxIters : Int)
    (Tolerance : Rat) (c0 : AdaptiveConfig) (n : Nat)
    (h0 : s.AdaptiveIterate_begin env MaxIters Tolerance = .loop c0)
    (hA : s.A_ = true) (hD : s.options_.AZ_precond = AZ_dom_decomp) :
    (c0.run env n).s.condestThreshold_ = c0.s.condestThreshold_ ∧
    c0.s.attempts.length ≤ (c0.run env n).s.attempts.length ∧
    (∀ a ∈ (c0.run env n).s.attempts.drop c0.s.attempts.length,
      a.condest < c0.s.condestThreshold_ ∧ a.Prec ≠ none) ∧
    ((c0.run env n).pc = .solve →
      (c0.run env n).s.condest_ < c0.s.condestThreshold_ ∧ (c0.run env n).s.Prec_ ≠ none ∧
      (c0.run env (n + 1)).s.attempts
        = (c0.run env n).s.attempts ++
            [{ options := (c0.run env n).s.options_, params := (c0.run env n).s.params_,
               condest := (c0.run env n).s.condest_, Prec := (c0.run env n).s.Prec_ }]) := by
  obtain ⟨s6, ⟨r1, r2⟩, h6⟩ := (begin_elim env s MaxIters Tolerance
    (fun t => t.A_ = s.A_ ∧ t.options_.AZ_precond = s.options_.AZ_precond) ⟨rfl, rfl⟩
    (fun t ht => by rw [Iterate_shape]; exact ht)
    (fun t ht => by rw [strategy_shape]; exact ht)).2 c0 h0
  have he := locals_entry s6 c0 h6
  have hP : c0.s.options_.AZ_precond ≠ 0 := by
    rw [he.2.1, r2, hD]; decide
  have hinv : BelowCeiling c0.s.condestThreshold_ c0.s.attempts.length (c0.run env n) := by
    apply run_invariant env _ (BelowCeiling_step env c0.s.condestThreshold_ c0.s.attempts.length)
    refine ⟨by rw [he.2.1, r1]; exact hA, hP, rfl, le_refl _, ?_, ?_, ?_, ?_⟩
    · intro a ha
      rw [List.drop_length] at ha
      exact absurd ha (List.not_mem_nil a)
    · intro hp; rw [he.1] at hp; exact absurd hp (by decide)
    · intro hp; rw [he.1] at hp; exact absurd hp (by decide)
    · intro hp; rw [he.1] at hp; exact absurd hp (by decide)
  obtain ⟨i1, i2, i3, i4, i5, i6, i7, i8⟩ := hinv
  refine ⟨i3, i4, i5, fun hpc => ⟨(i8 hpc).1, (i8 hpc).2, ?_⟩⟩
  rw [run_succ, step_solve env _ hpc]
  show (solveStep env (c0.run env n).s (c0.run env n).l).1.attempts = _
  rw [(solveStep_shape env _ _).1]

/-- Witness for C23: the three solve attempts of the demo session against `rollbackEnv`. -/
theorem C23_attempts_below_ceiling_witness :
    demoSession.AdaptiveIterate_begin rollbackEnv 100 (1 / 1000) = .loop (demoEntry rollbackEnv) ∧
    demoSession.A_ = true ∧ demoSession.options_.AZ_precond = AZ_dom_decomp ∧
    (((demoEntry rollbackEnv).run rollbackEnv 17).s.attempts.drop
      (demoEntry rollbackEnv).s.attempts.length).length = 3 ∧
    (∀ a ∈ ((demoEntry rollbackEnv).run rollbackEnv 17).s.attempts.drop
        (demoEntry rollbackEnv).s.attempts.length,
      a.condest < (demoEntry rollbackEnv).s.condestThreshold_ ∧ a.Prec ≠ none) :=
  ⟨by decide!, rfl, rfl, by decide!,
   (C23_attempts_below_ceiling rollbackEnv demoSession 100 (1 / 1000) (demoEntry rollbackEnv) 17
      (by decide!) rfl rfl).2.2.1⟩

/-! ## C24: the indices at which the condition search reads the trial table -/

/-- C24 (code evaluated at the failing inputs): the demo session with its built-in table of
seven trials (indices 0 to 6). With a preconditioner function whose estimate is always 10^17,
not below the ceiling 10^16, the first condition search rebuilds with the trials 0 to 6 and
then, with `curTrial = 7 = NumTrials_`, passes the test of the search again and reads both
threshold arrays at index 7, behind their end, before any solve attempt. With an estimate
that is always 5 and a kernel that ends in breakdown, the same happens in the second search,
after one solve attempt. -/
theorem C24_search_reads_behind_table :
    demoSession.AdaptiveIterate_begin (constantEnv (10 ^ 17) AZ_breakdown) 100 (1 / 1000)
      = .loop (demoEntry (constantEnv (10 ^ 17) AZ_breakdown)) ∧
    ((demoEntry (constantEnv (10 ^ 17) AZ_breakdown)).run (constantEnv (10 ^ 17) AZ_breakdown)
      9).pc = .condLoop ∧
    ((demoEntry (constantEnv (10 ^ 17) AZ_breakdown)).run (constantEnv (10 ^ 17) AZ_breakdown)
      9).s.NumTrials_ = 7 ∧
    ((demoEntry (constantEnv (10 ^ 17) AZ_breakdown)).run (constantEnv (10 ^ 17) AZ_breakdown)
      9).s.athresholds_.length = 7 ∧
    ((demoEntry (constantEnv (10 ^ 17) AZ_breakdown)).run (constantEnv (10 ^ 17) AZ_breakdown)
      9).s.rthresholds_.length = 7 ∧
    ((demoEntry (constantEnv (10 ^ 17) AZ_breakdown)).run (constantEnv (10 ^ 17) AZ_breakdown)
      9).l.curTrial = 7 ∧
    ((demoEntry (constantEnv (10 ^ 17) AZ_breakdown)).run (constantEnv (10 ^ 17) AZ_breakdown)
      9).s.condest_
      ≥ ((demoEntry (constantEnv (10 ^ 17) AZ_breakdown)).run
          (constantEnv (10 ^ 17) AZ_breakdown) 9).l.curCondestThreshold ∧
    ((demoEntry (constantEnv (10 ^ 17) AZ_breakdown)).run (constantEnv (10 ^ 17) AZ_breakdown)
      9).s.athresholds_[7]? = none ∧
    ((demoEntry (constantEnv (10 ^ 17) AZ_breakdown)).run (constantEnv (10 ^ 17) AZ_breakdown)
      9).s.attempts.length = 0 ∧
    ((demoEntry (constantEnv (10 ^ 17) AZ_breakdown)).run (constantEnv (10 ^ 17) AZ_breakdown)
      10).pc = .fault ∧
    demoSession.AdaptiveIterate_begin (constantEnv 5 AZ_breakdown) 100 (1 / 1000)
      = .loop (demoEntry (constantEnv 5 AZ_breakdown)) ∧
    ((demoEntry (constantEnv 5 AZ_breakdown)).run (constantEnv 5 AZ_breakdown) 12).pc
      = .condLoop ∧
    ((demoEntry (constantEnv 5 AZ_breakdown)).run (constantEnv 5 AZ_breakdown) 12).s.NumTrials_
      = 7 ∧
    ((demoEntry (constantEnv 5 AZ_breakdown)).run (constantEnv 5 AZ_breakdown) 12).l.curTrial
      = 7 ∧
    ((demoEntry (constantEnv 5 AZ_breakdown)).run (constantEnv 5 AZ_breakdown) 12).s.condest_
      = 5 ∧
    ((demoEntry (constantEnv 5 AZ_breakdown)).run (constantEnv 5 AZ_breakdown)
      12).l.curCondestThreshold = 5 ∧
    ((demoEntry (constantEnv 5 AZ_breakdown)).run (constantEnv 5 AZ_breakdown)
      12).s.rthresholds_[7]? = none ∧
    ((demoEntry (constantEnv 5 AZ_breakdown)).run (constantEnv 5 AZ_breakdown)
      12).s.attempts.length = 1 ∧
    ((demoEntry (constantEnv 5 AZ_breakdown)).run (constantEnv 5 AZ_breakdown) 13).pc
      = .fault := by
  decide!

/-! ## C25: the doubled subspace size and the solve attempts -/

/-- C25 (code evaluated at the failing input): the demo session (subspace size 30, ceiling
120) with a kernel that ends every call in max-iterations. The solve attempt at step 22 takes
the third escalation: the local `kspace` becomes 60, within the ceiling, and the trial index
0. The next solve attempt (step 26, the fifth of the call) runs with `options[AZ_kspace]`
still 30. After two more doublings the local `kspace` is 240, above the ceiling, and a
further solve attempt is made at step 34. -/
theorem C25_doubled_kspace_not_in_effect :
    demoSession.AdaptiveIterate_begin stallEnv 100 (1 / 1000) = .loop (demoEntry stallEnv) ∧
    ((demoEntry stallEnv).run stallEnv 22).pc = .solve ∧
    ((demoEntry stallEnv).run stallEnv 22).l.kspace = 30 ∧
    ((demoEntry stallEnv).run stallEnv 22).s.attempts.length = 3 ∧
    (stallEnv.AZ_iterate 3 ((demoEntry stallEnv).run stallEnv 22).s).status.AZ_why = AZ_maxits ∧
    ¬ ((demoEntry stallEnv).run stallEnv 22).l.fill
        < ((demoEntry stallEnv).run stallEnv 22).l.curMaxFill ∧
    ((demoEntry stallEnv).run stallEnv 22).s.params_.AZ_drop = 0 ∧
    ((demoEntry stallEnv).run stallEnv 23).pc = .trialLoop ∧
    ((demoEntry stallEnv).run stallEnv 23).l.kspace = 60 ∧
    ((demoEntry stallEnv).run stallEnv 23).l.curMaxKspace = 120 ∧
    ((demoEntry stallEnv).run stallEnv 23).l.curTrial = 0 ∧
    (∀ m, 23 ≤ m → m < 26 → ((demoEntry stallEnv).run stallEnv m).pc ≠ .solve) ∧
    ((demoEntry stallEnv).run stallEnv 26).pc = .solve ∧
    ((demoEntry stallEnv).run stallEnv 26).s.options_.AZ_kspace = 30 ∧
    ((demoEntry stallEnv).run stallEnv 27).s.attempts.length = 5 ∧
    (((demoEntry stallEnv).run stallEnv 27).s.attempts.map
      fun a => a.options.AZ_kspace) = [30, 30, 30, 30, 30] ∧
    ((demoEntry stallEnv).run stallEnv 31).l.kspace = 240 ∧
    ((demoEntry stallEnv).run stallEnv 31).l.curMaxKspace = 120 ∧
    ((demoEntry stallEnv).run stallEnv 34).pc = .solve ∧
    ((demoEntry stallEnv).run stallEnv 34).l.kspace = 240 ∧
    ((demoEntry stallEnv).run stallEnv 35).s.attempts.length = 7 := by
  decide!

/-! ## C26: what `CommaSeperatedEntryValidator::validate` accepts -/

theorem boost_trim_ne_nil (s : List Char) :
    boost_trim s ≠ [] ↔ ∃ c ∈ s, isspace c = false := by
  unfold boost_trim
  rw [Ne, List.reverse_eq_nil_iff, List.dropWhile_eq_nil_iff]
  constructor
  · intro h
    by_contra hall
    apply h
    have hnil : s.dropWhile isspace = [] := by
      rw [List.dropWhile_eq_nil_iff]
      intro x hx
      by_contra hx'
      exact hall ⟨x, hx, by simpa using hx'⟩
    rw [hnil]
    intro x hx
    exact absurd hx (List.not_mem_nil x)
  · rintro ⟨c, hc, hsp⟩ hall
    have hne : s.dropWhile isspace ≠ [] := by
      rw [Ne, List.dropWhile_eq_nil_iff]
      intro h
      have := h c hc
      rw [hsp] at this
      exact absurd this (by decide)
    have hhead := List.head_dropWhile_not isspace s hne
    have hmem : (s.dropWhile isspace).head hne ∈ (s.dropWhile isspace).reverse :=
      List.mem_reverse.2 (List.head_mem hne)
    have := hall _ hmem
    rw [this] at hhead
    exact absurd hhead (by decide)

theorem boost_tokenizer_mem (delim : List Char) (Q : Char → Prop) :
    ∀ (str cur : List Char), (∀ c ∈ cur, c ∉ delim) →
      ((∃ t ∈ boost_tokenizer delim str cur, ∃ c ∈ t, Q c) ↔
        (∃ c ∈ cur, Q c) ∨ (∃ c ∈ str, c ∉ delim ∧ Q c)) := by
  intro str
  induction str with
  | nil =>
    intro cur _
    unfold boost_tokenizer
    by_cases hc : cur = []
    · simp [hc]
    · simp [hc]
  | cons a rest ih =>
    intro cur hcur
    unfold boost_tokenizer
    by_cases ha : a ∈ delim
    · rw [if_pos ha]
      have ih0 := ih [] (fun c hc => absurd hc (List.not_mem_nil c))
      by_cases hc : cur = []
      · rw [if_pos hc, ih0, hc]
        constructor
        · rintro (⟨c, h, _⟩ | ⟨c, h1, h2⟩)
          · exact absurd h (List.not_mem_nil c)
          · exact Or.inr ⟨c, List.mem_cons_of_mem _ h1, h2⟩
        · rintro (⟨c, h, _⟩ | ⟨c, h1, h2, h3⟩)
          · exact absurd h (List.not_mem_nil c)
          · rcases List.mem_cons.1 h1 with rfl | h1
            · exact absurd ha h2
            · exact Or.inr ⟨c, h1, h2, h3⟩
      · rw [if_neg hc]
        constructor
        · rintro ⟨t, ht, c, hct, hq⟩
          rcases List.mem_cons.1 ht with rfl | ht
          · exact Or.inl ⟨c, hct, hq⟩
          · rcases ih0.1 ⟨t, ht, c, hct, hq⟩ with ⟨c, h, _⟩ | ⟨c, h1, h2⟩
            · exact absurd h (List.not_mem_nil c)
            · exact Or.inr ⟨c, List.mem_cons_of_mem _ h1, h2⟩
        · rintro (⟨c, h, hq⟩ | ⟨c, h1, h2, h3⟩)
          · exact ⟨cur, List.mem_cons_self _ _, c, h, hq⟩
          · rcases List.mem_cons.1 h1 with rfl | h1
            · exact absurd ha h2
            · obtain ⟨t, ht, hx⟩ := ih0.2 (Or.inr ⟨c, h1, h2, h3⟩)
              exact ⟨t, List.mem_cons_of_mem _ ht, hx⟩
    · rw [if_neg ha]
      have ih1 := ih (cur ++ [a]) (by
        intro c hc
        rcases List.mem_append.1 hc with h | h
        · exact hcur c h
        · rw [List.mem_singleton.1 h]; exact ha)
      rw [ih1]
      constructor
      · rintro (⟨c, h, hq⟩ | ⟨c, h1, h2⟩)
        · rcases List.mem_append.1 h with h | h
          · exact Or.inl ⟨c, h, hq⟩
          · rw [List.mem_singleton.1 h] at hq
            exact Or.inr ⟨a, List.mem_cons_self _ _, ha, hq⟩
        · exact Or.inr ⟨c, List.mem_cons_of_mem _ h1, h2⟩
      · rintro (⟨c, h, hq⟩ | ⟨c, h1, h2, h3⟩)
        · exact Or.inl ⟨c, List.mem_append_left _ h, hq⟩
        · rcases List.mem_cons.1 h1 with rfl | h1
          · exact Or.inl ⟨c, List.mem_append_right _ (List.mem_singleton_self c), h3⟩
          · exact Or.inr ⟨c, h1, h2, h3⟩

theorem split_eq_filter (str delim : List Char) :
    CommaSeperatedEntryValidator.split str delim
      = ((boost_tokenizer delim str []).map boost_trim).filter (fun s => decide (s.length ≠ 0)) := by
  unfold CommaSeperatedEntryValidator.split
  have key : ∀ (toks : List (List Char)) (acc : List (List Char)),
      toks.foldl (fun output tok =>
          if (boost_trim tok).length ≠ 0 then output ++ [boost_trim tok] else output) acc
        = acc ++ (toks.map boost_trim).filter (fun s => decide (s.length ≠ 0)) := by
    intro toks
    induction toks with
    | nil => intro acc; simp
    | cons t rest ih =>
      intro acc
      rw [List.foldl_cons, ih, List.map_cons, List.filter_cons]
      by_cases ht : (boost_trim t).length ≠ 0
      · rw [if_pos ht, if_pos (decide_eq_true ht), List.append_assoc]
        rfl
      · rw [if_neg ht, if_neg (by rw [decide_eq_true_eq]; exact ht)]
  rw [key]
  simp

theorem split_ne_nil (str : List Char) :
    CommaSeperatedEntryValidator.split str [Char.ofNat 44] ≠ [] ↔ spec_hasEntry str := by
  rw [split_eq_filter]
  unfold spec_hasEntry
  have h1 := boost_tokenizer_mem [Char.ofNat 44] (fun c => isspace c = false) str []
    (fun c hc => absurd hc (List.not_mem_nil c))
  constructor
  · intro hne
    obtain ⟨t, ht⟩ := List.exists_mem_of_ne_nil _ hne
    rw [List.mem_filter, List.mem_map] at ht
    obtain ⟨⟨tok, htok, rfl⟩, hlen⟩ := ht
    have hnn : boost_trim tok ≠ [] := by
      intro h
      rw [h] at hlen
      simp at hlen
    obtain ⟨c, hc, hs⟩ := (boost_trim_ne_nil tok).1 hnn
    rcases h1.1 ⟨tok, htok, c, hc, hs⟩ with ⟨c, h, _⟩ | ⟨c, hc1, hc2, hc3⟩
    · exact absurd h (List.not_mem_nil c)
    · exact ⟨c, hc1, by simpa using hc2, hc3⟩
  · rintro ⟨c, hc1, hc2, hc3⟩
    obtain ⟨tok, htok, c', hc', hs'⟩ := h1.2 (Or.inr ⟨c, hc1, by simpa using hc2, hc3⟩)
    have hnn : boost_trim tok ≠ [] := (boost_trim_ne_nil tok).2 ⟨c', hc', hs'⟩
    intro hnil
    have hmem : boost_trim tok ∈ ((boost_tokenizer [Char.ofNat 44] str []).map boost_trim).filter
        (fun s => decide (s.length ≠ 0)) := by
      rw [List.mem_filter, List.mem_map]
      refine ⟨⟨tok, htok, rfl⟩, ?_⟩
      simpa using hnn
    rw [hnil] at hmem
    exact absurd hmem (List.not_mem_nil _)

/-- C26: `validate` accepts an entry exactly when its value is a string that contains a
character that is neither a comma nor white space, which is exactly when `split(value, ",")`
yields a token; every token it yields is trimmed and not empty. It throws
`InvalidParameterValue` for every other string and `InvalidParameterType` for every value
that is not a string. -/
theorem C26_validate_accepts (entry : AnyValue) :
    (CommaSeperatedEntryValidator.validate entry = .accepted ↔
      ∃ value, entry = .string value ∧ spec_hasEntry value) ∧
    (CommaSeperatedEntryValidator.validate entry = .InvalidParameterValue ↔
      ∃ value, entry = .string value ∧ ¬ spec_hasEntry value) ∧
    (CommaSeperatedEntryValidator.validate entry = .InvalidParameterType ↔
      ∀ value, entry ≠ .string value) ∧
    (∀ value, spec_hasEntry value ↔
      CommaSeperatedEntryValidator.split value [Char.ofNat 44] ≠ []) ∧
    (∀ value, ∀ t ∈ CommaSeperatedEntryValidator.split value [Char.ofNat 44],
      t ≠ [] ∧ ∃ tok ∈ boost_tokenizer [Char.ofNat 44] value [], t = boost_trim tok) := by
  have hsplit : ∀ value, spec_hasEntry value ↔
      CommaSeperatedEntryValidator.split value [Char.ofNat 44] ≠ [] :=
    fun value => (split_ne_nil value).symm
  have hstr : ∀ value : List Char,
      (CommaSeperatedEntryValidator.validate (.string value) = .accepted ↔ spec_hasEntry value) ∧
      (CommaSeperatedEntryValidator.validate (.string value) = .InvalidParameterValue ↔
        ¬ spec_hasEntry value) ∧
      CommaSeperatedEntryValidator.validate (.string value) ≠ .InvalidParameterType := by
    intro value
    unfold CommaSeperatedEntryValidator.validate
    simp only
    rw [hsplit value]
    by_cases hn : CommaSeperatedEntryValidator.split value [Char.ofNat 44] = []
    · simp [hn]
    · have hl : (CommaSeperatedEntryValidator.split value [Char.ofNat 44]).length ≠ 0 := by
        intro h
        exact hn (List.length_eq_zero.1 h)
      simp [hn, hl]
  refine ⟨?_, ?_, ?_, hsplit, ?_⟩
  · cases entry with
    | string value =>
      rw [(hstr value).1]
      exact ⟨fun h => ⟨value, rfl, h⟩, fun ⟨v, hv, h⟩ => by cases hv; exact h⟩
    | int v => exact ⟨(fun h => nomatch h), (fun ⟨_, hv, _⟩ => nomatch hv)⟩
    | double v => exact ⟨(fun h => nomatch h), (fun ⟨_, hv, _⟩ => nomatch hv)⟩
    | bool v => exact ⟨(fun h => nomatch h), (fun ⟨_, hv, _⟩ => nomatch hv)⟩
  · cases entry with
    | string value =>
      rw [(hstr value).2.1]
      exact ⟨fun h => ⟨value, rfl, h⟩, fun ⟨v, hv, h⟩ => by cases hv; exact h⟩
    | int v => exact ⟨(fun h => nomatch h), (fun ⟨_, hv, _⟩ => nomatch hv)⟩
    | double v => exact ⟨(fun h => nomatch h), (fun ⟨_, hv, _⟩ => nomatch hv)⟩
    | bool v => exact ⟨(fun h => nomatch h), (fun ⟨_, hv, _⟩ => nomatch hv)⟩
  · cases entry with
    | string value =>
      exact ⟨fun h => absurd h (hstr value).2.2, fun h => absurd rfl (h value)⟩
    | int v => exact ⟨(fun _ _ h => nomatch h), fun _ => rfl⟩
    | double v => exact ⟨(fun _ _ h => nomatch h), fun _ => rfl⟩
    | bool v => exact ⟨(fun _ _ h => nomatch h), fun _ => rfl⟩
  · intro value t ht
    rw [split_eq_filter, List.mem_filter, List.mem_map] at ht
    obtain ⟨⟨tok, htok, rfl⟩, hlen⟩ := ht
    refine ⟨?_, tok, htok, rfl⟩
    intro h
    rw [h] at hlen
    simp at hlen

/-- The validator on three values: tokens are trimmed and empty ones dropped; a string of
commas and blanks is rejected for its value, an integer for its type. -/
theorem validate_examples :
    CommaSeperatedEntryValidator.split "a, b ,, c d ,".toList [Char.ofNat 44]
      = ["a".toList, "b".toList, "c d".toList] ∧
    CommaSeperatedEntryValidator.validate (.string "a, b ,, c d ,".toList) = .accepted ∧
    CommaSeperatedEntryValidator.validate (.string " , ,".toList) = .InvalidParameterValue ∧
    CommaSeperatedEntryValidator.validate (.int 3) = .InvalidParameterType := by
  decide

/-! ## C27: the local matrix built by `distrib_msr_matrix` -/

theorem readAt_natCast {α : Type} (a : List α) (n : Nat) : readAt a (n : Int) = a[n]? := by
  unfold readAt
  rw [if_pos (Int.natCast_nonneg n), Int.toNat_natCast]

theorem writeTo_natCast {α : Type} (a : List α) (n : Nat) (v : α) (h : n < a.length) :
    writeTo a (n : Int) v = some (a.set n v) := by
  unfold writeTo
  rw [Int.toNat_natCast, if_pos ⟨Int.natCast_nonneg n, h⟩]

theorem forCount_succ (lo : Int) (n : Nat) : forCount lo (n + 1) = lo :: forCount (lo + 1) n := rfl

/-- The inner loop of `distrib_msr_matrix` for local row `i`, started with `bindx1[i+1] = p`
behind the pointer part of the array and with room for `cnt` entries: it copies the `cnt`
global entries from position `lo` on to the positions from `p` on, leaves `p + cnt` in
`bindx1[i+1]` and changes nothing else. -/
theorem distrib_copyLoop_spec (val : List Rat) (bindx : List Int) (i : Nat) :
    ∀ (cnt lo p : Nat) (bindx1 : List Int) (val1 : List Rat),
      bindx1[i + 1]? = some (p : Int) → i + 1 < p → p + cnt ≤ bindx1.length →
      p + cnt ≤ val1.length → lo + cnt ≤ bindx.length → lo + cnt ≤ val.length →
      ∃ bindx1a val1a,
        distrib_copyLoop val bindx i (forCount (lo : Int) cnt) (bindx1, val1)
          = some (bindx1a, val1a) ∧
        bindx1a.length = bindx1.length ∧ val1a.length = val1.length ∧
        bindx1a[i + 1]? = some ((p + cnt : Nat) : Int) ∧
        (∀ k, k < cnt → bindx1a[p + k]? = bindx[lo + k]? ∧ val1a[p + k]? = val[lo + k]?) ∧
        (∀ q, q ≠ i + 1 → (q < p ∨ p + cnt ≤ q) → bindx1a[q]? = bindx1[q]?) ∧
        (∀ q, (q < p ∨ p + cnt ≤ q) → val1a[q]? = val1[q]?) := by
  intro cnt
  induction cnt with
  | zero =>
    intro lo p bindx1 val1 hp _ _ _ _ _
    refine ⟨bindx1, val1, rfl, rfl, rfl, hp, ?_, fun _ _ _ => rfl, fun _ _ => rfl⟩
    intro k hk
    exact absurd hk (Nat.not_lt_zero k)
  | succ cnt ih =>
    intro lo p bindx1 val1 hp hip hb hv hgb hgv
    have hv0 : val[lo]? = some (val[lo]) := List.getElem?_eq_getElem (by omega)
    have hb0 : bindx[lo]? = some (bindx[lo]) := List.getElem?_eq_getElem (by omega)
    have hpb : p < bindx1.length := by omega
    have hpv : p < val1.length := by omega
    have hi1 : i + 1 < bindx1.length := by omega
    have hq : (bindx1.set p (bindx[lo]))[i + 1]? = some (p : Int) := by
      rw [List.getElem?_set_ne (by omega)]
      exact hp
    have hstep : distrib_copyLoop val bindx i (forCount (lo : Int) (cnt + 1)) (bindx1, val1)
        = distrib_copyLoop val bindx i (forCount ((lo + 1 : Nat) : Int) cnt)
            ((bindx1.set p (bindx[lo])).set (i + 1) ((p + 1 : Nat) : Int),
             val1.set p (val[lo])) := by
      rw [forCount_succ, distrib_copyLoop]
      simp only [hp, readAt_natCast, hv0, hb0, writeTo_natCast _ _ _ hpv,
        writeTo_natCast _ _ _ hpb, hq]
      have hw : writeTo (bindx1.set p (bindx[lo])) ((i : Int) + 1) ((p : Int) + 1)
          = some ((bindx1.set p (bindx[lo])).set (i + 1) ((p + 1 : Nat) : Int)) := by
        have := writeTo_natCast (bindx1.set p (bindx[lo])) (i + 1) ((p : Int) + 1)
          (by rw [List.length_set]; exact hi1)
        push_cast at this ⊢
        exact this
      simp only [hw]
      push_cast
      rfl
    obtain ⟨b2, v2, e, l1, l2, g1, g2, g3, g4⟩ := ih (lo + 1) (p + 1)
      ((bindx1.set p (bindx[lo])).set (i + 1) ((p + 1 : Nat) : Int)) (val1.set p (val[lo]))
      (by rw [List.getElem?_set_self (by rw [List.length_set]; exact hi1)])
      (by omega) (by simp only [List.length_set]; omega) (by simp only [List.length_set]; omega)
      (by omega) (by omega)
    refine ⟨b2, v2, hstep.trans e, ?_, ?_, ?_, ?_, ?_, ?_⟩
    · rw [l1]; simp only [List.length_set]
    · rw [l2]; simp only [List.length_set]
    · rw [g1]; congr 2; omega
    · intro k hk
      rcases k with _ | k
      · rw [Nat.add_zero, Nat.add_zero, g3 p (by omega) (Or.inl (by omega)),
          g4 p (Or.inl (by omega)), List.getElem?_set_ne (by omega),
          List.getElem?_set_self hpb, List.getElem?_set_self hpv, hb0, hv0]
        exact ⟨rfl, rfl⟩
      · have := g2 k (by omega)
        rw [show p + (k + 1) = p + 1 + k by omega, show lo + (k + 1) = lo + 1 + k by omega]
        exact this
    · intro q hq1 hq2
      rw [g3 q hq1 (by omega), List.getElem?_set_ne (by omega), List.getElem?_set_ne (by omega)]
    · intro q hq2
      rw [g4 q (by omega), List.getElem?_set_ne (by omega)]

theorem readAt_natCast_succ {α : Type} (a : List α) (n : Nat) :
    readAt a ((n : Int) + 1) = a[n + 1]? := by
  have := readAt_natCast a (n + 1)
  push_cast at this
  exact this

/-- What validity of a global row gives: the row index, the start and the number of its
off-diagonal entries as natural numbers, and every read the loops make for it. -/
theorem MsrRowValid_reads (g : MsrLocal) (row : Int) (h : MsrRowValid g row) :
    ∃ (r lo cnt : Nat) (bv xv dv : Rat), row = (r : Int) ∧ r = row.toNat ∧
      g.b[r]? = some bv ∧ g.x[r]? = some xv ∧ g.val[r]? = some dv ∧
      g.bindx[r]? = some (lo : Int) ∧ g.bindx[r + 1]? = some ((lo + cnt : Nat) : Int) ∧
      lo + cnt ≤ g.bindx.length ∧ lo + cnt ≤ g.val.length ∧
      msrRowStart g.bindx row = (lo : Int) ∧ msrRowEnd g.bindx row = ((lo + cnt : Nat) : Int) ∧
      msrRowCount g.bindx row = cnt ∧ lo = (msrRowStart g.bindx row).toNat ∧
      (∀ xe, g.xexact = some xe → ∃ ev, xe[r]? = some ev) := by
  obtain ⟨h0, h1, h2, h3, h4, h5, h6, h7, h8, h9⟩ := h
  have hr : row = (row.toNat : Int) := (Int.toNat_of_nonneg h0).symm
  have hs : msrRowStart g.bindx row = g.bindx[row.toNat]?.getD 0 := by
    unfold msrRowStart readAt
    rw [if_pos h0]
  have he : msrRowEnd g.bindx row = g.bindx[row.toNat + 1]?.getD 0 := by
    unfold msrRowEnd
    rw [hr, readAt_natCast_succ, Int.toNat_natCast]
  have e1 : g.bindx[row.toNat]? = some (g.bindx[row.toNat]) := List.getElem?_eq_getElem (by omega)
  have e2 : g.bindx[row.toNat + 1]? = some (g.bindx[row.toNat + 1]) :=
    List.getElem?_eq_getElem h1
  rw [e1, Option.getD_some] at hs
  rw [e2, Option.getD_some] at he
  have hlo : ((msrRowStart g.bindx row).toNat : Int) = msrRowStart g.bindx row :=
    Int.toNat_of_nonneg h6
  have hcnt : ((msrRowStart g.bindx row).toNat + msrRowCount g.bindx row : Nat)
      = (msrRowEnd g.bindx row).toNat := by
    unfold msrRowCount
    omega
  have hhi : (((msrRowStart g.bindx row).toNat + msrRowCount g.bindx row : Nat) : Int)
      = msrRowEnd g.bindx row := by
    rw [hcnt]
    exact Int.toNat_of_nonneg (le_trans h6 h7)
  refine ⟨row.toNat, (msrRowStart g.bindx row).toNat, msrRowCount g.bindx row,
    g.b[row.toNat], g.x[row.toNat], g.val[row.toNat], hr, rfl,
    List.getElem?_eq_getElem h3, List.getElem?_eq_getElem h4, List.getElem?_eq_getElem h2,
    ?_, ?_, ?_, ?_, hlo.symm, hhi.symm, rfl, rfl, ?_⟩
  · rw [e1, hlo, hs]
  · rw [e2, hhi, he]
  · rw [hcnt]; omega
  · rw [hcnt]; omega
  · intro xe hxe
    rw [hxe] at h5
    simp only [Option.all_some, decide_eq_true_eq] at h5
    exact ⟨xe[row.toNat], List.getElem?_eq_getElem h5⟩

theorem forRange_natCast (lo cnt : Nat) :
    forRange (lo : Int) ((lo + cnt : Nat) : Int) = forCount (lo : Int) cnt := by
  unfold forRange
  congr 1
  push_cast
  omega

theorem spec_localStart_succ (g : MsrLocal) (update : List Int) (i : Nat) (row : Int)
    (h : update[i]? = some row) :
    spec_localStart g update (i + 1)
      = spec_localStart g update i + msrRowCount g.bindx row := by
  unfold spec_localStart
  rw [List.take_succ, h]
  simp only [Option.toList_some, List.map_append, List.map_cons, List.map_nil, List.sum_append,
    List.sum_cons, List.sum_nil]
  omega

theorem spec_localStart_le (g : MsrLocal) (update : List Int) (i : Nat) :
    spec_localStart g update i ≤ spec_localStart g update update.length := by
  unfold spec_localStart
  have h : (update.map (msrRowCount g.bindx)).sum
      = ((update.take i).map (msrRowCount g.bindx)).sum
        + ((update.drop i).map (msrRowCount g.bindx)).sum := by
    rw [← List.sum_append, ← List.map_append, List.take_append_drop]
  rw [List.take_length, h]
  omega

theorem spec_localStart_ge (g : MsrLocal) (update : List Int) (i : Nat) :
    update.length + 1 ≤ spec_localStart g update i := by
  unfold spec_localStart
  omega

theorem writeTo_natCast_succ {α : Type} (a : List α) (n : Nat) (v : α) (h : n + 1 < a.length) :
    writeTo a ((n : Int) + 1) v = some (a.set (n + 1) v) := by
  have := writeTo_natCast a (n + 1) v h
  push_cast at this
  exact this

theorem distrib_xexactStep_spec (xexact xexact1 : Option (List Rat)) (i r N : Nat)
    (h1 : ∀ xe, xexact = some xe → ∃ xe1, xexact1 = some xe1 ∧ xe1.length = N)
    (h2 : xexact = none → xexact1 = none)
    (h3 : ∀ xe, xexact = some xe → ∃ ev, xe[r]? = some ev) (hi : i < N) :
    ∃ xeNew, distrib_xexactStep xexact xexact1 i (r : Int) = some xeNew ∧
      (∀ xe, xexact = some xe → ∃ xe1, xeNew = some xe1 ∧ xe1.length = N) ∧
      (xexact = none → xeNew = none) := by
  cases hx : xexact with
  | none =>
    refine ⟨none, ?_, (fun xe h => nomatch h), fun _ => rfl⟩
    rw [h2 hx]
    rfl
  | some xe =>
    obtain ⟨xe1, e1, l1⟩ := h1 xe hx
    obtain ⟨ev, e2⟩ := h3 xe hx
    refine ⟨some (xe1.set i ev), ?_, fun xe' _ => ⟨_, rfl, by rw [List.length_set]; exact l1⟩,
      (fun h => nomatch h)⟩
    rw [e1]
    unfold distrib_xexactStep
    simp only [readAt_natCast, e2, writeTo_natCast _ _ _ (l1.symm ▸ hi), Option.map_some']

/-- The loop over the local rows of `distrib_msr_matrix`, started at local row `s` with
`bindx1[s]` holding the start of that row: it runs without an access outside an array, writes
the diagonal value, the end pointer and the off-diagonal entries of every remaining row, and
leaves the entries of the earlier rows as they are. -/
theorem distrib_rowLoop_spec (g : MsrLocal) (update : List Int)
    (hrows : ∀ row ∈ update, MsrRowValid g row) :
    ∀ (n s : Nat) (l : MsrLocal), s + n = update.length →
      l.bindx.length = spec_localStart g update update.length →
      l.val.length = spec_localStart g update update.length →
      l.b.length = update.length → l.x.length = update.length →
      (∀ xe, g.xexact = some xe → ∃ xe1, l.xexact = some xe1 ∧ xe1.length = update.length) →
      (g.xexact = none → l.xexact = none) →
      l.bindx[s]? = some (spec_localStart g update s : Int) →
      ∃ l1, distrib_rowLoop g update (List.range' s n) l = some l1 ∧
        l1.n_nonzeros = l.n_nonzeros ∧
        l1.bindx.length = l.bindx.length ∧ l1.val.length = l.val.length ∧
        (∀ i row, s ≤ i → update[i]? = some row →
          l1.val[i]? = g.val[row.toNat]? ∧
          l1.bindx[i + 1]? = some (spec_localStart g update (i + 1) : Int) ∧
          ∀ k, k < msrRowCount g.bindx row →
            l1.bindx[spec_localStart g update i + k]?
              = g.bindx[(msrRowStart g.bindx row).toNat + k]? ∧
            l1.val[spec_localStart g update i + k]?
              = g.val[(msrRowStart g.bindx row).toNat + k]?) ∧
        (∀ q, (q ≤ s ∨ (update.length < q ∧ q < spec_localStart g update s)) →
          l1.bindx[q]? = l.bindx[q]?) ∧
        (∀ q, (q < s ∨ (update.length ≤ q ∧ q < spec_localStart g update s)) →
          l1.val[q]? = l.val[q]?) := by
  intro n
  induction n with
  | zero =>
    intro s l hs _ _ _ _ _ _ _
    refine ⟨l, rfl, rfl, rfl, rfl, ?_, fun _ _ => rfl, fun _ _ => rfl⟩
    intro i row hi hrow
    have : update[i]? = none := List.getElem?_eq_none (by omega)
    rw [this] at hrow
    exact nomatch hrow
  | succ n ih =>
    intro s l hs hlb hlv hb hx hxe hxn hps
    have hsN : s < update.length := by omega
    have hrow0 : update[s]? = some (update[s]) := List.getElem?_eq_getElem hsN
    obtain ⟨r, lo, cnt, bv, xv, dv, hr, hr', fb, fx, fv, fl, fh, hbl, hvl, ms, me, mc, mlo, fxe⟩ :=
      MsrRowValid_reads g (update[s]) (hrows _ (List.getElem_mem hsN))
    have hrow : update[s]? = some (r : Int) := by rw [hrow0, hr]
    have hPs : spec_localStart g update (s + 1) = spec_localStart g update s + cnt := by
      rw [spec_localStart_succ g update s _ hrow0, mc]
    have hPle := spec_localStart_le g update (s + 1)
    have hPge := spec_localStart_ge g update s
    obtain ⟨xeNew, ex, sx1, sx2⟩ := distrib_xexactStep_spec g.xexact l.xexact s r update.length
      hxe hxn fxe hsN
    have hs1 : s + 1 < l.bindx.length := by omega
    obtain ⟨b2, v2, ec, lb2, lv2, c1, c2, c3, c4⟩ := distrib_copyLoop_spec g.val g.bindx s cnt lo
      (spec_localStart g update s)
      (l.bindx.set (s + 1) (spec_localStart g update s : Int)) (l.val.set s dv)
      (by rw [List.getElem?_set_self (by omega)])
      (by omega) (by rw [List.length_set]; omega) (by rw [List.length_set]; omega) hbl hvl
    rw [List.length_set] at lb2 lv2
    have hstep : distrib_rowLoop g update (List.range' s (n + 1)) l
        = distrib_rowLoop g update (List.range' (s + 1) n)
            { l with val := v2, bindx := b2, b := l.b.set s bv, x := l.x.set s xv,
                     xexact := xeNew } := by
      rw [List.range'_succ, distrib_rowLoop]
      simp only [hrow, readAt_natCast, readAt_natCast_succ, fb, fx, fv, fl, fh,
        writeTo_natCast _ _ _ (hb.symm ▸ hsN), writeTo_natCast _ _ _ (hx.symm ▸ hsN), ex,
        writeTo_natCast l.val s dv (by omega), hps,
        writeTo_natCast_succ l.bindx s _ hs1, forRange_natCast, ec]
    obtain ⟨l1, e1, n1, lb1, lv1, r1, r2, r3⟩ := ih (s + 1)
      { l with val := v2, bindx := b2, b := l.b.set s bv, x := l.x.set s xv, xexact := xeNew }
      (by omega) (lb2.trans hlb) (lv2.trans hlv) (by simp only [List.length_set]; exact hb)
      (by simp only [List.length_set]; exact hx) sx1 sx2
      (by show b2[s + 1]? = _; rw [c1, hPs])
    refine ⟨l1, hstep.trans e1, n1, lb1.trans lb2, lv1.trans lv2, ?_, ?_, ?_⟩
    · intro i row hi hri
      rcases Nat.eq_or_lt_of_le hi with rfl | hlt
      · have hrr : row = (r : Int) := by
          rw [hrow] at hri
          exact (Option.some.inj hri).symm
        have hrt : row.toNat = r := by rw [hrr, Int.toNat_natCast]
        have hms : (msrRowStart g.bindx row).toNat = lo := by
          rw [hrr, ← hr, ms, Int.toNat_natCast]
        have hmc : msrRowCount g.bindx row = cnt := by rw [hrr, ← hr, mc]
        refine ⟨?_, ?_, ?_⟩
        · rw [r3 s (Or.inl (by omega))]
          show v2[s]? = _
          rw [c4 s (Or.inl (by omega)), List.getElem?_set_self (by omega), hrt, fv]
        · rw [r2 (s + 1) (Or.inl (le_refl _))]
          show b2[s + 1]? = _
          rw [c1, hPs]
        · intro k hk
          rw [hmc] at hk
          rw [hms, r2 _ (Or.inr ⟨by omega, by omega⟩), r3 _ (Or.inr ⟨by omega, by omega⟩)]
          exact c2 k hk
      · exact r1 i row hlt hri
    · intro q hq
      have h1 : l1.bindx[q]? = b2[q]? := by
        apply r2
        rcases hq with h | h
        · exact Or.inl (by omega)
        · exact Or.inr ⟨h.1, by omega⟩
      rw [h1, c3 q (by omega) (Or.inl (by omega)), List.getElem?_set_ne (by omega)]
    · intro q hq
      have h1 : l1.val[q]? = v2[q]? := by
        apply r3
        rcases hq with h | h
        · exact Or.inl (by omega)
        · exact Or.inr ⟨h.1, by omega⟩
      rw [h1, c4 q (Or.inl (by omega)), List.getElem?_set_ne (by omega)]

theorem distrib_countLoop_spec (g : MsrLocal) (update : List Int)
    (hrows : ∀ row ∈ update, MsrRowValid g row) :
    ∀ (n s : Nat) (acc : Int), s + n ≤ update.length →
      distrib_countLoop g.bindx update (List.range' s n) acc
        = some (acc + ((((update.drop s).take n).map (msrRowCount g.bindx)).sum : Nat)) := by
  intro n
  induction n with
  | zero =>
    intro s acc _
    simp [distrib_countLoop]
  | succ n ih =>
    intro s acc hs
    have hsN : s < update.length := by omega
    have hrow0 : update[s]? = some (update[s]) := List.getElem?_eq_getElem hsN
    obtain ⟨r, lo, cnt, bv, xv, dv, hr, hr', fb, fx, fv, fl, fh, hbl, hvl, ms, me, mc, mlo, fxe⟩ :=
      MsrRowValid_reads g (update[s]) (hrows _ (List.getElem_mem hsN))
    have hrow : update[s]? = some (r : Int) := by rw [hrow0, hr]
    rw [List.range'_succ, distrib_countLoop]
    simp only [hrow, readAt_natCast, readAt_natCast_succ, fl, fh]
    rw [ih (s + 1) _ (by omega), List.drop_eq_getElem_cons hsN, List.take_succ_cons,
      List.map_cons, List.sum_cons, mc]
    congr 1
    push_cast
    ring

theorem msrRowCount_sum (g : MsrLocal) :
    ∀ update : List Int, (∀ row ∈ update, MsrRowValid g row) →
      (((update.map (msrRowCount g.bindx)).sum : Nat) : Int)
        = (update.map fun row => msrRowEnd g.bindx row - msrRowStart g.bindx row).sum := by
  intro update
  induction update with
  | nil => intro _; rfl
  | cons a rest ih =>
    intro h
    have ha := h a (List.mem_cons_self _ _)
    have hcnt : ((msrRowCount g.bindx a : Nat) : Int)
        = msrRowEnd g.bindx a - msrRowStart g.bindx a := by
      unfold msrRowCount
      have := ha.2.2.2.2.2.2.2.1
      omega
    rw [List.map_cons, List.sum_cons, List.map_cons, List.sum_cons, Nat.cast_add, hcnt,
      ih (fun row hr => h row (List.mem_cons_of_mem _ hr))]

/-- C27: for more than one process, `update` of `N_update` entries and every row listed in it
a row of the global MSR matrix, `distrib_msr_matrix` builds the local matrix without an access
outside an array, and the result is the MSR copy of the listed rows: the recomputed
`n_nonzeros` is `N_update` plus the off-diagonal counts of the listed rows; both local arrays
have `n_nonzeros + 1` entries; `bindx1[0] = N_update + 1`; `bindx1[N_update] = n_nonzeros + 1`;
and for every local row `i` with global row `row = update[i]`, `val1[i]` is the diagonal value
`val[row]`, `bindx1[i]` and `bindx1[i+1]` are the start positions of rows `i` and `i + 1`, which
differ by `bindx[row+1] - bindx[row]` and lie behind the `N_update + 1` leading entries and
within the arrays, and the off-diagonal values and global column indices of the row are
copied in order to the positions from `bindx1[i]` on. -/
theorem C27_local_msr_copy (N_procs : Int) (g : MsrLocal) (N_update : Int) (update : List Int)
    (hP : N_procs > 1) (hN : N_update = (update.length : Int))
    (hrows : ∀ row ∈ update, MsrRowValid g row) :
    ∃ l, distrib_msr_matrix N_procs g N_update update = some l ∧
      l.n_nonzeros = N_update
        + (update.map fun row => msrRowEnd g.bindx row - msrRowStart g.bindx row).sum ∧
      l.bindx.length = (l.n_nonzeros + 1).toNat ∧ l.val.length = (l.n_nonzeros + 1).toNat ∧
      l.bindx[0]? = some (N_update + 1) ∧
      l.bindx[update.length]? = some (l.n_nonzeros + 1) ∧
      ∀ i row, update[i]? = some row →
        l.val[i]? = g.val[row.toNat]? ∧ g.val[row.toNat]? ≠ none ∧
        l.bindx[i]? = some (spec_localStart g update i : Int) ∧
        l.bindx[i + 1]? = some (spec_localStart g update (i + 1) : Int) ∧
        (spec_localStart g update (i + 1) : Int) - (spec_localStart g update i : Int)
          = msrRowEnd g.bindx row - msrRowStart g.bindx row ∧
        update.length + 1 ≤ spec_localStart g update i ∧
        spec_localStart g update (i + 1) ≤ l.bindx.length ∧
        ∀ k, k < msrRowCount g.bindx row →
          l.bindx[spec_localStart g update i + k]?
            = g.bindx[(msrRowStart g.bindx row).toNat + k]? ∧
          g.bindx[(msrRowStart g.bindx row).toNat + k]? ≠ none ∧
          l.val[spec_localStart g update i + k]?
            = g.val[(msrRowStart g.bindx row).toNat + k]? ∧
          g.val[(msrRowStart g.bindx row).toNat + k]? ≠ none := by
  have hM : spec_localStart g update update.length
      = update.length + 1 + (update.map (msrRowCount g.bindx)).sum := by
    unfold spec_localStart
    rw [List.take_length]
  have hcount := distrib_countLoop_spec g update hrows update.length 0 N_update (by omega)
  rw [List.drop_zero, List.take_length, ← List.range_eq_range'] at hcount
  have hnz : ((N_update + (((update.map (msrRowCount g.bindx)).sum : Nat) : Int) + 1).toNat)
      = spec_localStart g update update.length := by
    rw [hM, hN]
    omega
  have hpos : 0 < spec_localStart g update update.length := by
    have := spec_localStart_ge g update update.length
    omega
  have hw : writeTo (List.replicate (spec_localStart g update update.length) (0 : Int)) 0
      (N_update + 1)
      = some ((List.replicate (spec_localStart g update update.length) (0 : Int)).set 0
          (N_update + 1)) := by
    unfold writeTo
    rw [if_pos ⟨le_refl _, by rw [List.length_replicate]; exact hpos⟩]
    rfl
  have hP0 : ((spec_localStart g update 0 : Nat) : Int) = N_update + 1 := by
    unfold spec_localStart
    rw [hN]
    simp
  obtain ⟨l1, e1, n1, lb1, lv1, r1, r2, r3⟩ := distrib_rowLoop_spec g update hrows update.length 0
    { n_nonzeros := N_update + (((update.map (msrRowCount g.bindx)).sum : Nat) : Int),
      val := List.replicate (spec_localStart g update update.length) 0,
      bindx := (List.replicate (spec_localStart g update update.length) (0 : Int)).set 0
        (N_update + 1),
      b := List.replicate update.length 0, x := List.replicate update.length 0,
      xexact := if g.xexact.isSome then some (List.replicate update.length 0) else none }
    (by omega) (by simp) (by simp) (by simp) (by simp)
    (by
      intro xe hxe
      rw [hxe]
      exact ⟨_, rfl, by simp⟩)
    (by
      intro hxe
      rw [hxe]
      rfl)
    (by
      show ((List.replicate (spec_localStart g update update.length) (0 : Int)).set 0
        (N_update + 1))[0]? = _
      rw [List.getElem?_set_self (by rw [List.length_replicate]; exact hpos), hP0])
  have hlen : N_update.toNat = update.length := by rw [hN, Int.toNat_natCast]
  have hres : distrib_msr_matrix N_procs g N_update update = some l1 := by
    unfold distrib_msr_matrix
    rw [if_pos hP, hlen, hcount]
    simp only [hnz, hw]
    rw [List.range_eq_range']
    exact e1
  simp only [List.length_set, List.length_replicate] at lb1 lv1
  have hnz1 : (l1.n_nonzeros + 1).toNat = spec_localStart g update update.length := by
    rw [n1]
    exact hnz
  have hb0 : l1.bindx[0]? = some (N_update + 1) := by
    rw [r2 0 (Or.inl (le_refl _))]
    show ((List.replicate (spec_localStart g update update.length) (0 : Int)).set 0
      (N_update + 1))[0]? = _
    rw [List.getElem?_set_self (by rw [List.length_replicate]; exact hpos)]
  have hstart : ∀ i, i ≤ update.length →
      l1.bindx[i]? = some (spec_localStart g update i : Int) := by
    intro i hi
    rcases i with _ | j
    · rw [hb0, hP0]
    · have hj : j < update.length := by omega
      exact (r1 j (update[j]) (Nat.zero_le _) (List.getElem?_eq_getElem hj)).2.1
  refine ⟨l1, hres, ?_, by rw [hnz1]; exact lb1, by rw [hnz1]; exact lv1, hb0, ?_, ?_⟩
  · rw [n1, msrRowCount_sum g update hrows]
  · rw [hstart _ (le_refl _), n1, hM, hN]
    push_cast
    ring_nf
  · intro i row hrow
    have hi : i < update.length := (List.getElem?_eq_some_iff.1 hrow).1
    have hmem : row ∈ update := by
      rw [← (List.getElem?_eq_some_iff.1 hrow).2]
      exact List.getElem_mem hi
    obtain ⟨q1, q2, q3⟩ := r1 i row (Nat.zero_le _) hrow
    obtain ⟨r, lo, cnt, bv, xv, dv, hr, hr', fb, fx, fv, fl, fh, hbl, hvl, ms, me, mc, mlo, fxe⟩ :=
      MsrRowValid_reads g row (hrows row hmem)
    have hsucc := spec_localStart_succ g update i row hrow
    have hle := spec_localStart_le g update (i + 1)
    refine ⟨q1, ?_, hstart i (le_of_lt hi), q2, ?_, spec_localStart_ge g update i,
      by rw [lb1]; exact hle, ?_⟩
    · rw [← hr', fv]
      exact Option.some_ne_none _
    · rw [hsucc, me, ms, mc]
      push_cast
      ring
    · intro k hk
      obtain ⟨k1, k2⟩ := q3 k hk
      rw [mc] at hk
      refine ⟨k1, ?_, k2, ?_⟩
      · rw [← mlo, List.getElem?_eq_getElem (by omega)]
        exact Option.some_ne_none _
      · rw [← mlo, List.getElem?_eq_getElem (by omega)]
        exact Option.some_ne_none _

/-- Witness for C27: rows 1 and 3 of the 4 by 4 tridiagonal example on one of two processes. -/
theorem C27_local_msr_copy_witness :
    (2 : Int) > 1 ∧ (2 : Int) = (([1, 3] : List Int).length : Int) ∧
    (∀ row ∈ ([1, 3] : List Int), MsrRowValid tridiagonalMsr row) ∧
    distrib_msr_matrix 2 tridiagonalMsr 2 [1, 3]
      = some { n_nonzeros := 5, val := [2, 2, 0, -1, -1, -1], bindx := [3, 5, 6, 0, 2, 2],
               b := [0, 1], x := [0, 0], xexact := none } ∧
    ∃ l, distrib_msr_matrix 2 tridiagonalMsr 2 [1, 3] = some l ∧
      l.bindx[0]? = some (2 + 1) ∧
      l.bindx[([1, 3] : List Int).length]? = some (l.n_nonzeros + 1) :=
  ⟨by decide, by decide, by decide, by decide!,
   (C27_local_msr_copy 2 tridiagonalMsr 2 [1, 3] (by decide) (by decide) (by decide)).imp
     fun _ h => ⟨h.1, h.2.2.2.2.1, h.2.2.2.2.2.1⟩⟩

/-! ## C28: `options[AZ_pre_calc]` and the presence of a preconditioner -/

/-- C28 (code evaluated at the failing input): the demo session is as a constructor leaves it
(`options[AZ_pre_calc] = AZ_calc`, no preconditioner). After `ConstructPreconditioner` a
preconditioner is present and `options[AZ_pre_calc] = AZ_reuse`. The re-binding
`Iterate(A, X, B, 100, 1/1000)` that follows destroys that preconditioner in `DeleteMemory`,
which never touches the options, and returns with no preconditioner present and
`options[AZ_pre_calc]` still `AZ_reuse`; `DestroyPreconditioner` on the same state resets it to
`AZ_calc`. -/
theorem C28_reuse_without_preconditioner :
    demoSession.options_.AZ_pre_calc = AZ_calc ∧ demoSession.Prec_ = none ∧
    (demoSession.ConstructPreconditioner breakdownEnv 0).1 = 0 ∧
    (demoSession.ConstructPreconditioner breakdownEnv 0).2.2.Prec_ ≠ none ∧
    (demoSession.ConstructPreconditioner breakdownEnv 0).2.2.options_.AZ_pre_calc = AZ_reuse ∧
    (((demoSession.ConstructPreconditioner breakdownEnv 0).2.2.Iterate_A_X_B breakdownEnv
        true (some [0]) (some 1) 100 (1 / 1000)).2.Prec_ = none) ∧
    (((demoSession.ConstructPreconditioner breakdownEnv 0).2.2.Iterate_A_X_B breakdownEnv
        true (some [0]) (some 1) 100 (1 / 1000)).2.options_.AZ_pre_calc = AZ_reuse) ∧
    AZ_reuse ≠ AZ_calc ∧
    ((demoSession.ConstructPreconditioner breakdownEnv 0).2.2.DestroyPreconditioner.2.options_.AZ_pre_calc
      = AZ_calc) ∧
    (∀ s : AztecOO, s.DeleteMemory.options_ = s.options_) ∧
    (∀ s : AztecOO, s.azVarsAllocated_ = true → s.DeleteMemory.Prec_ = none) := by
  refine ⟨rfl, rfl, by decide!, by decide!, by decide!, by decide!, by decide!, by decide,
    by decide!, ?_, ?_⟩
  · intro s
    unfold AztecOO.DeleteMemory
    split_ifs <;> rfl
  · intro s hs
    unfold AztecOO.DeleteMemory
    rw [if_neg (by rw [hs]; decide)]
    split_ifs with h
    · rfl
    · exact not_not.1 h

/-! ## C29: the failure codes of `Iterate` -/

/-- C29 (counterexample): `Iterate` returns -1 both on a session with no operator bound and
on a bound session whose kernel reports parameter-error, and -2 both for a missing
user-supplied preconditioner and for a kernel that reports breakdown. -/
theorem C29_codes_coincide :
    unboundSession.A_ = false ∧
    (unboundSession.Iterate (scriptedEnv [(AZ_normal, 0, [0])]) 100 (1 / 1000)).1 = .ret (-1) ∧
    demoSession.A_ = true ∧ demoSession.X_ = true ∧ demoSession.B_ = true ∧
    (demoSession.Iterate (scriptedEnv [(AZ_param, 1, [1])]) 100 (1 / 1000)).1 = .ret (-1) ∧
    userKindSession.Prec_ = none ∧ userKindSession.options_.AZ_precond = AZ_user_precond ∧
    (userKindSession.Iterate (scriptedEnv [(AZ_normal, 0, [0])]) 100 (1 / 1000)).1 = .ret (-2) ∧
    (demoSession.Iterate (scriptedEnv [(AZ_breakdown, 1, [1])]) 100 (1 / 1000)).1 = .ret (-2) := by
  decide!

/-- C29 (amended): the result of `Iterate(MaxIters, Tolerance)` is -1 for a null operator or
vector and -2 for a missing user-supplied preconditioner; when the kernel is called, the
result is -1, -2, -3, -4 exactly for the statuses parameter-error, breakdown, precision-loss
and ill-conditioned. These four codes are pairwise distinct, negative, and distinct from the
results 0 and 1; the code of a null operator or vector is the code of parameter-error and the
code of a missing user-supplied preconditioner is the code of breakdown. -/
theorem C29_failure_codes (env : AztecEnv) (s : AztecOO) (MaxIters : Int) (Tolerance : Rat) :
    ((s.X_ = false ∨ s.B_ = false ∨ s.A_ = false) →
      s.Iterate env MaxIters Tolerance = (.ret (-1), s)) ∧
    (s.A_ = true → s.X_ = true → s.B_ = true → s.Prec_ = none →
      s.options_.AZ_precond = AZ_user_precond →
      (s.Iterate env MaxIters Tolerance).1 = .ret (-2)) ∧
    (s.A_ = true → s.X_ = true → s.B_ = true →
      (s.Prec_ ≠ none ∨ s.options_.AZ_precond ≠ AZ_user_precond) →
      ((s.Iterate env MaxIters Tolerance).1 = .ret (-1) ↔
        (env.AZ_iterate s.attempts.length
          (s.Iterate_kernelInput MaxIters Tolerance)).status.AZ_why = AZ_param) ∧
      ((s.Iterate env MaxIters Tolerance).1 = .ret (-2) ↔
        (env.AZ_iterate s.attempts.length
          (s.Iterate_kernelInput MaxIters Tolerance)).status.AZ_why = AZ_breakdown) ∧
      ((s.Iterate env MaxIters Tolerance).1 = .ret (-3) ↔
        (env.AZ_iterate s.attempts.length
          (s.Iterate_kernelInput MaxIters Tolerance)).status.AZ_why = AZ_loss) ∧
      ((s.Iterate env MaxIters Tolerance).1 = .ret (-4) ↔
        (env.AZ_iterate s.attempts.length
          (s.Iterate_kernelInput MaxIters Tolerance)).status.AZ_why = AZ_ill_cond)) ∧
    [(-1 : Int), -2, -3, -4, 0, 1].Nodup ∧ (∀ v ∈ [(-1 : Int), -2, -3, -4], v < 0) ∧
    [AZ_param, AZ_breakdown, AZ_loss, AZ_ill_cond, AZ_normal, AZ_maxits].Nodup := by
  refine ⟨?_, ?_, ?_, by decide, by decide, by decide⟩
  · intro h
    unfold AztecOO.Iterate
    rw [if_pos (by rcases h with h | h | h <;> simp [h])]
  · intro hA hX hB hP hU
    unfold AztecOO.Iterate
    simp [hA, hX, hB, hP, hU, AztecOO.SetIterTol]
  · intro hA hX hB hP
    obtain ⟨e1, e2, -⟩ := Iterate_eq env s MaxIters Tolerance hA hX hB hP
    obtain ⟨-, -, k1, k2, k3, k4⟩ := endStatus_spec (s.Iterate env MaxIters Tolerance).2
    rw [e2, ← e1]
    exact ⟨k1, k2, k3, k4⟩

/-! ## C30: the drop-tolerance escalation -/

theorem kspaceEnter_ilut (s : AztecOO) (l : AdaptiveLocals) :
    (kspaceEnter s l).options_.AZ_kspace = l.kspace ∧
    (kspaceEnter s l).options_.AZ_subdomain_solve = s.options_.AZ_subdomain_solve ∧
    (kspaceEnter s l).NumTrials_ = s.NumTrials_ ∧
    (s.options_.AZ_subdomain_solve = AZ_ilut → (kspaceEnter s l).params_.AZ_ilut_fill = l.fill) := by
  unfold kspaceEnter AztecOO.setFill
  simp only
  split_ifs with h
  · exact ⟨rfl, rfl, rfl, fun _ => rfl⟩
  · exact ⟨rfl, rfl, rfl, fun h' => absurd h' h⟩

theorem step_attempts_extend (env : AztecEnv) (c : AdaptiveConfig) :
    ∃ t, (c.step env).s.attempts = c.s.attempts ++ t := by
  by_cases h : c.pc = .solve
  · rw [step_solve env c h]
    refine ⟨[{ options := c.s.options_, params := c.s.params_, condest := c.s.condest_,
               Prec := c.s.Prec_ }], ?_⟩
    show (solveStep env c.s c.l).1.attempts = _
    rw [(solveStep_shape env c.s c.l).1]
  · exact ⟨[], by rw [(step_frame env c h).2.2.1, List.append_nil]⟩

theorem drop_zero_step (env : AztecEnv) (c : AdaptiveConfig) (h : c.s.params_.AZ_drop = 0) :
    (c.step env).s.params_.AZ_drop = 0 := by
  apply step_elim env c (fun d => d.s.params_.AZ_drop = 0)
  · intro _ _
    show (kspaceEnter c.s c.l).params_.AZ_drop = 0
    rw [(kspaceEnter_frame c.s c.l).1]; exact h
  · intro _ _; exact h
  · intro _ _; exact h
  · intro _ _; exact h
  · intro _ _ s1 l1 hs
    obtain ⟨e1, -⟩ := condStep_shape env c.s s1 c.l l1 hs
    show s1.params_.AZ_drop = 0
    rw [e1]; exact h
  · intro _ _ _; exact h
  · intro _ _; exact h
  · intro _
    show (solveStep env c.s c.l).1.params_.AZ_drop = 0
    by_cases hm : (env.AZ_iterate c.s.attempts.length c.s).status.AZ_why = AZ_maxits
    · obtain ⟨m1, -, -, -⟩ := solveStep_maxits env c.s c.l hm
      obtain ⟨ea, eb, ec⟩ := escalate_spec c.s c.l
      rw [m1]
      by_cases ha : c.l.fill < c.l.curMaxFill
      · rw [(ea ha).2.2.1]; exact h
      · by_cases hb : c.s.options_.AZ_subdomain_solve = AZ_ilut ∧ c.s.params_.AZ_drop > 0
        · rw [(eb ha hb).2.2.1]
        · rw [(ec ha hb).2.2.1]; exact h
    · rw [(solveStep_no_escalation env c.s c.l hm).2]; exact h
  · intro _; exact h

theorem LocalsInEffect_step (env : AztecEnv) (c : AdaptiveConfig) (h : LocalsInEffect c) :
    LocalsInEffect (c.step env) := by
  apply step_elim env c LocalsInEffect
  · intro _ _ _
    obtain ⟨k1, k2, -, k4⟩ := kspaceEnter_ilut c.s c.l
    refine ⟨fun hi => ?_, Or.inl k1⟩
    show (kspaceEnter c.s c.l).params_.AZ_ilut_fill = c.l.fill
    exact k4 (k2 ▸ hi)
  · intro _ _ hp
    rcases hp with hp | hp | ⟨hp, -⟩ <;> exact nomatch hp
  · intro hpc hg _
    exact h (Or.inr (Or.inr ⟨hpc, hg.2⟩))
  · intro _ _ hp
    rcases hp with hp | hp | ⟨hp, -⟩ <;> exact nomatch hp
  · intro hpc _ s1 l1 hs _
    obtain ⟨e1, e2⟩ := condStep_shape env c.s s1 c.l l1 hs
    have hc := h (Or.inl hpc)
    show (s1.options_.AZ_subdomain_solve = AZ_ilut → s1.params_.AZ_ilut_fill = l1.fill) ∧
      (s1.options_.AZ_kspace = l1.kspace ∨
        (¬ l1.fill < l1.curMaxFill ∧
         ¬ (s1.options_.AZ_subdomain_solve = AZ_ilut ∧ s1.params_.AZ_drop > 0)))
    rw [e1, e2]
    exact hc
  · intro _ _ _ hp
    rcases hp with hp | hp | ⟨hp, -⟩ <;> exact nomatch hp
  · intro hpc _ _
    exact h (Or.inl hpc)
  · intro hpc hp
    have hlt : (solveStep env c.s c.l).2.curTrial < (solveStep env c.s c.l).1.NumTrials_ := by
      rcases hp with hp | hp | ⟨-, hp⟩
      · exact nomatch hp
      · exact nomatch hp
      · exact hp
    have hc := h (Or.inr (Or.inl hpc))
    obtain ⟨e1, e2⟩ := solveStep_shape env c.s c.l
    have hN : (solveStep env c.s c.l).1.NumTrials_ = c.s.NumTrials_ := by rw [e1]
    have hS : (solveStep env c.s c.l).1.options_ = c.s.options_ := by rw [e1]
    have hI : (solveStep env c.s c.l).1.params_.AZ_ilut_fill = c.s.params_.AZ_ilut_fill := by
      rw [e1]
    have hMF : (solveStep env c.s c.l).2.curMaxFill = c.l.curMaxFill := by rw [e2]
    show ((solveStep env c.s c.l).1.options_.AZ_subdomain_solve = AZ_ilut →
        (solveStep env c.s c.l).1.params_.AZ_ilut_fill = (solveStep env c.s c.l).2.fill) ∧
      ((solveStep env c.s c.l).1.options_.AZ_kspace = (solveStep env c.s c.l).2.kspace ∨
        (¬ (solveStep env c.s c.l).2.fill < (solveStep env c.s c.l).2.curMaxFill ∧
         ¬ ((solveStep env c.s c.l).1.options_.AZ_subdomain_solve = AZ_ilut ∧
            (solveStep env c.s c.l).1.params_.AZ_drop > 0)))
    rw [hN] at hlt
    rw [hS, hI, hMF]
    by_cases hm : (env.AZ_iterate c.s.attempts.length c.s).status.AZ_why = AZ_maxits
    · obtain ⟨m1, m2, m3, m4⟩ := solveStep_maxits env c.s c.l hm
      obtain ⟨ea, eb, ec⟩ := escalate_spec c.s c.l
      rw [m4] at hlt
      rw [m1, m2, m3]
      by_cases ha : c.l.fill < c.l.curMaxFill
      · rw [(ea ha).2.2.2] at hlt
        exact absurd hlt (lt_irrefl _)
      · by_cases hb : c.s.options_.AZ_subdomain_solve = AZ_ilut ∧ c.s.params_.AZ_drop > 0
        · rw [(eb ha hb).2.2.2] at hlt
          exact absurd hlt (lt_irrefl _)
        · obtain ⟨c1, c2, c3, -⟩ := ec ha hb
          rw [c1, c3]
          exact ⟨hc.1, Or.inr ⟨ha, hb⟩⟩
    · obtain ⟨q1, q2⟩ := solveStep_no_escalation env c.s c.l hm
      rw [q1, q2]
      exact hc
  · intro hstop hp
    rcases hstop with hs | hs <;> rcases hp with hp | hp | ⟨hp, -⟩ <;> rw [hs] at hp <;>
      exact absurd hp (by decide)

theorem AfterDropEscalation_step (env : AztecEnv) (k : Nat) (F : Rat) (K : Int)
    (c : AdaptiveConfig) (h : AfterDropEscalation k F K c) :
    AfterDropEscalation k F K (c.step env) := by
  obtain ⟨hI, hD, hcase⟩ := h
  have hD1 := drop_zero_step env c hD
  have hI1 : (c.step env).s.options_.AZ_subdomain_solve = AZ_ilut := by
    apply step_elim env c (fun d => d.s.options_.AZ_subdomain_solve = AZ_ilut)
    · intro _ _
      show (kspaceEnter c.s c.l).options_.AZ_subdomain_solve = AZ_ilut
      rw [(kspaceEnter_ilut c.s c.l).2.1]; exact hI
    · intro _ _; exact hI
    · intro _ _; exact hI
    · intro _ _; exact hI
    · intro _ _ s1 l1 hs
      obtain ⟨e1, -⟩ := condStep_shape env c.s s1 c.l l1 hs
      show s1.options_.AZ_subdomain_solve = AZ_ilut
      rw [e1]; exact hI
    · intro _ _ _; exact hI
    · intro _ _; exact hI
    · intro _
      show (solveStep env c.s c.l).1.options_.AZ_subdomain_solve = AZ_ilut
      rw [(solveStep_shape env c.s c.l).1]; exact hI
    · intro _; exact hI
  refine ⟨hI1, hD1, ?_⟩
  rcases hcase with ⟨hlen, hF, hK, hpc⟩ | ⟨a, ha, haF, haK, haD⟩
  · apply step_elim env c (fun d =>
      (d.s.attempts.length = k + 1 ∧ d.l.fill = F ∧ d.l.kspace = K ∧
        (d.pc = .kspaceLoop ∨ d.pc = .done ∨ d.pc = .fault ∨
         (d.pc = .trialLoop ∧ ¬ d.l.curTrial < d.s.NumTrials_) ∨
         ((d.pc = .trialLoop ∨ d.pc = .condLoop ∨ d.pc = .solve) ∧
          d.s.options_.AZ_kspace = K ∧ d.s.params_.AZ_ilut_fill = F))) ∨
      (∃ a, d.s.attempts[k + 1]? = some a ∧ a.fill = F ∧ a.options.AZ_kspace = K ∧
        a.params.AZ_drop = 0))
    · intro _ _
      obtain ⟨k1, -, -, k4⟩ := kspaceEnter_ilut c.s c.l
      refine Or.inl ⟨?_, hF, hK, Or.inr (Or.inr (Or.inr (Or.inr ⟨Or.inl rfl, ?_, ?_⟩)))⟩
      · show (kspaceEnter c.s c.l).attempts.length = k + 1
        rw [(kspaceEnter_frame c.s c.l).2]; exact hlen
      · show (kspaceEnter c.s c.l).options_.AZ_kspace = K
        rw [k1]; exact hK
      · show (kspaceEnter c.s c.l).params_.AZ_ilut_fill = F
        rw [k4 hI]; exact hF
    · intro _ _
      exact Or.inl ⟨hlen, hF, hK, Or.inr (Or.inl rfl)⟩
    · intro hp hg
      refine Or.inl ⟨hlen, hF, hK, Or.inr (Or.inr (Or.inr (Or.inr ⟨Or.inr (Or.inl rfl), ?_⟩)))⟩
      rcases hpc with h | h | h | ⟨-, h⟩ | ⟨-, h⟩
      · rw [hp] at h; exact absurd h (by decide)
      · rw [hp] at h; exact absurd h (by decide)
      · rw [hp] at h; exact absurd h (by decide)
      · exact absurd hg.2 h
      · exact h
    · intro _ _
      exact Or.inl ⟨hlen, hF, hK, Or.inl rfl⟩
    · intro hp _ s1 l1 hs
      obtain ⟨e1, e2⟩ := condStep_shape env c.s s1 c.l l1 hs
      have hin : c.s.options_.AZ_kspace = K ∧ c.s.params_.AZ_ilut_fill = F := by
        rcases hpc with h | h | h | ⟨h, -⟩ | ⟨-, h⟩
        · rw [hp] at h; exact absurd h (by decide)
        · rw [hp] at h; exact absurd h (by decide)
        · rw [hp] at h; exact absurd h (by decide)
        · rw [hp] at h; exact absurd h (by decide)
        · exact h
      refine Or.inl ⟨?_, ?_, ?_, Or.inr (Or.inr (Or.inr (Or.inr ⟨Or.inr (Or.inl rfl), ?_, ?_⟩)))⟩
      · show s1.attempts.length = k + 1
        rw [e1]; exact hlen
      · show l1.fill = F
        rw [e2]; exact hF
      · show l1.kspace = K
        rw [e2]; exact hK
      · show s1.options_.AZ_kspace = K
        rw [e1]; exact hin.1
      · show s1.params_.AZ_ilut_fill = F
        rw [e1]; exact hin.2
    · intro _ _ _
      exact Or.inl ⟨hlen, hF, hK, Or.inr (Or.inr (Or.inl rfl))⟩
    · intro hp _
      have hin : c.s.options_.AZ_kspace = K ∧ c.s.params_.AZ_ilut_fill = F := by
        rcases hpc with h | h | h | ⟨h, -⟩ | ⟨-, h⟩
        · rw [hp] at h; exact absurd h (by decide)
        · rw [hp] at h; exact absurd h (by decide)
        · rw [hp] at h; exact absurd h (by decide)
        · rw [hp] at h; exact absurd h (by decide)
        · exact h
      exact Or.inl ⟨hlen, hF, hK, Or.inr (Or.inr (Or.inr (Or.inr ⟨Or.inr (Or.inr rfl), hin⟩)))⟩
    · intro hp
      have hin : c.s.options_.AZ_kspace = K ∧ c.s.params_.AZ_ilut_fill = F := by
        rcases hpc with h | h | h | ⟨h, -⟩ | ⟨-, h⟩
        · rw [hp] at h; exact absurd h (by decide)
        · rw [hp] at h; exact absurd h (by decide)
        · rw [hp] at h; exact absurd h (by decide)
        · rw [hp] at h; exact absurd h (by decide)
        · exact h
      refine Or.inr ⟨(⟨c.s.options_, c.s.params_, c.s.condest_, c.s.Prec_⟩ : SolveAttempt),
        ?_, ?_, hin.1, hD⟩
      · show (solveStep env c.s c.l).1.attempts[k + 1]? = _
        rw [(solveStep_shape env c.s c.l).1]
        show (c.s.attempts ++ _)[k + 1]? = _
        rw [← hlen, List.getElem?_append_right (le_refl _), Nat.sub_self]
        rfl
      · unfold SolveAttempt.fill
        rw [if_pos hI]
        exact hin.2
    · intro _
      exact Or.inl ⟨hlen, hF, hK, hpc⟩
  · right
    obtain ⟨t, ht⟩ := step_attempts_extend env c
    refine ⟨a, ?_, haF, haK, haD⟩
    rw [ht, List.getElem?_append_left (List.getElem?_eq_some_iff.1 ha).1]
    exact ha

/-- Once the drop tolerance is 0 at a step of the loops, it is 0 at every later step. -/
theorem drop_zero_run (env : AztecEnv) (c : AdaptiveConfig) (h : c.s.params_.AZ_drop = 0)
    (j : Nat) : (c.run env j).s.params_.AZ_drop = 0 :=
  run_invariant env (fun d => d.s.params_.AZ_drop = 0) (fun d hd => drop_zero_step env d hd) c h j

/-- What the solve step does when it takes the drop-tolerance escalation. -/
theorem dropEscalation_step (env : AztecEnv) (c : AdaptiveConfig) (h : dropEscalation env c) :
    (c.step env).pc = .trialLoop ∧ (c.step env).s.params_.AZ_drop = 0 ∧
    (c.step env).l.fill = c.l.fill ∧ (c.step env).l.kspace = c.l.kspace ∧
    (c.step env).l.curTrial = (c.step env).s.NumTrials_ ∧
    (c.step env).s.options_ = c.s.options_ ∧
    (c.step env).s.attempts
      = c.s.attempts ++ [{ options := c.s.options_, params := c.s.params_,
                           condest := c.s.condest_, Prec := c.s.Prec_ }] := by
  obtain ⟨hpc, hm, ha, hi, hd⟩ := h
  rw [step_solve env c hpc]
  obtain ⟨e1, e2⟩ := solveStep_shape env c.s c.l
  obtain ⟨m1, m2, m3, m4⟩ := solveStep_maxits env c.s c.l hm
  obtain ⟨b1, b2, b3, b4⟩ := (escalate_spec c.s c.l).2.1 ha ⟨hi, hd⟩
  refine ⟨rfl, ?_, ?_, ?_, ?_, ?_, ?_⟩
  · show (solveStep env c.s c.l).1.params_.AZ_drop = 0
    rw [m1, b3]
  · show (solveStep env c.s c.l).2.fill = c.l.fill
    rw [m2, b1]
  · show (solveStep env c.s c.l).2.kspace = c.l.kspace
    rw [m3, b2]
  · show (solveStep env c.s c.l).2.curTrial = (solveStep env c.s c.l).1.NumTrials_
    rw [m4, b4, e1]
  · show (solveStep env c.s c.l).1.options_ = c.s.options_
    rw [e1]
  · show (solveStep env c.s c.l).1.attempts = _
    rw [e1]

/-- C30: within one call of `AdaptiveIterate`, for all collaborators (the kernel has no way to
change the parameters), if the solve attempt at step `n` of the loops takes the
drop-tolerance escalation, then `params[AZ_drop]` is 0 after it and at every later step, no
other solve attempt of the call takes that escalation (neither before nor after), and the
next kernel call recorded after the triggering one, whenever there is one, ran with the same
fill, the same subspace size and drop tolerance 0. -/
theorem C30_drop_escalation_once (env : AztecEnv) (s : AztecOO) (MaxIters : Int)
    (Tolerance : Rat) (c0 : AdaptiveConfig) (n : Nat)
    (h0 : s.AdaptiveIterate_begin env MaxIters Tolerance = .loop c0)
    (hn : dropEscalation env (c0.run env n)) :
    (∀ m, n < m → (c0.run env m).s.params_.AZ_drop = 0) ∧
    (∀ m, m ≠ n → ¬ dropEscalation env (c0.run env m)) ∧
    (c0.run env (n + 1)).s.attempts
      = (c0.run env n).s.attempts ++
          [{ options := (c0.run env n).s.options_, params := (c0.run env n).s.params_,
             condest := (c0.run env n).s.condest_, Prec := (c0.run env n).s.Prec_ }] ∧
    (∀ j a, (c0.run env (n + 1 + j)).s.attempts[(c0.run env n).s.attempts.length + 1]? = some a →
      a.fill = (c0.run env n).s.fillInEffect ∧
      a.options.AZ_kspace = (c0.run env n).s.options_.AZ_kspace ∧
      a.params.AZ_drop = 0 ∧
      ∀ t, (c0.run env (n + 1 + j)).s.attempts[(c0.run env n).s.attempts.length]? = some t →
        a.fill = t.fill ∧ a.options.AZ_kspace = t.options.AZ_kspace) := by
  have hzero : ∀ (p m : Nat), p < m → dropEscalation env (c0.run env p) →
      (c0.run env m).s.params_.AZ_drop = 0 := by
    intro p m hpm hp
    obtain ⟨j, rfl⟩ : ∃ j, m = p + 1 + j := ⟨m - p - 1, by omega⟩
    rw [run_add]
    apply drop_zero_run
    rw [run_succ]
    exact (dropEscalation_step env _ hp).2.1
  obtain ⟨s6, -, h6⟩ := (begin_elim env s MaxIters Tolerance (fun _ => True) trivial
    (fun _ _ => trivial) (fun _ _ => trivial)).2 c0 h0
  have he := locals_entry s6 c0 h6
  have hloc : LocalsInEffect (c0.run env n) := by
    apply run_invariant env LocalsInEffect (LocalsInEffect_step env)
    intro hp
    rcases hp with hp | hp | ⟨hp, -⟩ <;> rw [he.1] at hp <;> exact absurd hp (by decide)
  obtain ⟨d1, d2, d3, d4, d5, d6, d7⟩ := dropEscalation_step env _ hn
  obtain ⟨hpc, hm, ha, hi, hd⟩ := hn
  obtain ⟨f1, f2⟩ := hloc (Or.inr (Or.inl hpc))
  have hk : (c0.run env n).s.options_.AZ_kspace = (c0.run env n).l.kspace := by
    rcases f2 with h | h
    · exact h
    · exact absurd ⟨hi, hd⟩ h.2
  have hfe : (c0.run env n).s.fillInEffect = (c0.run env n).s.params_.AZ_ilut_fill := by
    unfold AztecOO.fillInEffect
    rw [if_pos hi]
  have hinit : AfterDropEscalation (c0.run env n).s.attempts.length
      (c0.run env n).s.params_.AZ_ilut_fill (c0.run env n).s.options_.AZ_kspace
      (c0.run env (n + 1)) := by
    rw [run_succ]
    refine ⟨by rw [d6]; exact hi, d2, Or.inl ⟨?_, ?_, ?_, ?_⟩⟩
    · rw [d7, List.length_append, List.length_singleton]
    · rw [d3, f1 hi]
    · rw [d4, hk]
    · exact Or.inr (Or.inr (Or.inr (Or.inl ⟨d1, by rw [d5]; exact lt_irrefl _⟩)))
  refine ⟨fun m hm' => hzero n m hm' ⟨hpc, hm, ha, hi, hd⟩, ?_, by rw [run_succ]; exact d7, ?_⟩
  · intro m hne hmesc
    rcases Nat.lt_or_gt_of_ne hne with hlt | hgt
    · have := hzero m n hlt hmesc
      rw [this] at hd
      exact absurd hd (lt_irrefl _)
    · have := hzero n m hgt ⟨hpc, hm, ha, hi, hd⟩
      have h5 := hmesc.2.2.2.2
      rw [this] at h5
      exact absurd h5 (lt_irrefl _)
  · intro j a haj
    have hinv := run_invariant env _ (AfterDropEscalation_step env
      (c0.run env n).s.attempts.length (c0.run env n).s.params_.AZ_ilut_fill
      (c0.run env n).s.options_.AZ_kspace) (c0.run env (n + 1)) hinit j
    rw [← run_add] at hinv
    obtain ⟨-, -, hcase⟩ := hinv
    have hres : a.fill = (c0.run env n).s.params_.AZ_ilut_fill ∧
        a.options.AZ_kspace = (c0.run env n).s.options_.AZ_kspace ∧ a.params.AZ_drop = 0 := by
      rcases hcase with ⟨hlen, -⟩ | ⟨a', ha', r1, r2, r3⟩
      · have := (List.getElem?_eq_some_iff.1 haj).1
        omega
      · rw [haj] at ha'
        cases ha'
        exact ⟨r1, r2, r3⟩
    refine ⟨by rw [hfe]; exact hres.1, hres.2.1, hres.2.2, ?_⟩
    intro t ht
    have hpre : ∀ j, ∃ u, (c0.run env (n + 1 + j)).s.attempts
        = (c0.run env (n + 1)).s.attempts ++ u := by
      intro j
      induction j with
      | zero => exact ⟨[], by rw [Nat.add_zero, List.append_nil]⟩
      | succ j ih =>
        obtain ⟨u, hu⟩ := ih
        obtain ⟨v, hv⟩ := step_attempts_extend env (c0.run env (n + 1 + j))
        refine ⟨u ++ v, ?_⟩
        rw [show n + 1 + (j + 1) = (n + 1 + j) + 1 from rfl, run_succ, hv, hu,
          List.append_assoc]
    obtain ⟨u, hu⟩ := hpre j
    rw [run_succ] at hu
    rw [hu, d7, List.append_assoc,
      List.getElem?_append_right (le_refl _), Nat.sub_self] at ht
    simp only [List.singleton_append, List.getElem?_cons_zero, Option.some.injEq] at ht
    rw [← ht]
    refine ⟨?_, hres.2.1⟩
    rw [hres.1]
    unfold SolveAttempt.fill
    rw [if_pos hi]

/-- Witness for C30: the demo session against a kernel that always ends in max-iterations
takes the drop-tolerance escalation at its third solve attempt (step 16); the fourth runs with
the same fill 4 and subspace size 30. -/
theorem C30_drop_escalation_once_witness :
    demoSession.AdaptiveIterate_begin stallEnv 100 (1 / 1000) = .loop (demoEntry stallEnv) ∧
    dropEscalation stallEnv ((demoEntry stallEnv).run stallEnv 16) ∧
    ((demoEntry stallEnv).run stallEnv 16).s.attempts.length = 2 ∧
    (((demoEntry stallEnv).run stallEnv (16 + 1 + 6)).s.attempts[2 + 1]?.map
      fun a => (a.fill, a.options.AZ_kspace, a.params.AZ_drop)) = some (4, 30, 0) ∧
    (∀ m, 16 < m → ((demoEntry stallEnv).run stallEnv m).s.params_.AZ_drop = 0) ∧
    (∀ m, m ≠ 16 → ¬ dropEscalation stallEnv ((demoEntry stallEnv).run stallEnv m)) :=
  ⟨by decide!, by decide!, by decide!, by decide!,
   (C30_drop_escalation_once stallEnv demoSession 100 (1 / 1000) (demoEntry stallEnv) 16
      (by decide!) (by decide!)).1,
   (C30_drop_escalation_once stallEnv demoSession 100 (1 / 1000) (demoEntry stallEnv) 16
      (by decide!) (by decide!)).2.1⟩
